import Mathlib

/-!
# bqwriter: configuration sanitising, the built-in logger and the streamer

A shallow embedding of `streamer_config.go` and `logger.go` (package
`bqwriter`): the four configuration records, the four `sanitize...Config`
functions (once as functions on values, once on an explicit heap, with a
proof that the second computes the first) and the built-in logger, followed by
theorems about them. The stub sink of `streamer_test.go` is embedded as well;
the streamer engine that the tests drive has no source here and is modelled
from the specification, as a transition system over that sink.

Conventions of the embedding:

* Go `int` and `time.Duration` are 64-bit two's-complement integers. They are
  carried as `Int`; the one arithmetic expression of the file,
  `(BatchSize + 1) / 2`, is evaluated with explicit wrap-around (`wrapInt`) and
  Go's truncated division (`goDiv`).
* A Go pointer to a struct is an `Option` of the struct's contents, `none`
  being `nil`. The pointers to the external types `bigquery.Schema` and
  `descriptorpb.DescriptorProto` are only tested against `nil` and copied, so
  they are `Option`s of an abstract reference.
* A Go `(value, error)` result is a pair of `Option`s, so that `(nil, nil)`,
  `(nil, err)` and `(cfg, nil)` are all distinct values.
* `if cfg == nil { cfg = sanCfg }` makes `cfg` an alias of the config under
  construction. The embedding keeps that: every read of `cfg.Field` goes
  through `readCfg`, which returns the config built so far when the input
  was `nil`.
* `constant` and `internal` are packages of their own. The values of
  `constant` are a parameter (`Constants`) of every function that reads them,
  so every theorem holds for all values of the constants; the two errors and
  the default logger of `internal` are constructors of `Error` and `Logger`.
* The methods of the stub sink mutate their receiver; they are functions that
  return the result together with the new sink. The engine interleaves its
  threads: a state changes by one event at a time, and a theorem about every
  run covers every schedule.
-/

namespace Bqwriter

/-! ## Machine integers -/

/-- Smallest value of a Go `int` (64 bit). -/
def minInt : Int := -(2 ^ 63)

/-- Largest value of a Go `int` (64 bit). -/
def maxInt : Int := 2 ^ 63 - 1

/-- Reduction of a mathematical integer to the 64-bit two's-complement range,
as performed by every Go `int` operation. -/
def wrapInt (x : Int) : Int := (x + 2 ^ 63) % 2 ^ 64 - 2 ^ 63

/-- Go `a + b` on `int`. -/
def goAdd (a b : Int) : Int := wrapInt (a + b)

/-- Go `a / b` on `int` for `b ≠ 0`: the quotient is truncated toward zero. -/
def goDiv (a b : Int) : Int := wrapInt (Int.tdiv a b)

/-- A value that fits a Go `int`. -/
def IsInt (x : Int) : Prop := minInt ≤ x ∧ x ≤ maxInt

instance (x : Int) : Decidable (IsInt x) := by
  unfold IsInt; exact inferInstance

/-! ## External types -/

/-- Target of a non-nil `*bigquery.Schema`. -/
structure SchemaRef where
  addr : Nat
  deriving DecidableEq, Repr

/-- Target of a non-nil `*descriptorpb.DescriptorProto`. -/
structure DescriptorRef where
  addr : Nat
  deriving DecidableEq, Repr

/-- The type `bigquery.DataFormat` is a Go string type. -/
abbrev DataFormat := String

/-- The type `bigquery.TableWriteDisposition` is a Go string type. -/
abbrev TableWriteDisposition := String

/-- Value of `bigquery.JSON`. -/
def bigqueryJSON : DataFormat := "NEWLINE_DELIMITED_JSON"

/-- Value of `bigquery.CSV`. -/
def bigqueryCSV : DataFormat := "CSV"

/-- Value of `bigquery.Avro`. -/
def bigqueryAvro : DataFormat := "AVRO"

/-- Value of `bigquery.WriteAppend`. -/
def bigqueryWriteAppend : TableWriteDisposition := "WRITE_APPEND"

/-- Value of `bigquery.WriteTruncate`. -/
def bigqueryWriteTruncate : TableWriteDisposition := "WRITE_TRUNCATE"

/-- A non-nil `log.Logger` interface value: the built-in logger
(`internal.Logger{}`, errors to STDERR, debug messages ignored) or a logger
supplied by the caller. -/
inductive Logger where
  | builtin : Logger
  | custom (id : Nat) : Logger
  deriving DecidableEq, Repr

/-- The two construction errors of package `internal`. -/
inductive Error where
  | ErrProtobufOrSChemaRequired : Error
  | ErrAutoDetectSchemaNotSupported : Error
  deriving DecidableEq, Repr

/-- Values of package `constant`, which the sanitisers read. -/
structure Constants where
  DefaultWorkerCount : Int
  DefaultWorkerQueueSize : Int
  DefaultBatchSize : Int
  DefaultMaxBatchDelay : Int
  DefaultMaxRetryDeadlineOffset : Int
  DefaultSourceFormat : DataFormat
  DefaultWriteDisposition : TableWriteDisposition
  deriving DecidableEq, Repr

/-- One concrete choice of the constants, used to evaluate the sanitisers on
concrete inputs: two workers, batches of 200 rows, a queue of 100 rows,
durations in nanoseconds (5 s and 32 s). -/
def sampleConstants : Constants where
  DefaultWorkerCount := 2
  DefaultWorkerQueueSize := 100
  DefaultBatchSize := 200
  DefaultMaxBatchDelay := 5000000000
  DefaultMaxRetryDeadlineOffset := 32000000000
  DefaultSourceFormat := bigqueryJSON
  DefaultWriteDisposition := bigqueryWriteAppend

/-! ## Configuration records -/

/-- Go struct `InsertAllClientConfig`; the field defaults are Go's zero values. -/
structure InsertAllClientConfig where
  FailOnInvalidRows : Bool := false
  FailForUnknownValues : Bool := false
  BatchSize : Int := 0
  MaxRetryDeadlineOffset : Int := 0
  deriving DecidableEq, Repr

/-- Go struct `StorageClientConfig`. -/
structure StorageClientConfig where
  BigQuerySchema : Option SchemaRef := none
  ProtobufDescriptor : Option DescriptorRef := none
  deriving DecidableEq, Repr

/-- Go struct `BatchClientConfig`. -/
structure BatchClientConfig where
  BigQuerySchema : Option SchemaRef := none
  SourceFormat : DataFormat := ""
  FailForUnknownValues : Bool := false
  WriteDisposition : TableWriteDisposition := ""
  deriving DecidableEq, Repr

/-- Go struct `StreamerConfig`. -/
structure StreamerConfig where
  WorkerCount : Int := 0
  WorkerQueueSize : Int := 0
  MaxBatchDelay : Int := 0
  Logger : Option Logger := none
  InsertAllClient : Option InsertAllClientConfig := none
  StorageClient : Option StorageClientConfig := none
  BatchClient : Option BatchClientConfig := none
  deriving DecidableEq, Repr

/-- What `cfg.Field` reads after `if cfg == nil { cfg = sanCfg }`: the input
when it was non-nil, otherwise the config under construction. -/
def readCfg {α : Type} (cfg : Option α) (sanCfg : α) : α :=
  match cfg with
  | some c => c
  | none => sanCfg

/-! ## The sanitisers -/

/-- Go `sanitizeInsertAllClientConfig`. -/
def sanitizeInsertAllClientConfig (k : Constants) (cfg : Option InsertAllClientConfig) :
    InsertAllClientConfig :=
  let s0 : InsertAllClientConfig := {}
  let s1 := { s0 with FailOnInvalidRows := (readCfg cfg s0).FailOnInvalidRows }
  let s2 := { s1 with FailForUnknownValues := (readCfg cfg s1).FailForUnknownValues }
  let s3 :=
    if (readCfg cfg s2).BatchSize < 0 then
      { s2 with BatchSize := 1 }
    else if (readCfg cfg s2).BatchSize = 0 then
      { s2 with BatchSize := k.DefaultBatchSize }
    else
      { s2 with BatchSize := (readCfg cfg s2).BatchSize }
  let s4 :=
    if (readCfg cfg s3).MaxRetryDeadlineOffset = 0 then
      { s3 with MaxRetryDeadlineOffset := k.DefaultMaxRetryDeadlineOffset }
    else
      { s3 with MaxRetryDeadlineOffset := (readCfg cfg s3).MaxRetryDeadlineOffset }
  s4

/-- Go `sanitizeStorageClientConfig`. -/
def sanitizeStorageClientConfig (cfg : Option StorageClientConfig) :
    Option StorageClientConfig × Option Error :=
  match cfg with
  | none => (none, none)
  | some c =>
    if c.ProtobufDescriptor = none ∧ c.BigQuerySchema = none then
      (none, some Error.ErrProtobufOrSChemaRequired)
    else
      let s0 : StorageClientConfig := {}
      let s1 := { s0 with BigQuerySchema := c.BigQuerySchema }
      let s2 := { s1 with ProtobufDescriptor := c.ProtobufDescriptor }
      (some s2, none)

/-- Go `sanitizeBatchClientConfig`. -/
def sanitizeBatchClientConfig (k : Constants) (cfg : Option BatchClientConfig) :
    Option BatchClientConfig × Option Error :=
  match cfg with
  | none => (none, none)
  | some c =>
    let b0 : BatchClientConfig := {}
    let b1 := { b0 with BigQuerySchema := c.BigQuerySchema }
    let b2 := { b1 with FailForUnknownValues := c.FailForUnknownValues }
    let b3 :=
      if c.SourceFormat ≠ "" then { b2 with SourceFormat := c.SourceFormat }
      else { b2 with SourceFormat := k.DefaultSourceFormat }
    let b4 :=
      if c.WriteDisposition ≠ "" then { b3 with WriteDisposition := c.WriteDisposition }
      else { b3 with WriteDisposition := k.DefaultWriteDisposition }
    if b4.BigQuerySchema = none ∧ b4.SourceFormat ≠ bigqueryJSON ∧ b4.SourceFormat ≠ bigqueryCSV then
      (none, some Error.ErrAutoDetectSchemaNotSupported)
    else
      (some b4, none)

/-- Go `sanitizeStreamerConfig`. -/
def sanitizeStreamerConfig (k : Constants) (cfg : Option StreamerConfig) :
    Option StreamerConfig × Option Error :=
  let s0 : StreamerConfig := {}
  let s1 :=
    if (readCfg cfg s0).WorkerCount < 0 then
      { s0 with WorkerCount := 1 }
    else if (readCfg cfg s0).WorkerCount = 0 then
      { s0 with WorkerCount := k.DefaultWorkerCount }
    else
      { s0 with WorkerCount := (readCfg cfg s0).WorkerCount }
  let ia := sanitizeInsertAllClientConfig k (readCfg cfg s1).InsertAllClient
  let s2 := { s1 with InsertAllClient := some ia }
  let s3 :=
    if (readCfg cfg s2).WorkerQueueSize < 0 then
      { s2 with WorkerQueueSize := 0 }
    else if (readCfg cfg s2).WorkerQueueSize = 0 then
      if (readCfg cfg s2).StorageClient = none then
        { s2 with WorkerQueueSize := goDiv (goAdd ia.BatchSize 1) 2 }
      else
        { s2 with WorkerQueueSize := k.DefaultWorkerQueueSize }
    else
      { s2 with WorkerQueueSize := (readCfg cfg s2).WorkerQueueSize }
  let s4 :=
    if (readCfg cfg s3).MaxBatchDelay = 0 then
      { s3 with MaxBatchDelay := k.DefaultMaxBatchDelay }
    else
      { s3 with MaxBatchDelay := (readCfg cfg s3).MaxBatchDelay }
  let s5 :=
    if (readCfg cfg s4).Logger = none then
      { s4 with Logger := some Logger.builtin }
    else
      { s4 with Logger := (readCfg cfg s4).Logger }
  match sanitizeStorageClientConfig (readCfg cfg s5).StorageClient with
  | (_, some err) => (none, some err)
  | (storage, none) =>
    let s6 := { s5 with StorageClient := storage }
    match sanitizeBatchClientConfig k (readCfg cfg s6).BatchClient with
    | (_, some err) => (none, some err)
    | (batch, none) =>
      let s7 := { s6 with BatchClient := batch }
      (some s7, none)

/-- The config that the tests call `expectedDefaultStreamerConfig`. -/
def expectedDefaultStreamerConfig (k : Constants) : StreamerConfig where
  WorkerCount := k.DefaultWorkerCount
  WorkerQueueSize := k.DefaultWorkerQueueSize
  MaxBatchDelay := k.DefaultMaxBatchDelay
  Logger := some Logger.builtin
  InsertAllClient := some {
    FailOnInvalidRows := false
    FailForUnknownValues := false
    BatchSize := k.DefaultBatchSize
    MaxRetryDeadlineOffset := k.DefaultMaxRetryDeadlineOffset }
  StorageClient := none
  BatchClient := none

/-! ## The built-in logger (`logger.go`) -/

/-- State of the two standard output streams of the process: the text written
to each so far. -/
structure Streams where
  stdout : String := ""
  stderr : String := ""
  deriving DecidableEq, Repr

/-- The two files of package `os` that a logger could write to. -/
inductive File where
  | Stdout : File
  | Stderr : File
  deriving DecidableEq, Repr

/-- Formatting of package `fmt`, which is external: the text `fmt.Sprint`
gives for an argument list and the text `fmt.Sprintf` gives for a template and
an argument list. Arguments are values of any type `α`. -/
structure Formatter (α : Type) where
  sprint : List α → String
  sprintf : String → List α → String

/-- Effect of a write of `text` to file `f`. -/
def Streams.write (w : Streams) (f : File) (text : String) : Streams :=
  match f with
  | File.Stdout => { w with stdout := w.stdout ++ text }
  | File.Stderr => { w with stderr := w.stderr ++ text }

/-- Go `fmt.Fprint(f, args...)`: writes the formatted arguments to `f`. -/
def fmtFprint {α : Type} (fm : Formatter α) (f : File) (args : List α) (w : Streams) :
    Streams :=
  w.write f (fm.sprint args)

/-- Go `fmt.Fprintf(f, template, args...)`. -/
def fmtFprintf {α : Type} (fm : Formatter α) (f : File) (template : String)
    (args : List α) (w : Streams) : Streams :=
  w.write f (fm.sprintf template args)

/-- Go type `stdLogger`, an empty struct. -/
structure stdLogger where
  deriving DecidableEq, Repr

/-- Go `stdLogger.Debug`: the body is empty. -/
def stdLogger.Debug {α : Type} (_stdl : stdLogger) (_args : List α) (w : Streams) :
    Streams :=
  w

/-- Go `stdLogger.Debugf`: the body is empty. -/
def stdLogger.Debugf {α : Type} (_stdl : stdLogger) (_template : String)
    (_args : List α) (w : Streams) : Streams :=
  w

/-- Go `stdLogger.Error`. -/
def stdLogger.Error {α : Type} (fm : Formatter α) (_stdl : stdLogger) (args : List α)
    (w : Streams) : Streams :=
  fmtFprint fm File.Stderr args w

/-- Go `stdLogger.Errorf`. -/
def stdLogger.Errorf {α : Type} (fm : Formatter α) (_stdl : stdLogger)
    (template : String) (args : List α) (w : Streams) : Streams :=
  fmtFprintf fm File.Stderr template args w

/-- A formatter for string arguments, used to evaluate the logger: `sprint`
concatenates, `sprintf` puts the arguments after the template. -/
def sampleFormatter : Formatter String where
  sprint := fun args => String.join args
  sprintf := fun template args => template ++ String.join args

/-! ## The sanitisers on a heap

The same four functions with the memory made explicit: a config is a cell of
a heap, a pointer is the address of a cell, `new` appends a zero-valued cell,
and every assignment `sanCfg.Field = v` rewrites the cell at address
`sanCfg`. -/

/-- Address of a heap cell. -/
abbrev Addr := Nat

/-- Go struct `StreamerConfig` as stored: the three client fields hold
pointers. -/
structure StreamerConfigCell where
  WorkerCount : Int := 0
  WorkerQueueSize : Int := 0
  MaxBatchDelay : Int := 0
  Logger : Option Logger := none
  InsertAllClient : Option Addr := none
  StorageClient : Option Addr := none
  BatchClient : Option Addr := none
  deriving DecidableEq, Repr

/-- The heap: for each of the four struct types, the cells allocated so far,
cell `a` being the one at address `a`. -/
structure Heap where
  streamer : List StreamerConfigCell := []
  insertAll : List InsertAllClientConfig := []
  storage : List StorageClientConfig := []
  batch : List BatchClientConfig := []
  deriving DecidableEq, Repr

/-- Load of the `StreamerConfig` at address `a`. -/
def Heap.getStreamer (h : Heap) (a : Addr) : StreamerConfigCell := h.streamer.getD a {}

/-- Load of the `InsertAllClientConfig` at address `a`. -/
def Heap.getInsertAll (h : Heap) (a : Addr) : InsertAllClientConfig := h.insertAll.getD a {}

/-- Load of the `StorageClientConfig` at address `a`. -/
def Heap.getStorage (h : Heap) (a : Addr) : StorageClientConfig := h.storage.getD a {}

/-- Load of the `BatchClientConfig` at address `a`. -/
def Heap.getBatch (h : Heap) (a : Addr) : BatchClientConfig := h.batch.getD a {}

/-- Store into the `StreamerConfig` at address `a`. -/
def Heap.setStreamer (h : Heap) (a : Addr) (v : StreamerConfigCell) : Heap :=
  { h with streamer := h.streamer.set a v }

/-- Store into the `InsertAllClientConfig` at address `a`. -/
def Heap.setInsertAll (h : Heap) (a : Addr) (v : InsertAllClientConfig) : Heap :=
  { h with insertAll := h.insertAll.set a v }

/-- Store into the `StorageClientConfig` at address `a`. -/
def Heap.setStorage (h : Heap) (a : Addr) (v : StorageClientConfig) : Heap :=
  { h with storage := h.storage.set a v }

/-- Store into the `BatchClientConfig` at address `a`. -/
def Heap.setBatch (h : Heap) (a : Addr) (v : BatchClientConfig) : Heap :=
  { h with batch := h.batch.set a v }

/-- Go `new(StreamerConfig)`: one more zero-valued cell; its address is the
former number of cells. -/
def Heap.newStreamer (h : Heap) : Heap := { h with streamer := h.streamer ++ [{}] }

/-- Go `new(InsertAllClientConfig)`. -/
def Heap.newInsertAll (h : Heap) : Heap := { h with insertAll := h.insertAll ++ [{}] }

/-- Go `new(StorageClientConfig)`. -/
def Heap.newStorage (h : Heap) : Heap := { h with storage := h.storage ++ [{}] }

/-- Go `new(BatchClientConfig)`. -/
def Heap.newBatch (h : Heap) : Heap := { h with batch := h.batch ++ [{}] }

/-- Assignment to one field of the `StreamerConfig` at address `a`: the cell
is loaded, changed by `f` and stored back. -/
def Heap.modStreamer (h : Heap) (a : Addr) (f : StreamerConfigCell → StreamerConfigCell) :
    Heap :=
  h.setStreamer a (f (h.getStreamer a))

/-- Assignment to one field of the `InsertAllClientConfig` at address `a`. -/
def Heap.modInsertAll (h : Heap) (a : Addr)
    (f : InsertAllClientConfig → InsertAllClientConfig) : Heap :=
  h.setInsertAll a (f (h.getInsertAll a))

/-- Assignment to one field of the `StorageClientConfig` at address `a`. -/
def Heap.modStorage (h : Heap) (a : Addr) (f : StorageClientConfig → StorageClientConfig) :
    Heap :=
  h.setStorage a (f (h.getStorage a))

/-- Assignment to one field of the `BatchClientConfig` at address `a`. -/
def Heap.modBatch (h : Heap) (a : Addr) (f : BatchClientConfig → BatchClientConfig) : Heap :=
  h.setBatch a (f (h.getBatch a))

/-- Go `sanitizeInsertAllClientConfig` on the heap: returns the new pointer. -/
def sanitizeInsertAllClientConfigM (k : Constants) (cfg : Option Addr) (h : Heap) :
    Addr × Heap :=
  let sanCfg := h.insertAll.length
  let h0 := h.newInsertAll
  let cfg := match cfg with
    | some a => a
    | none => sanCfg
  let h1 := h0.modInsertAll sanCfg
    (fun s => { s with FailOnInvalidRows := (h0.getInsertAll cfg).FailOnInvalidRows })
  let h2 := h1.modInsertAll sanCfg
    (fun s => { s with FailForUnknownValues := (h1.getInsertAll cfg).FailForUnknownValues })
  let h3 :=
    if (h2.getInsertAll cfg).BatchSize < 0 then
      h2.modInsertAll sanCfg (fun s => { s with BatchSize := 1 })
    else if (h2.getInsertAll cfg).BatchSize = 0 then
      h2.modInsertAll sanCfg (fun s => { s with BatchSize := k.DefaultBatchSize })
    else
      h2.modInsertAll sanCfg (fun s => { s with BatchSize := (h2.getInsertAll cfg).BatchSize })
  let h4 :=
    if (h3.getInsertAll cfg).MaxRetryDeadlineOffset = 0 then
      h3.modInsertAll sanCfg
        (fun s => { s with MaxRetryDeadlineOffset := k.DefaultMaxRetryDeadlineOffset })
    else
      h3.modInsertAll sanCfg
        (fun s => { s with MaxRetryDeadlineOffset := (h3.getInsertAll cfg).MaxRetryDeadlineOffset })
  (sanCfg, h4)

/-- Go `sanitizeStorageClientConfig` on the heap. -/
def sanitizeStorageClientConfigM (cfg : Option Addr) (h : Heap) :
    (Option Addr × Option Error) × Heap :=
  match cfg with
  | none => ((none, none), h)
  | some cfg =>
    if (h.getStorage cfg).ProtobufDescriptor = none ∧ (h.getStorage cfg).BigQuerySchema = none
    then
      ((none, some Error.ErrProtobufOrSChemaRequired), h)
    else
      let sanCfg := h.storage.length
      let h0 := h.newStorage
      let h1 := h0.modStorage sanCfg
        (fun s => { s with BigQuerySchema := (h0.getStorage cfg).BigQuerySchema })
      let h2 := h1.modStorage sanCfg
        (fun s => { s with ProtobufDescriptor := (h1.getStorage cfg).ProtobufDescriptor })
      ((some sanCfg, none), h2)

/-- Go `sanitizeBatchClientConfig` on the heap. -/
def sanitizeBatchClientConfigM (k : Constants) (cfg : Option Addr) (h : Heap) :
    (Option Addr × Option Error) × Heap :=
  match cfg with
  | none => ((none, none), h)
  | some cfg =>
    let batchCfg := h.batch.length
    let h0 := h.newBatch
    let h1 := h0.modBatch batchCfg
      (fun s => { s with BigQuerySchema := (h0.getBatch cfg).BigQuerySchema })
    let h2 := h1.modBatch batchCfg
      (fun s => { s with FailForUnknownValues := (h1.getBatch cfg).FailForUnknownValues })
    let h3 :=
      if (h2.getBatch cfg).SourceFormat ≠ "" then
        h2.modBatch batchCfg (fun s => { s with SourceFormat := (h2.getBatch cfg).SourceFormat })
      else
        h2.modBatch batchCfg (fun s => { s with SourceFormat := k.DefaultSourceFormat })
    let h4 :=
      if (h3.getBatch cfg).WriteDisposition ≠ "" then
        h3.modBatch batchCfg
          (fun s => { s with WriteDisposition := (h3.getBatch cfg).WriteDisposition })
      else
        h3.modBatch batchCfg (fun s => { s with WriteDisposition := k.DefaultWriteDisposition })
    if (h4.getBatch batchCfg).BigQuerySchema = none ∧
        (h4.getBatch batchCfg).SourceFormat ≠ bigqueryJSON ∧
        (h4.getBatch batchCfg).SourceFormat ≠ bigqueryCSV then
      ((none, some Error.ErrAutoDetectSchemaNotSupported), h4)
    else
      ((some batchCfg, none), h4)

/-- Load through a `*InsertAllClientConfig`; the pointer is never nil where
this is used. -/
def Heap.derefInsertAll (h : Heap) (p : Option Addr) : InsertAllClientConfig :=
  match p with
  | some a => h.getInsertAll a
  | none => {}

/-- Lines 196-202 of `sanitizeStreamerConfig`: the worker count. `cfg` is the
config that is read, `sanCfg` the one that is written. -/
def stepWorkerCount (k : Constants) (cfg sanCfg : Addr) (h : Heap) : Heap :=
  if (h.getStreamer cfg).WorkerCount < 0 then
    h.modStreamer sanCfg (fun s => { s with WorkerCount := 1 })
  else if (h.getStreamer cfg).WorkerCount = 0 then
    h.modStreamer sanCfg (fun s => { s with WorkerCount := k.DefaultWorkerCount })
  else
    h.modStreamer sanCfg (fun s => { s with WorkerCount := (h.getStreamer cfg).WorkerCount })

/-- Line 206 of `sanitizeStreamerConfig`: the insert-all client. -/
def stepInsertAllClient (k : Constants) (cfg sanCfg : Addr) (h : Heap) : Heap :=
  let ia := sanitizeInsertAllClientConfigM k (h.getStreamer cfg).InsertAllClient h
  ia.2.modStreamer sanCfg (fun s => { s with InsertAllClient := some ia.1 })

/-- Lines 210-223 of `sanitizeStreamerConfig`: the worker queue size. -/
def stepWorkerQueueSize (k : Constants) (cfg sanCfg : Addr) (h : Heap) : Heap :=
  if (h.getStreamer cfg).WorkerQueueSize < 0 then
    h.modStreamer sanCfg (fun s => { s with WorkerQueueSize := 0 })
  else if (h.getStreamer cfg).WorkerQueueSize = 0 then
    if (h.getStreamer cfg).StorageClient = none then
      h.modStreamer sanCfg (fun s =>
        { s with
          WorkerQueueSize :=
            goDiv (goAdd
              (h.derefInsertAll (h.getStreamer sanCfg).InsertAllClient).BatchSize 1) 2 })
    else
      h.modStreamer sanCfg (fun s => { s with WorkerQueueSize := k.DefaultWorkerQueueSize })
  else
    h.modStreamer sanCfg
      (fun s => { s with WorkerQueueSize := (h.getStreamer cfg).WorkerQueueSize })

/-- Lines 227-231 of `sanitizeStreamerConfig`: the maximum batch delay. -/
def stepMaxBatchDelay (k : Constants) (cfg sanCfg : Addr) (h : Heap) : Heap :=
  if (h.getStreamer cfg).MaxBatchDelay = 0 then
    h.modStreamer sanCfg (fun s => { s with MaxBatchDelay := k.DefaultMaxBatchDelay })
  else
    h.modStreamer sanCfg
      (fun s => { s with MaxBatchDelay := (h.getStreamer cfg).MaxBatchDelay })

/-- Lines 234-238 of `sanitizeStreamerConfig`: the logger. -/
def stepLogger (cfg sanCfg : Addr) (h : Heap) : Heap :=
  if (h.getStreamer cfg).Logger = none then
    h.modStreamer sanCfg (fun s => { s with Logger := some Logger.builtin })
  else
    h.modStreamer sanCfg (fun s => { s with Logger := (h.getStreamer cfg).Logger })

/-- Lines 249-255 of `sanitizeStreamerConfig`: the batch client and the
successful return. -/
def stepBatchClient (k : Constants) (cfg sanCfg : Addr) (h : Heap) :
    (Option Addr × Option Error) × Heap :=
  let bt := sanitizeBatchClientConfigM k (h.getStreamer cfg).BatchClient h
  let h1 := bt.2.modStreamer sanCfg (fun s => { s with BatchClient := bt.1.1 })
  match bt.1.2 with
  | some err => ((none, some err), h1)
  | none => ((some sanCfg, none), h1)

/-- Lines 242-255 of `sanitizeStreamerConfig`: the storage client, then the
rest. -/
def stepStorageClient (k : Constants) (cfg sanCfg : Addr) (h : Heap) :
    (Option Addr × Option Error) × Heap :=
  let st := sanitizeStorageClientConfigM (h.getStreamer cfg).StorageClient h
  let h1 := st.2.modStreamer sanCfg (fun s => { s with StorageClient := st.1.1 })
  match st.1.2 with
  | some err => ((none, some err), h1)
  | none => stepBatchClient k cfg sanCfg h1

/-- Go `sanitizeStreamerConfig` on the heap: the allocation of the result, the
alias for a nil input, and the blocks of the function body in their order. -/
def sanitizeStreamerConfigM (k : Constants) (cfg : Option Addr) (h : Heap) :
    (Option Addr × Option Error) × Heap :=
  let sanCfg := h.streamer.length
  let h0 := h.newStreamer
  let cfg := match cfg with
    | some a => a
    | none => sanCfg
  let h1 := stepWorkerCount k cfg sanCfg h0
  let h2 := stepInsertAllClient k cfg sanCfg h1
  let h3 := stepWorkerQueueSize k cfg sanCfg h2
  let h4 := stepMaxBatchDelay k cfg sanCfg h3
  let h5 := stepLogger cfg sanCfg h4
  stepStorageClient k cfg sanCfg h5

/-- The config that a pointer to a `StreamerConfig` stands for: the cell with
its three client pointers followed. -/
def Heap.resolve (h : Heap) (a : Addr) : StreamerConfig :=
  let c := h.getStreamer a
  { WorkerCount := c.WorkerCount
    WorkerQueueSize := c.WorkerQueueSize
    MaxBatchDelay := c.MaxBatchDelay
    Logger := c.Logger
    InsertAllClient := c.InsertAllClient.map h.getInsertAll
    StorageClient := c.StorageClient.map h.getStorage
    BatchClient := c.BatchClient.map h.getBatch }

/-- A heap with one caller-built config at address 0, pointing to an
insert-all, a storage and a batch config, each at address 0. -/
def sampleHeap : Heap where
  streamer := [{ WorkerCount := -3, WorkerQueueSize := 0, MaxBatchDelay := 7,
                 Logger := some (Logger.custom 1), InsertAllClient := some 0,
                 StorageClient := some 0, BatchClient := some 0 }]
  insertAll := [{ FailOnInvalidRows := true, BatchSize := 5 }]
  storage := [{ BigQuerySchema := some ⟨7⟩ }]
  batch := [{ SourceFormat := "CSV" }]

/-- The list `m` keeps every cell of `l` in place: `m` is `l` followed by the
cells allocated since. -/
def Extends {α : Type} (l m : List α) : Prop := ∃ t, m = l ++ t

/-- Every cell of heap `h` is still in place, with the same contents, in heap
`g`. -/
def Heap.Extends (h g : Heap) : Prop :=
  Bqwriter.Extends h.streamer g.streamer ∧ Bqwriter.Extends h.insertAll g.insertAll ∧
  Bqwriter.Extends h.storage g.storage ∧ Bqwriter.Extends h.batch g.batch

/-- The pointer `cfg` is nil or the address of a config of `h` whose three
client pointers are nil or addresses of configs of `h`. -/
def Heap.ValidCfg (h : Heap) (cfg : Option Addr) : Prop :=
  ∀ a, cfg = some a →
    a < h.streamer.length ∧
    (∀ q, (h.getStreamer a).InsertAllClient = some q → q < h.insertAll.length) ∧
    (∀ q, (h.getStreamer a).StorageClient = some q → q < h.storage.length) ∧
    (∀ q, (h.getStreamer a).BatchClient = some q → q < h.batch.length)

/-! ## The stub sink of the tests (`streamer_test.go`) -/

/-- A row handed to the streamer: an opaque value; the tests write strings. -/
abbrev Record := String

/-- An `error` value returned by the sink, identified by its message. -/
abbrev SinkError := String

/-- The `data interface{}` argument of `Put`: either a `[]interface{}`, whose
elements are rows, or any other value, which is one row. -/
inductive PutData where
  | slice (rows : List Record) : PutData
  | value (row : Record) : PutData
  deriving DecidableEq, Repr

/-- Go struct `stubBQClient`, the in-memory sink of the tests. The counter
`flushCount` starts at 0 and only grows by 1, so it is a natural number; the
channel `putSignal` is `nil` (`none`) or carries the number of signals sent on
it so far. -/
structure stubBQClient where
  rows : List Record := []
  flushCount : Nat := 0
  flushNextPut : Bool := false
  nextErrors : List SinkError := []
  putSignal : Option Nat := none
  deriving DecidableEq, Repr

/-- Method `stubBQClient.Flush`: return and drop the next queued error, or
count one flush. -/
def stubBQClient.Flush (sbqc : stubBQClient) : Option SinkError × stubBQClient :=
  match sbqc.nextErrors with
  | err :: rest => (some err, { sbqc with nextErrors := rest })
  | [] => (none, { sbqc with flushCount := sbqc.flushCount + 1 })

/-- The deferred function of `Put`: one signal on `putSignal` when it is not
`nil`. The channel is counted, not simulated: in Go a send on a full channel
that nobody reads waits, which the count does not show. What is stated about a
call that returns is therefore stated for a sink whose channel is `nil`, where
no send happens. -/
def stubBQClient.signalPut (sbqc : stubBQClient) : stubBQClient :=
  { sbqc with putSignal := sbqc.putSignal.map (· + 1) }

/-- Method `stubBQClient.Put`: return and drop the next queued error, or append
the rows and, when `flushNextPut` is set, reset it and flush. The first
component of the result is the pair `(flushed, err)`. -/
def stubBQClient.Put (sbqc : stubBQClient) (data : PutData) :
    (Bool × Option SinkError) × stubBQClient :=
  match sbqc.nextErrors with
  | err :: rest => ((false, some err), ({ sbqc with nextErrors := rest }).signalPut)
  | [] =>
    let s1 : stubBQClient :=
      match data with
      | PutData.slice rows => { sbqc with rows := sbqc.rows ++ rows }
      | PutData.value row => { sbqc with rows := sbqc.rows ++ [row] }
    if s1.flushNextPut then
      let r := ({ s1 with flushNextPut := false }).Flush
      ((true, r.1), r.2.signalPut)
    else
      ((false, none), s1.signalPut)

/-- Method `stubBQClient.Close`: return and drop the next queued error, if
any. -/
def stubBQClient.Close (sbqc : stubBQClient) : Option SinkError × stubBQClient :=
  match sbqc.nextErrors with
  | err :: rest => (some err, { sbqc with nextErrors := rest })
  | [] => (none, sbqc)

/-- Method `stubBQClient.AddNextError`. -/
def stubBQClient.AddNextError (sbqc : stubBQClient) (err : SinkError) : stubBQClient :=
  { sbqc with nextErrors := sbqc.nextErrors ++ [err] }

/-- Method `stubBQClient.FlushNextPut`. -/
def stubBQClient.FlushNextPut (sbqc : stubBQClient) : stubBQClient :=
  { sbqc with flushNextPut := true }

/-- Method `stubBQClient.SubscribeToPutSignal`, for a fresh channel. -/
def stubBQClient.SubscribeToPutSignal (sbqc : stubBQClient) : stubBQClient :=
  { sbqc with putSignal := some 0 }

/-! ## The streamer engine

The engine (`Streamer`, its `Write` and `Close`, the worker loop) is not among
the sources; only its tests are. The definitions of this section follow
sections 3 to 7 of the specification. Threads are interleaved: a state changes
by one event at a time, and every order of events is a run. Time is not
measured: the firing of a batch timer is an event that may happen at any
moment, and the elapsed-time ceiling of the retry budget is the number of
retries it leaves room for. -/

/-- Modelled from the spec: the lifecycle flag `EngineState` of the engine,
whose source is missing. "Process-wide lifecycle flag {Open, Closing, Closed}.
Transitions are one-directional and irreversible: Open→Closing→Closed." -/
inductive EngineState where
  | Open : EngineState
  | Closing : EngineState
  | Closed : EngineState
  deriving DecidableEq, Repr

/-- Modelled from the spec: the admission errors of `Write`, whose source is
missing. "Admission errors (`ErrClosed`, `ErrInvalidRecord`): returned
synchronously from `Write`." -/
inductive WriteError where
  | ErrClosed : WriteError
  | ErrInvalidRecord : WriteError
  deriving DecidableEq, Repr

/-- Modelled from the spec: how a call of `Write` ends, the source of `Write`
being missing: it returns without error, it returns an admission error, or it
stays suspended ("`Write` suspends while its target queue is full"). -/
inductive WriteResult where
  | ok : WriteResult
  | blocked : WriteResult
  | error (err : WriteError) : WriteResult
  deriving DecidableEq, Repr

/-- Modelled from the spec: a batch worker, whose source is missing. "Owns
exactly one Record Queue and one in-progress Batch"; `stopped` is the terminal
state `Stopped` of its state machine. The field `written` is a history: the
records routed to this worker so far, in the order they were written. -/
structure Worker where
  queue : List Record := []
  batch : List Record := []
  stopped : Bool := false
  written : List Record := []
  deriving DecidableEq, Repr

/-- Modelled from the spec: what the workers of the missing engine share, the
sink (one stub client for all workers, as `newTestStreamer` builds it) and the
error channel of the logger (`logged`, the errors reported so far). The field
`handed` is a history: every batch handed to the sink so far, with the index of
the worker that handed it. -/
structure Shared where
  client : stubBQClient := {}
  logged : List SinkError := []
  handed : List (Nat × List Record) := []
  deriving DecidableEq, Repr

/-- Modelled from the spec: the engine `Streamer`, whose source is missing:
the lifecycle flag, the configuration consumed at construction (batch size,
queue capacity, retries left by the retry budget), the fixed pool of workers,
the round-robin position of the dispatcher, and the shared part. -/
structure Streamer where
  state : EngineState := EngineState.Open
  batchSize : Nat
  queueSize : Nat
  retries : Nat
  workers : List Worker
  next : Nat := 0
  shared : Shared := {}
  deriving DecidableEq, Repr

/-- Modelled from the spec: the retry policy of the missing engine around
`Put`. "Attempt 1 executes immediately"; a failed attempt is retried while the
budget (`retries` further attempts) lasts, then "give up and surface the last
error". -/
def putWithRetry : Nat → stubBQClient → PutData → (Bool × Option SinkError) × stubBQClient
  | 0, client, data => client.Put data
  | retries + 1, client, data =>
    match client.Put data with
    | ((flushed, none), c1) => ((flushed, none), c1)
    | ((_, some _), c1) => putWithRetry retries c1 data

/-- Modelled from the spec: the retry policy of the missing engine around
`Flush`, as for `Put`. -/
def flushWithRetry : Nat → stubBQClient → Option SinkError × stubBQClient
  | 0, client => client.Flush
  | retries + 1, client =>
    match client.Flush with
    | (none, c1) => (none, c1)
    | (some _, c1) => flushWithRetry retries c1

/-- Modelled from the spec: the report of an error to the logger of the
missing engine ("the error is reported to the Logger"); no error, no report. -/
def Shared.report (sh : Shared) : Option SinkError → Shared
  | none => sh
  | some err => { sh with logged := sh.logged ++ [err] }

/-- Modelled from the spec: state `Flushing` of the missing worker loop. "The
worker hands the current batch to the Sink", under the retry policy; the batch
is "destroyed (cleared) on flush", and when the budget is exhausted "the error
is reported to the Logger and the batch is dropped". The first component is
what the sink returned last. -/
def Worker.handBatch (retries i : Nat) (w : Worker) (sh : Shared) :
    (Bool × Option SinkError) × Worker × Shared :=
  let r := putWithRetry retries sh.client (PutData.slice w.batch)
  (r.1, { w with batch := [] },
    ({ sh with client := r.2, handed := sh.handed ++ [(i, w.batch)] } : Shared).report r.1.2)

/-- Modelled from the spec: state `Accumulating` of the missing worker loop,
for one record: the record is appended to the batch, and the size trigger
("batch length reaches `BatchSize`") promotes to `Flushing`. "If
`BatchSize == 1`, every record triggers an immediate flush." -/
def Worker.receive (batchSize retries i : Nat) (w : Worker) (sh : Shared) (r : Record) :
    Worker × Shared :=
  if batchSize ≤ (w.batch ++ [r]).length then
    (Worker.handBatch retries i { w with batch := w.batch ++ [r] } sh).2
  else
    ({ w with batch := w.batch ++ [r] }, sh)

/-- Modelled from the spec: the explicit flush call of the missing worker
loop, under the retry policy, an exhausted budget being reported to the
logger. -/
def Shared.explicitFlush (retries : Nat) (sh : Shared) : Shared :=
  let r := flushWithRetry retries sh.client
  ({ sh with client := r.2 } : Shared).report r.1

/-- Modelled from the spec: the time trigger of the missing worker loop. A
non-empty batch is handed to the sink; "if the Sink reports it performed an
internal flush already, the worker does not issue a redundant explicit flush
call; otherwise the worker also explicitly invokes the Sink's flush method
after the put succeeds, governed by the same `MaxBatchDelay` timer". With an
empty batch the timer only flushes ("no explicit writes — after 250ms the sink
has received exactly 1 explicit flush call"). -/
def Worker.timedFlush (retries i : Nat) (w : Worker) (sh : Shared) : Worker × Shared :=
  if w.batch = [] then (w, sh.explicitFlush retries)
  else
    match Worker.handBatch retries i w sh with
    | ((false, none), w1, sh1) => (w1, sh1.explicitFlush retries)
    | (_, w1, sh1) => (w1, sh1)

/-- Modelled from the spec: one turn of the missing worker loop on "new record
available": "the worker pulls the next record off its queue". -/
def Worker.pull (batchSize retries i : Nat) (w : Worker) (sh : Shared) : Worker × Shared :=
  match w.queue with
  | [] => (w, sh)
  | r :: rest => Worker.receive batchSize retries i { w with queue := rest } sh r

/-- Modelled from the spec: the missing worker loop on the shutdown signal.
"Records already enqueued before `Close` begins are still flushed during
draining, not discarded": the queue is emptied in order, then the worker does
"flush any non-empty current batch through the same retry policy" with the
final explicit flush ("after `Close`, exactly 2 flush calls total"), "then
transition to `Stopped`". -/
def Worker.drain (batchSize retries i : Nat) (w : Worker) (sh : Shared) : Worker × Shared :=
  let p := w.queue.foldl (fun p r => Worker.receive batchSize retries i p.1 p.2 r)
    ({ w with queue := [] }, sh)
  let q := Worker.timedFlush retries i p.1 p.2
  ({ q.1 with stopped := true }, q.2)

/-- Modelled from the spec: one turn of worker `i` of the missing engine; a
stopped worker, or an index outside the pool, does nothing. "Each worker
exclusively owns its queue and its in-progress batch." -/
def Streamer.onWorker (s : Streamer) (i : Nat) (f : Worker → Shared → Worker × Shared) :
    Streamer :=
  match s.workers[i]? with
  | none => s
  | some w =>
    if w.stopped then s
    else { s with workers := s.workers.set i (f w s.shared).1, shared := (f w s.shared).2 }

/-- Modelled from the spec: construction of the missing engine. "Given pool
size, per-worker queue capacity, max batch delay, and a Sink factory/instance,
starts one execution context per worker and transitions EngineState to
Open." -/
def newStreamer (workerCount queueSize batchSize retries : Nat) (client : stubBQClient) :
    Streamer :=
  { state := EngineState.Open, batchSize := batchSize, queueSize := queueSize,
    retries := retries, workers := List.replicate workerCount {}, next := 0,
    shared := { client := client } }

/-- Modelled from the spec: `Write` of the missing engine (`none` is the `nil`
record). It "fails with `ErrInvalidRecord` if record is nil/empty", "in both
open and closed states", and "fails with `ErrClosed` if EngineState ≠ Open".
Otherwise it selects a worker round-robin and enqueues the record; "when the
target queue is full, `Write` blocks the caller", and "a queue capacity of
exactly 0 means synchronous hand-off", the worker receiving the record at
once. -/
def Streamer.Write (s : Streamer) (record : Option Record) : WriteResult × Streamer :=
  match record with
  | none => (WriteResult.error WriteError.ErrInvalidRecord, s)
  | some r =>
    if s.state ≠ EngineState.Open then (WriteResult.error WriteError.ErrClosed, s)
    else
      match s.workers[s.next % s.workers.length]? with
      | none => (WriteResult.blocked, s)
      | some w =>
        if w.stopped then (WriteResult.blocked, s)
        else if s.queueSize = 0 then
          (WriteResult.ok,
            { s with
              workers := s.workers.set (s.next % s.workers.length)
                (Worker.receive s.batchSize s.retries (s.next % s.workers.length)
                  { w with written := w.written ++ [r] } s.shared r).1
              shared := (Worker.receive s.batchSize s.retries (s.next % s.workers.length)
                  { w with written := w.written ++ [r] } s.shared r).2
              next := s.next + 1 })
        else if w.queue.length < s.queueSize then
          (WriteResult.ok,
            { s with
              workers := s.workers.set (s.next % s.workers.length)
                { w with queue := w.queue ++ [r], written := w.written ++ [r] }
              next := s.next + 1 })
        else (WriteResult.blocked, s)

/-- Modelled from the spec: worker `i` of the missing engine pulls the next
record off its queue. -/
def Streamer.pull (s : Streamer) (i : Nat) : Streamer :=
  s.onWorker i (Worker.pull s.batchSize s.retries i)

/-- Modelled from the spec: the batch timer of worker `i` of the missing
engine fires. -/
def Streamer.tick (s : Streamer) (i : Nat) : Streamer :=
  s.onWorker i (Worker.timedFlush s.retries i)

/-- Modelled from the spec: first step of `Close` of the missing engine.
"Transitions EngineState Open→Closing (new writes are rejected from this
point)." -/
def Streamer.closeBegin (s : Streamer) : Streamer :=
  if s.state = EngineState.Open then { s with state := EngineState.Closing } else s

/-- Modelled from the spec: worker `i` of the missing engine handles the
shutdown signal, which `Close` sends once the engine is `Closing`. -/
def Streamer.drain (s : Streamer) (i : Nat) : Streamer :=
  if s.state = EngineState.Closing then s.onWorker i (Worker.drain s.batchSize s.retries i)
  else s

/-- Modelled from the spec: last step of `Close` of the missing engine. Once
every worker is `Stopped` it "calls the Sink's close operation, aggregates and
logs any errors, and transitions to Closed". -/
def Streamer.closeEnd (s : Streamer) : Streamer :=
  if s.state = EngineState.Closing ∧ s.workers.all (fun w => w.stopped) = true then
    { s with
      state := EngineState.Closed
      shared := ({ s.shared with client := s.shared.client.Close.2 } : Shared).report
        s.shared.client.Close.1 }
  else s

/-- Modelled from the spec: `Close` of the missing engine, run without
interference: it "signals every worker to drain, waits for every worker to
reach `Stopped`, then calls the Sink's close operation". It returns no error.
On an engine that is not `Open` it does nothing. -/
def Streamer.Close (s : Streamer) : Streamer :=
  if s.state = EngineState.Open then
    ((List.range s.workers.length).foldl Streamer.drain s.closeBegin).closeEnd
  else s

/-- Modelled from the spec: the events of the missing engine: a caller writes,
a worker pulls a record, a batch timer fires, and the three stages of
`Close`. -/
inductive Event where
  | write (record : Option Record) : Event
  | pull (i : Nat) : Event
  | tick (i : Nat) : Event
  | closeBegin : Event
  | drain (i : Nat) : Event
  | closeEnd : Event
  deriving DecidableEq, Repr

/-- Modelled from the spec: the effect of one event on the missing engine; an
event that cannot happen in a state leaves it as it is. -/
def Streamer.step (s : Streamer) : Event → Streamer
  | Event.write record => (s.Write record).2
  | Event.pull i => s.pull i
  | Event.tick i => s.tick i
  | Event.closeBegin => s.closeBegin
  | Event.drain i => s.drain i
  | Event.closeEnd => s.closeEnd

/-- Modelled from the spec: a run of the missing engine, the events taking
effect one after the other. -/
def Streamer.run (s : Streamer) (events : List Event) : Streamer :=
  events.foldl Streamer.step s

/-- The rows that worker `i` has handed to the sink so far, in order. -/
def Shared.sentBy (sh : Shared) (i : Nat) : List Record :=
  ((sh.handed.filter (fun p => p.1 = i)).map (fun p => p.2)).flatten

/-- All rows handed to the sink so far, in order. -/
def Shared.sent (sh : Shared) : List Record :=
  (sh.handed.map (fun p => p.2)).flatten

/-- Worker `i` went from `(w, sh)` to `(w', sh')` while the sink raised no
error and the records `added` came in: no error is queued or logged, the sink
holds the rows handed to it, the rows sent by the worker followed by its batch
grew by `added`, the other workers sent nothing, the queue, the history and
the `Stopped` flag are as before, and every new batch of the history is one of
worker `i`. -/
structure Worker.Progress (i : Nat) (added : List Record) (w : Worker) (sh : Shared)
    (w' : Worker) (sh' : Shared) : Prop where
  noErr : sh'.client.nextErrors = []
  rows : sh'.client.rows = sh'.sent
  logged : sh'.logged = sh.logged
  sent : sh'.sentBy i ++ w'.batch = sh.sentBy i ++ w.batch ++ added
  others : ∀ j, j ≠ i → sh'.sentBy j = sh.sentBy j
  queue : w'.queue = w.queue
  written : w'.written = w.written
  stopped : w'.stopped = w.stopped
  flushes : sh.client.flushCount ≤ sh'.client.flushCount
  tags : ∀ p, p ∈ sh'.handed → p ∈ sh.handed ∨ p.1 = i

/-- One turn of worker `i`, from `(w, sh)` to `(w', sh')`, while the sink
raised no error: no error is queued or logged, the sink holds the rows handed
to it, no record of the worker is lost, duplicated or reordered, the other
workers sent nothing, the queue did not grow, a worker that stopped has
neither queue nor batch left, and every new batch of the history is one of
worker `i`. -/
structure Worker.Turn (i : Nat) (w : Worker) (sh : Shared) (w' : Worker) (sh' : Shared) :
    Prop where
  noErr : sh'.client.nextErrors = []
  rows : sh'.client.rows = sh'.sent
  logged : sh'.logged = sh.logged
  kept : sh'.sentBy i ++ w'.batch ++ w'.queue = sh.sentBy i ++ w.batch ++ w.queue
  others : ∀ j, j ≠ i → sh'.sentBy j = sh.sentBy j
  written : w'.written = w.written
  bounded : w'.queue.length ≤ w.queue.length
  idle : w'.stopped = true → w'.queue = [] ∧ w'.batch = []
  flushes : sh.client.flushCount ≤ sh'.client.flushCount
  tags : ∀ p, p ∈ sh'.handed → p ∈ sh.handed ∨ p.1 = i

/-- State of an engine whose sink raised no error so far: no error is queued
or logged, the sink holds exactly the rows handed to it, every worker accounts
for the records routed to it (sent, then in the batch, then in the queue, in
the order written), no queue is over capacity, a stopped worker has neither
queue nor batch left, no worker is stopped while the engine is open, all are
once it is closed, and every batch of the history was handed by a worker of the
pool. -/
structure Streamer.Sound (s : Streamer) : Prop where
  noErr : s.shared.client.nextErrors = []
  rows : s.shared.client.rows = s.shared.sent
  logged : s.shared.logged = []
  kept : ∀ i w, s.workers[i]? = some w →
    s.shared.sentBy i ++ w.batch ++ w.queue = w.written
  bounded : ∀ w, w ∈ s.workers → w.queue.length ≤ s.queueSize
  idle : ∀ w, w ∈ s.workers → w.stopped = true → w.queue = [] ∧ w.batch = []
  running : s.state = EngineState.Open → ∀ w, w ∈ s.workers → w.stopped = false
  halted : s.state = EngineState.Closed → ∀ w, w ∈ s.workers → w.stopped = true
  tags : ∀ p, p ∈ s.shared.handed → p.1 < s.workers.length

/-- The in-progress batch of a worker is within the batch size: it is empty, or
shorter than the batch size (a batch that reaches the size is flushed at
once). -/
def Worker.Fits (batchSize : Nat) (w : Worker) : Prop :=
  w.batch.length < batchSize ∨ w.batch = []

/-- Every batch handed to the sink so far has at least one record and is within
the batch size, or is a single record. -/
def Shared.Fits (batchSize : Nat) (sh : Shared) : Prop :=
  ∀ p, p ∈ sh.handed → 1 ≤ p.2.length ∧ (p.2.length ≤ batchSize ∨ p.2.length = 1)

/-- State of an engine whose batches, in progress and handed, are within the
batch size. -/
structure Streamer.Fits (s : Streamer) : Prop where
  workers : ∀ w, w ∈ s.workers → Worker.Fits s.batchSize w
  handed : Shared.Fits s.batchSize s.shared

/-- What one event adds to the accepted writes: the record of a `Write` that
returns without error, with the index of the worker it is routed to; nothing
for a `Write` that fails or blocks, and nothing for any other event. -/
def Streamer.admits (s : Streamer) : Event → List (Nat × Record)
  | Event.write (some r) =>
    if (s.Write (some r)).1 = WriteResult.ok then [(s.next % s.workers.length, r)] else []
  | _ => []

/-- The writes that returned without error in a run from state `s`, in the
order of the calls, each with the index of the worker it was routed to. -/
def Streamer.accepted (s : Streamer) : List Event → List (Nat × Record)
  | [] => []
  | e :: rest => s.admits e ++ Streamer.accepted (s.step e) rest

/-- The records of the accepted writes of a run that were routed to worker
`i`, in the order written. -/
def Streamer.routed (s : Streamer) (events : List Event) (i : Nat) : List Record :=
  ((s.accepted events).filter (fun p => p.1 = i)).map (fun p => p.2)

/-- The errors that survive the retry policy, out of the errors that the sink
returns attempt after attempt: `left` more failed attempts are retried, the
next failure is surfaced, and the budget starts again at `retries`. -/
def surfacedFrom (retries : Nat) : Nat → List SinkError → List SinkError
  | _, [] => []
  | 0, err :: rest => err :: surfacedFrom retries retries rest
  | left + 1, _ :: rest => surfacedFrom retries left rest

/-- The errors that survive a retry policy of `retries` retries: the last of
every `retries + 1` errors in a row. -/
def surfaced (retries : Nat) (errs : List SinkError) : List SinkError :=
  surfacedFrom retries retries errs

/-- Between two states of the shared part, under a retry policy of `retries`
retries: the sink returned the errors `consumed` from the head of its queue of
errors, and those of them that survive the retry policy were appended to the
log; the sink calls ended with a whole attempt sequence, or with no error
left. -/
def Shared.Logs (retries : Nat) (sh sh' : Shared) : Prop :=
  ∃ consumed, sh.client.nextErrors = consumed ++ sh'.client.nextErrors ∧
    sh'.logged = sh.logged ++ surfaced retries consumed ∧
    ((∀ more, surfaced retries (consumed ++ more) =
        surfaced retries consumed ++ surfaced retries more) ∨
      sh'.client.nextErrors = [])

/-! ## Shared lemmas -/

/-- Values in the 64-bit range are left alone by the wrap-around. -/
theorem wrapInt_of_isInt (x : Int) (h : IsInt x) : wrapInt x = x := by
  unfold IsInt minInt maxInt at h
  unfold wrapInt
  omega

/-- Below the largest `int`, and for a non-negative `b`, the Go expression
`(b + 1) / 2` is the mathematical half of `b` rounded up. -/
theorem goDiv_goAdd_one_two (b : Int) (h0 : 0 ≤ b) (h1 : b < maxInt) :
    goDiv (goAdd b 1) 2 = (b + 1) / 2 := by
  unfold maxInt at h1
  have ha : goAdd b 1 = b + 1 := by
    unfold goAdd
    apply wrapInt_of_isInt
    unfold IsInt minInt maxInt
    omega
  have hd : Int.tdiv (b + 1) 2 = (b + 1) / 2 :=
    Int.tdiv_eq_ediv (by omega) (by decide)
  unfold goDiv
  rw [ha, hd]
  apply wrapInt_of_isInt
  unfold IsInt minInt maxInt
  omega

/-- All four fields of a sanitised insert-all config, read off the input (a
`nil` input reads as the zero value). -/
theorem sanitizeInsertAllClientConfig_fields (k : Constants)
    (cfg : Option InsertAllClientConfig) :
    sanitizeInsertAllClientConfig k cfg =
      { FailOnInvalidRows := (readCfg cfg {}).FailOnInvalidRows
        FailForUnknownValues := (readCfg cfg {}).FailForUnknownValues
        BatchSize :=
          if (readCfg cfg {}).BatchSize < 0 then 1
          else if (readCfg cfg {}).BatchSize = 0 then k.DefaultBatchSize
          else (readCfg cfg {}).BatchSize
        MaxRetryDeadlineOffset :=
          if (readCfg cfg {}).MaxRetryDeadlineOffset = 0 then k.DefaultMaxRetryDeadlineOffset
          else (readCfg cfg {}).MaxRetryDeadlineOffset } := by
  cases cfg with
  | none => rfl
  | some c =>
    simp only [sanitizeInsertAllClientConfig, readCfg]
    split <;> split <;> (try split) <;> rfl

/-- Error of the storage sanitiser: raised exactly on a non-nil config that has
neither descriptor nor schema. -/
theorem sanitizeStorageClientConfig_err (cfg : Option StorageClientConfig) :
    (sanitizeStorageClientConfig cfg).2 =
      if (∃ s, cfg = some s ∧ s.ProtobufDescriptor = none ∧ s.BigQuerySchema = none)
      then some Error.ErrProtobufOrSChemaRequired else none := by
  cases cfg with
  | none => simp [sanitizeStorageClientConfig]
  | some s =>
    by_cases hs : s.ProtobufDescriptor = none ∧ s.BigQuerySchema = none
    · simp [sanitizeStorageClientConfig, hs]
    · simp only [sanitizeStorageClientConfig, hs, if_false, Option.some.injEq, exists_eq_left']

/-- Error of the batch sanitiser: raised exactly on a non-nil config without
schema whose source format (the given one, or the default for an empty one) is
neither JSON nor CSV. -/
theorem sanitizeBatchClientConfig_err (k : Constants) (cfg : Option BatchClientConfig) :
    (sanitizeBatchClientConfig k cfg).2 =
      if (∃ b, cfg = some b ∧ b.BigQuerySchema = none ∧
            (if b.SourceFormat ≠ "" then b.SourceFormat else k.DefaultSourceFormat)
              ≠ bigqueryJSON ∧
            (if b.SourceFormat ≠ "" then b.SourceFormat else k.DefaultSourceFormat)
              ≠ bigqueryCSV)
      then some Error.ErrAutoDetectSchemaNotSupported else none := by
  cases cfg with
  | none => simp [sanitizeBatchClientConfig]
  | some b =>
    simp only [sanitizeBatchClientConfig, apply_ite BatchClientConfig.SourceFormat,
      apply_ite BatchClientConfig.BigQuerySchema, ite_self, Option.some.injEq, exists_eq_left']
    split <;> simp only [apply_ite Prod.snd]

/-- Shape of the result of `sanitizeStreamerConfig`: the storage error first,
then the batch error, otherwise a config and no error. -/
theorem sanitizeStreamerConfig_result (k : Constants) (cfg : Option StreamerConfig) :
    (∃ e, (sanitizeStorageClientConfig (readCfg cfg {}).StorageClient).2 = some e ∧
        sanitizeStreamerConfig k cfg = (none, some e)) ∨
    ((sanitizeStorageClientConfig (readCfg cfg {}).StorageClient).2 = none ∧
      ∃ e, (sanitizeBatchClientConfig k (readCfg cfg {}).BatchClient).2 = some e ∧
        sanitizeStreamerConfig k cfg = (none, some e)) ∨
    ((sanitizeStorageClientConfig (readCfg cfg {}).StorageClient).2 = none ∧
      (sanitizeBatchClientConfig k (readCfg cfg {}).BatchClient).2 = none ∧
      ∃ out, sanitizeStreamerConfig k cfg = (some out, none)) := by
  cases cfg with
  | none =>
    exact Or.inr (Or.inr ⟨rfl, rfl, _, rfl⟩)
  | some c =>
    simp only [sanitizeStreamerConfig, readCfg]
    split
    · rename_i st e hs
      exact Or.inl ⟨e, by rw [hs], rfl⟩
    · rename_i storage hs
      split
      · rename_i bt e hb
        exact Or.inr (Or.inl ⟨by rw [hs], e, by rw [hb], rfl⟩)
      · rename_i batch hb
        exact Or.inr (Or.inr ⟨by rw [hs], by rw [hb], _, rfl⟩)

/-- Field-by-field description of a successful result, read off the input (a
`nil` input reads as the zero value). -/
theorem sanitizeStreamerConfig_ok_fields (k : Constants) (cfg : Option StreamerConfig)
    (out : StreamerConfig) (h : sanitizeStreamerConfig k cfg = (some out, none)) :
    out.WorkerCount =
        (if (readCfg cfg {}).WorkerCount < 0 then 1
         else if (readCfg cfg {}).WorkerCount = 0 then k.DefaultWorkerCount
         else (readCfg cfg {}).WorkerCount) ∧
    out.InsertAllClient =
        some (sanitizeInsertAllClientConfig k (readCfg cfg {}).InsertAllClient) ∧
    out.WorkerQueueSize =
        (if (readCfg cfg {}).WorkerQueueSize < 0 then 0
         else if (readCfg cfg {}).WorkerQueueSize = 0 then
           if (readCfg cfg {}).StorageClient = none then
             goDiv (goAdd (sanitizeInsertAllClientConfig k
               (readCfg cfg {}).InsertAllClient).BatchSize 1) 2
           else k.DefaultWorkerQueueSize
         else (readCfg cfg {}).WorkerQueueSize) ∧
    out.MaxBatchDelay =
        (if (readCfg cfg {}).MaxBatchDelay = 0 then k.DefaultMaxBatchDelay
         else (readCfg cfg {}).MaxBatchDelay) ∧
    out.Logger =
        (if (readCfg cfg {}).Logger = none then some Logger.builtin
         else (readCfg cfg {}).Logger) ∧
    out.StorageClient = (sanitizeStorageClientConfig (readCfg cfg {}).StorageClient).1 ∧
    out.BatchClient = (sanitizeBatchClientConfig k (readCfg cfg {}).BatchClient).1 := by
  cases cfg with
  | none =>
    have h2 : sanitizeStreamerConfig k none = (some _, none) := rfl
    rw [h2] at h
    simp only [Prod.mk.injEq, Option.some.injEq, and_true] at h
    subst h
    simp [readCfg, sanitizeStorageClientConfig, sanitizeBatchClientConfig]
  | some c =>
    simp only [sanitizeStreamerConfig, readCfg] at h
    split at h
    · simp at h
    · rename_i storage hs
      split at h
      · simp at h
      · rename_i batch hb
        simp only [Prod.mk.injEq, Option.some.injEq, and_true] at h
        subst h
        simp only [readCfg, hs, hb]
        simp only [apply_ite StreamerConfig.WorkerCount,
          apply_ite StreamerConfig.WorkerQueueSize,
          apply_ite StreamerConfig.MaxBatchDelay, apply_ite StreamerConfig.Logger,
          apply_ite StreamerConfig.InsertAllClient, apply_ite StreamerConfig.StorageClient,
          apply_ite StreamerConfig.BatchClient, ite_self, and_self]

/-! ## Full defaults -/

/-- Claim C1. Sanitising a nil config, a zero-valued config, and a config whose
only set field is a zero-valued insert-all config succeeds in all three cases
and returns the same full-default config (default worker count, queue size,
batch delay, the built-in logger, an insert-all config with both flags false
and the default batch size and retry deadline, no storage client), for every
choice of the package constants in which the default queue size is the
default batch size plus one, halved. -/
theorem sanitizeStreamerConfig_full_default (k : Constants)
    (hq : k.DefaultWorkerQueueSize = goDiv (goAdd k.DefaultBatchSize 1) 2) :
    sanitizeStreamerConfig k none = (some (expectedDefaultStreamerConfig k), none) ∧
    sanitizeStreamerConfig k (some {}) = (some (expectedDefaultStreamerConfig k), none) ∧
    sanitizeStreamerConfig k (some { InsertAllClient := some {} }) =
      (some (expectedDefaultStreamerConfig k), none) := by
  have e1 : sanitizeStreamerConfig k none =
      (some { expectedDefaultStreamerConfig k with
        WorkerQueueSize := goDiv (goAdd k.DefaultBatchSize 1) 2 }, none) := rfl
  have e2 : sanitizeStreamerConfig k (some {}) =
      (some { expectedDefaultStreamerConfig k with
        WorkerQueueSize := goDiv (goAdd k.DefaultBatchSize 1) 2 }, none) := rfl
  have e3 : sanitizeStreamerConfig k (some { InsertAllClient := some {} }) =
      (some { expectedDefaultStreamerConfig k with
        WorkerQueueSize := goDiv (goAdd k.DefaultBatchSize 1) 2 }, none) := rfl
  have e : ({ expectedDefaultStreamerConfig k with
        WorkerQueueSize := goDiv (goAdd k.DefaultBatchSize 1) 2 } : StreamerConfig) =
      expectedDefaultStreamerConfig k := by
    rw [← hq]
    rfl
  rw [e1, e2, e3, e]
  exact ⟨rfl, rfl, rfl⟩

/-- Instance of claim C1 at the sample constants, where the queue size 100 is
half of the batch size 200. -/
theorem sanitizeStreamerConfig_full_default_witness :
    sampleConstants.DefaultWorkerQueueSize = goDiv (goAdd sampleConstants.DefaultBatchSize 1) 2 ∧
    sanitizeStreamerConfig sampleConstants none =
      (some (expectedDefaultStreamerConfig sampleConstants), none) ∧
    sanitizeStreamerConfig sampleConstants (some {}) =
      (some (expectedDefaultStreamerConfig sampleConstants), none) ∧
    sanitizeStreamerConfig sampleConstants (some { InsertAllClient := some {} }) =
      (some (expectedDefaultStreamerConfig sampleConstants), none) :=
  ⟨by decide, sanitizeStreamerConfig_full_default sampleConstants (by decide)⟩

/-! ## Errors -/

/-- Claim C2. `sanitizeStreamerConfig` returns an error if and only if the
input has a non-nil storage client with neither descriptor nor schema, or a
non-nil batch client without schema whose resolved source format is neither
JSON nor CSV; with an error the returned config is nil, and without one (nil
input included) the config is non-nil. -/
theorem sanitizeStreamerConfig_error_iff (k : Constants) (cfg : Option StreamerConfig) :
    ((sanitizeStreamerConfig k cfg).2 ≠ none ↔
      ((∃ c s, cfg = some c ∧ c.StorageClient = some s ∧
          s.ProtobufDescriptor = none ∧ s.BigQuerySchema = none) ∨
       (∃ c b, cfg = some c ∧ c.BatchClient = some b ∧ b.BigQuerySchema = none ∧
          (if b.SourceFormat ≠ "" then b.SourceFormat else k.DefaultSourceFormat)
            ≠ bigqueryJSON ∧
          (if b.SourceFormat ≠ "" then b.SourceFormat else k.DefaultSourceFormat)
            ≠ bigqueryCSV))) ∧
    ((sanitizeStreamerConfig k cfg).2 ≠ none → (sanitizeStreamerConfig k cfg).1 = none) ∧
    ((sanitizeStreamerConfig k cfg).2 = none →
      ∃ out, sanitizeStreamerConfig k cfg = (some out, none)) := by
  have hst := sanitizeStorageClientConfig_err (readCfg cfg {}).StorageClient
  have hbt := sanitizeBatchClientConfig_err k (readCfg cfg {}).BatchClient
  rcases sanitizeStreamerConfig_result k cfg with ⟨e, he, hr⟩ | ⟨hs, e, he, hr⟩ | ⟨hs, hb, out, hr⟩
  · rw [hr]
    refine ⟨⟨fun _ => Or.inl ?_, fun _ => by simp⟩, fun _ => rfl, fun h => by simp at h⟩
    rw [he] at hst
    split at hst
    · rename_i hex
      obtain ⟨s, h1, h2, h3⟩ := hex
      cases cfg with
      | none => simp [readCfg] at h1
      | some c => exact ⟨c, s, rfl, h1, h2, h3⟩
    · simp at hst
  · rw [hr]
    refine ⟨⟨fun _ => Or.inr ?_, fun _ => by simp⟩, fun _ => rfl, fun h => by simp at h⟩
    rw [he] at hbt
    split at hbt
    · rename_i hex
      obtain ⟨b, h1, h2, h3, h4⟩ := hex
      cases cfg with
      | none => simp [readCfg] at h1
      | some c => exact ⟨c, b, rfl, h1, h2, h3, h4⟩
    · simp at hbt
  · rw [hr]
    refine ⟨⟨fun h => by simp at h, fun h => ?_⟩, fun h => by simp at h, fun _ => ⟨out, rfl⟩⟩
    exfalso
    rcases h with ⟨c, s, hc, h1, h2, h3⟩ | ⟨c, b, hc, h1, h2, h3, h4⟩
    · subst hc
      rw [hs, if_pos ⟨s, h1, h2, h3⟩] at hst
      simp at hst
    · subst hc
      rw [hb, if_pos ⟨b, h1, h2, h3, h4⟩] at hbt
      simp at hbt

/-- Instance of claim C2: a storage client without descriptor and schema gives
an error and no config, the nil input gives a config and no error. -/
theorem sanitizeStreamerConfig_error_iff_witness :
    (sanitizeStreamerConfig sampleConstants (some { StorageClient := some {} })).1 = none ∧
    ∃ out, sanitizeStreamerConfig sampleConstants none = (some out, none) :=
  ⟨(sanitizeStreamerConfig_error_iff sampleConstants
      (some { StorageClient := some {} })).2.1 (by decide),
   (sanitizeStreamerConfig_error_iff sampleConstants none).2.2 (by decide)⟩

/-! ## Worker count -/

/-- Claim C3. On every input config on which `sanitizeStreamerConfig`
succeeds, the sanitised worker count is 1 for a negative input worker count,
the default worker count for 0, and the input worker count when positive. -/
theorem sanitizeStreamerConfig_workerCount (k : Constants) (c out : StreamerConfig)
    (h : sanitizeStreamerConfig k (some c) = (some out, none)) :
    (c.WorkerCount < 0 → out.WorkerCount = 1) ∧
    (c.WorkerCount = 0 → out.WorkerCount = k.DefaultWorkerCount) ∧
    (0 < c.WorkerCount → out.WorkerCount = c.WorkerCount) := by
  have hw := (sanitizeStreamerConfig_ok_fields k (some c) out h).1
  simp only [readCfg] at hw
  refine ⟨fun hn => ?_, fun hz => ?_, fun hp => ?_⟩
  · rw [hw, if_pos hn]
  · rw [hw, if_neg (by omega), if_pos hz]
  · rw [hw, if_neg (by omega), if_neg (by omega)]

/-- Instance of claim C3: 42 workers stay 42 workers. -/
theorem sanitizeStreamerConfig_workerCount_witness :
    sanitizeStreamerConfig sampleConstants (some { WorkerCount := 42 }) =
      (some { expectedDefaultStreamerConfig sampleConstants with WorkerCount := 42 }, none) ∧
    (0 : Int) < 42 ∧
    ({ expectedDefaultStreamerConfig sampleConstants with
        WorkerCount := 42 } : StreamerConfig).WorkerCount = 42 :=
  ⟨by decide, by decide,
   (sanitizeStreamerConfig_workerCount sampleConstants { WorkerCount := 42 }
      { expectedDefaultStreamerConfig sampleConstants with WorkerCount := 42 }
      (by decide)).2.2 (by decide)⟩

/-- Claim C4, refuted as stated: with a default worker count of 2, an input
worker count of 0 (which is non-positive) is sanitised to 2 workers, not 1. -/
theorem zero_workers_become_default_not_one :
    ∃ c out : StreamerConfig, c.WorkerCount ≤ 0 ∧
      sanitizeStreamerConfig sampleConstants (some c) = (some out, none) ∧
      out.WorkerCount = 2 ∧ out.WorkerCount ≠ 1 :=
  ⟨{ WorkerCount := 0 }, expectedDefaultStreamerConfig sampleConstants,
    by decide, by decide, by decide, by decide⟩

/-- Claim C4, amended. On every input config on which `sanitizeStreamerConfig`
succeeds and whose worker count is non-positive, the sanitised worker count is
exactly 1 when the input is negative and the default worker count when the
input is 0. -/
theorem nonpositive_workerCount_sanitised (k : Constants) (c out : StreamerConfig)
    (hle : c.WorkerCount ≤ 0)
    (h : sanitizeStreamerConfig k (some c) = (some out, none)) :
    out.WorkerCount = if c.WorkerCount < 0 then 1 else k.DefaultWorkerCount := by
  have hw := (sanitizeStreamerConfig_ok_fields k (some c) out h).1
  simp only [readCfg] at hw
  rw [hw]
  by_cases hn : c.WorkerCount < 0
  · rw [if_pos hn, if_pos hn]
  · rw [if_neg hn, if_neg hn, if_pos (by omega)]

/-- Instance of the amended claim C4: -1 worker becomes 1 worker. -/
theorem nonpositive_workerCount_sanitised_witness :
    ((-1 : Int) ≤ 0) ∧
    sanitizeStreamerConfig sampleConstants (some { WorkerCount := -1 }) =
      (some { expectedDefaultStreamerConfig sampleConstants with WorkerCount := 1 }, none) ∧
    ({ expectedDefaultStreamerConfig sampleConstants with
        WorkerCount := 1 } : StreamerConfig).WorkerCount =
      if (-1 : Int) < 0 then 1 else sampleConstants.DefaultWorkerCount :=
  ⟨by decide, by decide,
   nonpositive_workerCount_sanitised sampleConstants { WorkerCount := -1 }
      { expectedDefaultStreamerConfig sampleConstants with WorkerCount := 1 }
      (by decide) (by decide)⟩

/-! ## Worker queue size -/

/-- Claim C5. On every input config on which `sanitizeStreamerConfig`
succeeds, a negative input queue size is sanitised to 0 and a positive input
queue size is returned unchanged. -/
theorem sanitizeStreamerConfig_workerQueueSize (k : Constants) (c out : StreamerConfig)
    (h : sanitizeStreamerConfig k (some c) = (some out, none)) :
    (c.WorkerQueueSize < 0 → out.WorkerQueueSize = 0) ∧
    (0 < c.WorkerQueueSize → out.WorkerQueueSize = c.WorkerQueueSize) := by
  have hw := (sanitizeStreamerConfig_ok_fields k (some c) out h).2.2.1
  simp only [readCfg] at hw
  refine ⟨fun hn => ?_, fun hp => ?_⟩
  · rw [hw, if_pos hn]
  · rw [hw, if_neg (by omega), if_neg (by omega)]

/-- Instance of claim C5: a queue size of -1 becomes 0. -/
theorem sanitizeStreamerConfig_workerQueueSize_witness :
    sanitizeStreamerConfig sampleConstants (some { WorkerQueueSize := -1 }) =
      (some { expectedDefaultStreamerConfig sampleConstants with WorkerQueueSize := 0 },
        none) ∧
    (-1 : Int) < 0 ∧
    ({ expectedDefaultStreamerConfig sampleConstants with
        WorkerQueueSize := 0 } : StreamerConfig).WorkerQueueSize = 0 :=
  ⟨by decide, by decide,
   (sanitizeStreamerConfig_workerQueueSize sampleConstants { WorkerQueueSize := -1 }
      { expectedDefaultStreamerConfig sampleConstants with WorkerQueueSize := 0 }
      (by decide)).1 (by decide)⟩

/-- Default queue size away from the overflow: on a successful run with an
input queue size of 0 and no storage client, the sanitised queue size is half
of the sanitised batch size `b` rounded up, provided `0 ≤ b` and `b` is below
the largest `int`. -/
theorem workerQueueSize_default_half (k : Constants) (c out : StreamerConfig)
    (ia : InsertAllClientConfig)
    (h : sanitizeStreamerConfig k (some c) = (some out, none))
    (hq : c.WorkerQueueSize = 0) (hs : c.StorageClient = none)
    (hia : out.InsertAllClient = some ia)
    (h0 : 0 ≤ ia.BatchSize) (h1 : ia.BatchSize < maxInt) :
    out.WorkerQueueSize = (ia.BatchSize + 1) / 2 := by
  obtain ⟨_, hi, hw, _⟩ := sanitizeStreamerConfig_ok_fields k (some c) out h
  simp only [readCfg] at hw hi
  rw [hi] at hia
  have hb : sanitizeInsertAllClientConfig k c.InsertAllClient = ia := Option.some.inj hia
  rw [hw, if_neg (by omega), if_pos hq, if_pos hs, hb]
  exact goDiv_goAdd_one_two ia.BatchSize h0 h1

/-- Claim C6, at the input on which it fails: with an input queue size of 0,
no storage client and an insert-all batch size equal to the largest `int`,
sanitising succeeds, the sanitised batch size `b` is the largest `int`, and the
sanitised queue size is `-4611686018427387904`, which is negative and is not
`(b + 1) / 2`, half of the batch size rounded up (`4611686018427387904`). -/
theorem workerQueueSize_default_wraps_at_maxInt :
    ∃ out ia, sanitizeStreamerConfig sampleConstants
        (some { WorkerQueueSize := 0, StorageClient := none,
                InsertAllClient := some { BatchSize := 9223372036854775807 } }) =
          (some out, none) ∧
      out.InsertAllClient = some ia ∧
      ia.BatchSize = 9223372036854775807 ∧
      out.WorkerQueueSize = -4611686018427387904 ∧
      (ia.BatchSize + 1) / 2 = 4611686018427387904 ∧
      out.WorkerQueueSize ≠ (ia.BatchSize + 1) / 2 :=
  ⟨{ WorkerCount := 2, WorkerQueueSize := -4611686018427387904,
     MaxBatchDelay := 5000000000, Logger := some Logger.builtin,
     InsertAllClient := some { BatchSize := 9223372036854775807,
                               MaxRetryDeadlineOffset := 32000000000 } },
   { BatchSize := 9223372036854775807, MaxRetryDeadlineOffset := 32000000000 },
   by decide, rfl, rfl, rfl, by decide, by decide⟩

/-! ## Insert-all batch size -/

/-- Claim C7. For every insert-all config, nil included,
`sanitizeInsertAllClientConfig` returns a batch size of 1 for a negative input
batch size, the default batch size for 0 or a nil config, and the input batch
size unchanged when it is positive. -/
theorem sanitizeInsertAllClientConfig_batchSize (k : Constants) (c : InsertAllClientConfig) :
    (c.BatchSize < 0 → (sanitizeInsertAllClientConfig k (some c)).BatchSize = 1) ∧
    (c.BatchSize = 0 →
      (sanitizeInsertAllClientConfig k (some c)).BatchSize = k.DefaultBatchSize) ∧
    (0 < c.BatchSize → (sanitizeInsertAllClientConfig k (some c)).BatchSize = c.BatchSize) ∧
    (sanitizeInsertAllClientConfig k none).BatchSize = k.DefaultBatchSize := by
  rw [sanitizeInsertAllClientConfig_fields k (some c)]
  simp only [readCfg]
  refine ⟨fun hn => ?_, fun hz => ?_, fun hp => ?_, rfl⟩
  · rw [if_pos hn]
  · rw [if_neg (by omega), if_pos hz]
  · rw [if_neg (by omega), if_neg (by omega)]

/-- Instance of claim C7: a batch size of -1 becomes 1, 0 becomes the default
200, and 42 stays 42. -/
theorem sanitizeInsertAllClientConfig_batchSize_witness :
    (sanitizeInsertAllClientConfig sampleConstants (some { BatchSize := -1 })).BatchSize = 1 ∧
    (sanitizeInsertAllClientConfig sampleConstants (some { BatchSize := 0 })).BatchSize = 200 ∧
    (sanitizeInsertAllClientConfig sampleConstants (some { BatchSize := 42 })).BatchSize = 42 :=
  ⟨(sanitizeInsertAllClientConfig_batchSize sampleConstants { BatchSize := -1 }).1
      (by decide),
   (sanitizeInsertAllClientConfig_batchSize sampleConstants { BatchSize := 0 }).2.1 rfl,
   (sanitizeInsertAllClientConfig_batchSize sampleConstants { BatchSize := 42 }).2.2.1
      (by decide)⟩

/-! ## Durations -/

/-- Claim C8. On every input config on which `sanitizeStreamerConfig`
succeeds, the sanitised maximum batch delay is the default delay when the
input delay is 0 and the input delay itself for every non-zero input, however
small and also when negative. -/
theorem sanitizeStreamerConfig_maxBatchDelay (k : Constants) (c out : StreamerConfig)
    (h : sanitizeStreamerConfig k (some c) = (some out, none)) :
    (c.MaxBatchDelay = 0 → out.MaxBatchDelay = k.DefaultMaxBatchDelay) ∧
    (c.MaxBatchDelay ≠ 0 → out.MaxBatchDelay = c.MaxBatchDelay) := by
  have hd := (sanitizeStreamerConfig_ok_fields k (some c) out h).2.2.2.1
  simp only [readCfg] at hd
  refine ⟨fun hz => ?_, fun hnz => ?_⟩
  · rw [hd, if_pos hz]
  · rw [hd, if_neg hnz]

/-- Instance of claim C8: a delay of one nanosecond is kept. -/
theorem sanitizeStreamerConfig_maxBatchDelay_witness :
    sanitizeStreamerConfig sampleConstants (some { MaxBatchDelay := 1 }) =
      (some { expectedDefaultStreamerConfig sampleConstants with MaxBatchDelay := 1 },
        none) ∧
    (1 : Int) ≠ 0 ∧
    ({ expectedDefaultStreamerConfig sampleConstants with
        MaxBatchDelay := 1 } : StreamerConfig).MaxBatchDelay = 1 :=
  ⟨by decide, by decide,
   (sanitizeStreamerConfig_maxBatchDelay sampleConstants { MaxBatchDelay := 1 }
      { expectedDefaultStreamerConfig sampleConstants with MaxBatchDelay := 1 }
      (by decide)).2 (by decide)⟩

/-- Claim C9. For every insert-all config, nil included,
`sanitizeInsertAllClientConfig` returns the default retry deadline offset when
the input offset is 0 or the config is nil, and every non-zero input offset
as it is, whatever its size. -/
theorem sanitizeInsertAllClientConfig_maxRetryDeadlineOffset (k : Constants)
    (c : InsertAllClientConfig) :
    (c.MaxRetryDeadlineOffset = 0 →
      (sanitizeInsertAllClientConfig k (some c)).MaxRetryDeadlineOffset =
        k.DefaultMaxRetryDeadlineOffset) ∧
    (c.MaxRetryDeadlineOffset ≠ 0 →
      (sanitizeInsertAllClientConfig k (some c)).MaxRetryDeadlineOffset =
        c.MaxRetryDeadlineOffset) ∧
    (sanitizeInsertAllClientConfig k none).MaxRetryDeadlineOffset =
      k.DefaultMaxRetryDeadlineOffset := by
  rw [sanitizeInsertAllClientConfig_fields k (some c)]
  simp only [readCfg]
  refine ⟨fun hz => ?_, fun hnz => ?_, rfl⟩
  · rw [if_pos hz]
  · rw [if_neg hnz]

/-- Instance of claim C9: the largest duration is returned as it is. -/
theorem sanitizeInsertAllClientConfig_maxRetryDeadlineOffset_witness :
    (sanitizeInsertAllClientConfig sampleConstants
      (some { MaxRetryDeadlineOffset := 9223372036854775807 })).MaxRetryDeadlineOffset =
        9223372036854775807 :=
  (sanitizeInsertAllClientConfig_maxRetryDeadlineOffset sampleConstants
    { MaxRetryDeadlineOffset := 9223372036854775807 }).2.1 (by decide)

/-! ## Storage client -/

/-- Claim C10. `sanitizeStorageClientConfig` returns `(nil, nil)` for a nil
input; for a non-nil input it returns `ErrProtobufOrSChemaRequired` and a nil
config exactly when both the descriptor and the schema are nil, and otherwise
succeeds with a config that has the schema and the descriptor of the input. -/
theorem sanitizeStorageClientConfig_contract :
    sanitizeStorageClientConfig none = (none, none) ∧
    ∀ s : StorageClientConfig,
      ((s.ProtobufDescriptor = none ∧ s.BigQuerySchema = none) →
        sanitizeStorageClientConfig (some s) =
          (none, some Error.ErrProtobufOrSChemaRequired)) ∧
      (¬ (s.ProtobufDescriptor = none ∧ s.BigQuerySchema = none) →
        ∃ out, sanitizeStorageClientConfig (some s) = (some out, none) ∧
          out.BigQuerySchema = s.BigQuerySchema ∧
          out.ProtobufDescriptor = s.ProtobufDescriptor) := by
  refine ⟨rfl, fun s => ⟨fun hb => ?_, fun hnb => ?_⟩⟩
  · simp only [sanitizeStorageClientConfig, if_pos hb]
  · simp only [sanitizeStorageClientConfig, if_neg hnb]
    exact ⟨_, rfl, rfl, rfl⟩

/-- Instance of claim C10: the zero-valued storage config is rejected, one
with a schema is accepted and keeps it. -/
theorem sanitizeStorageClientConfig_contract_witness :
    sanitizeStorageClientConfig (some {}) =
      (none, some Error.ErrProtobufOrSChemaRequired) ∧
    ∃ out, sanitizeStorageClientConfig (some { BigQuerySchema := some ⟨7⟩ }) =
        (some out, none) ∧
      out.BigQuerySchema = some ⟨7⟩ ∧ out.ProtobufDescriptor = none :=
  ⟨(sanitizeStorageClientConfig_contract.2 {}).1 (by decide),
   (sanitizeStorageClientConfig_contract.2 { BigQuerySchema := some ⟨7⟩ }).2 (by decide)⟩

/-- Closed form of `sanitizeBatchClientConfig` on a non-nil config. -/
theorem sanitizeBatchClientConfig_some (k : Constants) (b : BatchClientConfig) :
    sanitizeBatchClientConfig k (some b) =
      if b.BigQuerySchema = none ∧
          (if b.SourceFormat ≠ "" then b.SourceFormat else k.DefaultSourceFormat)
            ≠ bigqueryJSON ∧
          (if b.SourceFormat ≠ "" then b.SourceFormat else k.DefaultSourceFormat)
            ≠ bigqueryCSV
      then (none, some Error.ErrAutoDetectSchemaNotSupported)
      else (some
        { BigQuerySchema := b.BigQuerySchema
          SourceFormat :=
            if b.SourceFormat ≠ "" then b.SourceFormat else k.DefaultSourceFormat
          FailForUnknownValues := b.FailForUnknownValues
          WriteDisposition :=
            if b.WriteDisposition ≠ "" then b.WriteDisposition
            else k.DefaultWriteDisposition }, none) := by
  by_cases hf : b.SourceFormat ≠ "" <;> by_cases hw : b.WriteDisposition ≠ "" <;>
    simp [sanitizeBatchClientConfig, hf, hw]

/-- Contents of a batch config that `sanitizeBatchClientConfig` returns. -/
theorem sanitizeBatchClientConfig_ok_fields (k : Constants) (b out : BatchClientConfig)
    (h : sanitizeBatchClientConfig k (some b) = (some out, none)) :
    out.BigQuerySchema = b.BigQuerySchema ∧
    out.FailForUnknownValues = b.FailForUnknownValues ∧
    out.SourceFormat =
      (if b.SourceFormat ≠ "" then b.SourceFormat else k.DefaultSourceFormat) ∧
    out.WriteDisposition =
      (if b.WriteDisposition ≠ "" then b.WriteDisposition else k.DefaultWriteDisposition) := by
  rw [sanitizeBatchClientConfig_some] at h
  by_cases hbad : b.BigQuerySchema = none ∧
      (if b.SourceFormat ≠ "" then b.SourceFormat else k.DefaultSourceFormat)
        ≠ bigqueryJSON ∧
      (if b.SourceFormat ≠ "" then b.SourceFormat else k.DefaultSourceFormat)
        ≠ bigqueryCSV
  · rw [if_pos hbad] at h
    simp at h
  · rw [if_neg hbad] at h
    simp only [Prod.mk.injEq, Option.some.injEq, and_true] at h
    subst h
    exact ⟨rfl, rfl, rfl, rfl⟩

/-! ## Storage and batch clients -/

/-- Claim C11, at the input on which it fails: a config whose storage client is
the zero-valued `StorageClientConfig`, as `new(StorageClientConfig)` creates
it, is not accepted; `sanitizeStreamerConfig` returns
`ErrProtobufOrSChemaRequired` and no config. -/
theorem zero_storage_client_is_rejected :
    sanitizeStreamerConfig sampleConstants (some { StorageClient := some {} }) =
      (none, some Error.ErrProtobufOrSChemaRequired) := by
  decide

/-- Storage client of a config, for every input: a storage client without
descriptor and schema is rejected by `sanitizeStreamerConfig` with
`ErrProtobufOrSChemaRequired` and a nil config; whenever `sanitizeStreamerConfig`
succeeds, the storage client has a schema or a descriptor and is returned with
that schema and descriptor. -/
theorem sanitizeStreamerConfig_storageClient (k : Constants) (c : StreamerConfig)
    (s : StorageClientConfig) (hs : c.StorageClient = some s) :
    ((s.ProtobufDescriptor = none ∧ s.BigQuerySchema = none) →
      sanitizeStreamerConfig k (some c) = (none, some Error.ErrProtobufOrSChemaRequired)) ∧
    (∀ out, sanitizeStreamerConfig k (some c) = (some out, none) →
      ¬ (s.ProtobufDescriptor = none ∧ s.BigQuerySchema = none) ∧
      out.StorageClient = some s) := by
  constructor
  · intro hbad
    have herr := sanitizeStorageClientConfig_err (some s)
    rw [if_pos ⟨s, rfl, hbad⟩] at herr
    rcases sanitizeStreamerConfig_result k (some c) with
      ⟨e, he, hr⟩ | ⟨hn, _⟩ | ⟨hn, _⟩
    · simp only [readCfg, hs] at he
      rw [herr] at he
      rw [hr, ← Option.some.inj he]
    · simp only [readCfg, hs] at hn
      rw [herr] at hn
      simp at hn
    · simp only [readCfg, hs] at hn
      rw [herr] at hn
      simp at hn
  · intro out hok
    have hst := (sanitizeStreamerConfig_ok_fields k (some c) out hok).2.2.2.2.2.1
    simp only [readCfg, hs] at hst
    by_cases hbad : s.ProtobufDescriptor = none ∧ s.BigQuerySchema = none
    · exfalso
      have herr := sanitizeStorageClientConfig_err (some s)
      rw [if_pos ⟨s, rfl, hbad⟩] at herr
      rcases sanitizeStreamerConfig_result k (some c) with
        ⟨e, _, hr⟩ | ⟨hn, _⟩ | ⟨hn, _⟩
      · rw [hr] at hok
        simp at hok
      · simp only [readCfg, hs] at hn
        rw [herr] at hn
        simp at hn
      · simp only [readCfg, hs] at hn
        rw [herr] at hn
        simp at hn
    · refine ⟨hbad, ?_⟩
      rw [hst]
      simp only [sanitizeStorageClientConfig, if_neg hbad]

/-- Instances: a storage client with a schema is kept, the zero-valued one is
rejected. -/
theorem sanitizeStreamerConfig_storageClient_witness :
    sanitizeStreamerConfig sampleConstants (some { StorageClient := some {} }) =
      (none, some Error.ErrProtobufOrSChemaRequired) ∧
    ({ expectedDefaultStreamerConfig sampleConstants with
        StorageClient := some { BigQuerySchema := some ⟨7⟩ } } : StreamerConfig).StorageClient =
      some { BigQuerySchema := some ⟨7⟩ } :=
  ⟨(sanitizeStreamerConfig_storageClient sampleConstants { StorageClient := some {} } {}
      rfl).1 (by decide),
   ((sanitizeStreamerConfig_storageClient sampleConstants
      { StorageClient := some { BigQuerySchema := some ⟨7⟩ } }
      { BigQuerySchema := some ⟨7⟩ } rfl).2
      { expectedDefaultStreamerConfig sampleConstants with
        StorageClient := some { BigQuerySchema := some ⟨7⟩ } } (by decide)).2⟩

/-- Claim C12. `sanitizeBatchClientConfig` returns `(nil, nil)` for a nil
input; for a non-nil input it returns `ErrAutoDetectSchemaNotSupported` and a
nil config if and only if the schema is nil and the resolved source format (the
input one, or the default when that is empty) is neither JSON nor CSV, and it
returns a config and no error otherwise, in particular whenever a schema is
supplied, for every source format. -/
theorem sanitizeBatchClientConfig_contract (k : Constants) :
    sanitizeBatchClientConfig k none = (none, none) ∧
    ∀ b : BatchClientConfig,
      (sanitizeBatchClientConfig k (some b) =
          (none, some Error.ErrAutoDetectSchemaNotSupported) ↔
        (b.BigQuerySchema = none ∧
          (if b.SourceFormat ≠ "" then b.SourceFormat else k.DefaultSourceFormat)
            ≠ bigqueryJSON ∧
          (if b.SourceFormat ≠ "" then b.SourceFormat else k.DefaultSourceFormat)
            ≠ bigqueryCSV)) ∧
      ((sanitizeBatchClientConfig k (some b)).2 ≠ none →
        sanitizeBatchClientConfig k (some b) =
          (none, some Error.ErrAutoDetectSchemaNotSupported)) ∧
      ((sanitizeBatchClientConfig k (some b)).2 = none →
        ∃ out, sanitizeBatchClientConfig k (some b) = (some out, none)) ∧
      (b.BigQuerySchema ≠ none →
        ∃ out, sanitizeBatchClientConfig k (some b) = (some out, none)) := by
  refine ⟨rfl, fun b => ?_⟩
  rw [sanitizeBatchClientConfig_some]
  by_cases hbad : b.BigQuerySchema = none ∧
      (if b.SourceFormat ≠ "" then b.SourceFormat else k.DefaultSourceFormat)
        ≠ bigqueryJSON ∧
      (if b.SourceFormat ≠ "" then b.SourceFormat else k.DefaultSourceFormat)
        ≠ bigqueryCSV
  · rw [if_pos hbad]
    exact ⟨⟨fun _ => hbad, fun _ => rfl⟩, fun _ => rfl, fun h => by simp at h,
      fun h => absurd hbad.1 h⟩
  · rw [if_neg hbad]
    exact ⟨⟨fun h => by simp at h, fun h => absurd h hbad⟩, fun h => by simp at h,
      fun _ => ⟨_, rfl⟩, fun _ => ⟨_, rfl⟩⟩

/-- Instance of claim C12: Avro without a schema is refused, Avro with a schema
is accepted. -/
theorem sanitizeBatchClientConfig_contract_witness :
    sanitizeBatchClientConfig sampleConstants (some { SourceFormat := bigqueryAvro }) =
      (none, some Error.ErrAutoDetectSchemaNotSupported) ∧
    ∃ out, sanitizeBatchClientConfig sampleConstants
      (some { SourceFormat := bigqueryAvro, BigQuerySchema := some ⟨3⟩ }) = (some out, none) :=
  ⟨((sanitizeBatchClientConfig_contract sampleConstants).2
      { SourceFormat := bigqueryAvro }).1.2 (by decide),
   ((sanitizeBatchClientConfig_contract sampleConstants).2
      { SourceFormat := bigqueryAvro, BigQuerySchema := some ⟨3⟩ }).2.2.2 (by decide)⟩

/-- Claim C13. On every non-nil batch config on which
`sanitizeBatchClientConfig` succeeds, the output source format is the input
one when non-empty and `bigquery.JSON` when empty, the output write disposition
is the input one when non-empty and `bigquery.WriteAppend` when empty, and the
schema and `FailForUnknownValues` are those of the input; the two defaults
being the values of `constant.DefaultSourceFormat` and
`constant.DefaultWriteDisposition`. -/
theorem sanitizeBatchClientConfig_defaults (k : Constants)
    (hJ : k.DefaultSourceFormat = bigqueryJSON)
    (hW : k.DefaultWriteDisposition = bigqueryWriteAppend)
    (b out : BatchClientConfig)
    (h : sanitizeBatchClientConfig k (some b) = (some out, none)) :
    (b.SourceFormat ≠ "" → out.SourceFormat = b.SourceFormat) ∧
    (b.SourceFormat = "" → out.SourceFormat = bigqueryJSON) ∧
    (b.WriteDisposition ≠ "" → out.WriteDisposition = b.WriteDisposition) ∧
    (b.WriteDisposition = "" → out.WriteDisposition = bigqueryWriteAppend) ∧
    out.BigQuerySchema = b.BigQuerySchema ∧
    out.FailForUnknownValues = b.FailForUnknownValues := by
  obtain ⟨h1, h2, h3, h4⟩ := sanitizeBatchClientConfig_ok_fields k b out h
  refine ⟨fun hne => ?_, fun he => ?_, fun hne => ?_, fun he => ?_, h1, h2⟩
  · rw [h3, if_pos hne]
  · rw [h3, if_neg (not_not.mpr he), hJ]
  · rw [h4, if_pos hne]
  · rw [h4, if_neg (not_not.mpr he), hW]

/-- Instance of claim C13: CSV with truncation is kept as given. -/
theorem sanitizeBatchClientConfig_defaults_witness :
    sampleConstants.DefaultSourceFormat = bigqueryJSON ∧
    sampleConstants.DefaultWriteDisposition = bigqueryWriteAppend ∧
    sanitizeBatchClientConfig sampleConstants
      (some { SourceFormat := bigqueryCSV, WriteDisposition := bigqueryWriteTruncate }) =
      (some { SourceFormat := bigqueryCSV, WriteDisposition := bigqueryWriteTruncate },
        none) ∧
    ({ SourceFormat := bigqueryCSV,
       WriteDisposition := bigqueryWriteTruncate } : BatchClientConfig).SourceFormat =
      bigqueryCSV :=
  ⟨rfl, rfl, by decide,
   (sanitizeBatchClientConfig_defaults sampleConstants rfl rfl
      { SourceFormat := bigqueryCSV, WriteDisposition := bigqueryWriteTruncate }
      { SourceFormat := bigqueryCSV, WriteDisposition := bigqueryWriteTruncate }
      (by decide)).1 (by decide)⟩

/-- Zero-valued batch client, away from the zero-valued storage client: a config
whose batch client is the zero-valued `BatchClientConfig`, and whose storage
client is nil or has a descriptor or a schema, is accepted by
`sanitizeStreamerConfig` and yields a non-nil batch client with every property
at its default: source format JSON, write disposition `WriteAppend`,
`FailForUnknownValues` false, schema nil; the two defaults being the values of
`constant.DefaultSourceFormat` and `constant.DefaultWriteDisposition`. -/
theorem sanitizeStreamerConfig_zero_batchClient (k : Constants)
    (hJ : k.DefaultSourceFormat = bigqueryJSON)
    (hW : k.DefaultWriteDisposition = bigqueryWriteAppend)
    (c : StreamerConfig) (hb : c.BatchClient = some {})
    (hs : ∀ s, c.StorageClient = some s →
      ¬ (s.ProtobufDescriptor = none ∧ s.BigQuerySchema = none)) :
    ∃ out, sanitizeStreamerConfig k (some c) = (some out, none) ∧
      out.BatchClient = some
        { BigQuerySchema := none
          SourceFormat := bigqueryJSON
          FailForUnknownValues := false
          WriteDisposition := bigqueryWriteAppend } := by
  have hbt : sanitizeBatchClientConfig k (some {}) =
      (some { BigQuerySchema := none, SourceFormat := bigqueryJSON,
              FailForUnknownValues := false,
              WriteDisposition := bigqueryWriteAppend }, none) := by
    rw [sanitizeBatchClientConfig_some]
    have hne : ¬ ((none : Option SchemaRef) = none ∧
        (if ("" : DataFormat) ≠ "" then "" else k.DefaultSourceFormat) ≠ bigqueryJSON ∧
        (if ("" : DataFormat) ≠ "" then "" else k.DefaultSourceFormat) ≠ bigqueryCSV) := by
      simp [hJ]
    rw [if_neg hne]
    simp [hJ, hW]
  have hst : (sanitizeStorageClientConfig c.StorageClient).2 = none := by
    rw [sanitizeStorageClientConfig_err]
    apply if_neg
    rintro ⟨s, h1, h2⟩
    exact hs s h1 h2
  rcases sanitizeStreamerConfig_result k (some c) with
    ⟨e, he, _⟩ | ⟨_, e, he, _⟩ | ⟨_, _, out, hr⟩
  · simp only [readCfg] at he
    rw [hst] at he
    simp at he
  · simp only [readCfg, hb] at he
    rw [hbt] at he
    simp at he
  · refine ⟨out, hr, ?_⟩
    have hf := (sanitizeStreamerConfig_ok_fields k (some c) out hr).2.2.2.2.2.2
    simp only [readCfg, hb] at hf
    rw [hf, hbt]

/-- Instance at the sample constants: a zero-valued batch client and no storage
client. -/
theorem sanitizeStreamerConfig_zero_batchClient_witness :
    ∃ out, sanitizeStreamerConfig sampleConstants (some { BatchClient := some {} }) =
        (some out, none) ∧
      out.BatchClient = some
        { BigQuerySchema := none
          SourceFormat := bigqueryJSON
          FailForUnknownValues := false
          WriteDisposition := bigqueryWriteAppend } :=
  sanitizeStreamerConfig_zero_batchClient sampleConstants rfl rfl
    { BatchClient := some {} } rfl (fun s h => by simp at h)

/-- Claim C14, at the input on which it fails: a config whose batch client is
the zero-valued `BatchClientConfig` and whose storage client is the zero-valued
`StorageClientConfig` is not accepted; `sanitizeStreamerConfig` returns
`ErrProtobufOrSChemaRequired` and no config, although the batch client on its
own sanitises to the defaults. -/
theorem zero_batch_client_with_zero_storage_client_is_rejected :
    sanitizeStreamerConfig sampleConstants
      (some { StorageClient := some {}, BatchClient := some {} }) =
      (none, some Error.ErrProtobufOrSChemaRequired) ∧
    sanitizeBatchClientConfig sampleConstants (some {}) =
      (some { SourceFormat := bigqueryJSON, WriteDisposition := bigqueryWriteAppend },
        none) := by
  decide


/-! ## Logger, worker count bound, client pointers, flags -/

/-- Claim C15. On every input config on which `sanitizeStreamerConfig`
succeeds, the sanitised logger is the built-in STDERR logger when the input
logger is nil or the input config is nil, and the logger supplied by the caller
otherwise; so the sanitised logger is never nil. -/
theorem sanitizeStreamerConfig_logger (k : Constants) (cfg : Option StreamerConfig)
    (out : StreamerConfig) (h : sanitizeStreamerConfig k cfg = (some out, none)) :
    (cfg = none → out.Logger = some Logger.builtin) ∧
    (∀ c, cfg = some c → c.Logger = none → out.Logger = some Logger.builtin) ∧
    (∀ c l, cfg = some c → c.Logger = some l → out.Logger = some l) ∧
    out.Logger ≠ none := by
  have hl := (sanitizeStreamerConfig_ok_fields k cfg out h).2.2.2.2.1
  refine ⟨fun hn => ?_, fun c hc hnil => ?_, fun c l hc hsome => ?_, ?_⟩
  · subst hn
    rw [hl]
    rfl
  · subst hc
    simp only [readCfg] at hl
    rw [hl, if_pos hnil]
  · subst hc
    simp only [readCfg] at hl
    rw [hl, hsome]
    rfl
  · rw [hl]
    split
    · simp
    · assumption

/-- Instance of claim C15: a logger supplied by the caller is kept. -/
theorem sanitizeStreamerConfig_logger_witness :
    ({ expectedDefaultStreamerConfig sampleConstants with
        Logger := some (Logger.custom 1) } : StreamerConfig).Logger =
      some (Logger.custom 1) :=
  (sanitizeStreamerConfig_logger sampleConstants
    (some { Logger := some (Logger.custom 1) })
    { expectedDefaultStreamerConfig sampleConstants with Logger := some (Logger.custom 1) }
    (by decide)).2.2.1 { Logger := some (Logger.custom 1) } (Logger.custom 1) rfl rfl

/-- Claim C17. On every input config on which `sanitizeStreamerConfig`
succeeds, the sanitised worker count is at least 1, the default worker count
(`constant.DefaultWorkerCount`) being at least 1. -/
theorem sanitised_workerCount_at_least_one (k : Constants)
    (hk : 1 ≤ k.DefaultWorkerCount) (cfg : Option StreamerConfig) (out : StreamerConfig)
    (h : sanitizeStreamerConfig k cfg = (some out, none)) :
    1 ≤ out.WorkerCount := by
  have hw := (sanitizeStreamerConfig_ok_fields k cfg out h).1
  rw [hw]
  split
  · exact le_refl 1
  · split
    · exact hk
    · omega

/-- Instance of claim C17: -5 workers become one worker. -/
theorem sanitised_workerCount_at_least_one_witness :
    (1 : Int) ≤ sampleConstants.DefaultWorkerCount ∧
    (1 : Int) ≤ ({ expectedDefaultStreamerConfig sampleConstants with
        WorkerCount := 1 } : StreamerConfig).WorkerCount :=
  ⟨by decide,
   sanitised_workerCount_at_least_one sampleConstants (by decide)
    (some { WorkerCount := -5 })
    { expectedDefaultStreamerConfig sampleConstants with WorkerCount := 1 } (by decide)⟩

/-- Claim C18. On every input config on which `sanitizeStreamerConfig`
succeeds, the output insert-all client is non-nil, whatever the input storage
and insert-all clients are, while the output storage client is nil exactly
when the input storage client is nil and the output batch client is nil exactly
when the input batch client is nil (both are nil for a nil input config). -/
theorem sanitizeStreamerConfig_client_pointers (k : Constants)
    (cfg : Option StreamerConfig) (out : StreamerConfig)
    (h : sanitizeStreamerConfig k cfg = (some out, none)) :
    out.InsertAllClient ≠ none ∧
    (cfg = none → out.StorageClient = none ∧ out.BatchClient = none) ∧
    (∀ c, cfg = some c →
      (out.StorageClient = none ↔ c.StorageClient = none) ∧
      (out.BatchClient = none ↔ c.BatchClient = none)) := by
  obtain ⟨_, hi, _, _, _, hs, hb⟩ := sanitizeStreamerConfig_ok_fields k cfg out h
  refine ⟨by rw [hi]; simp, fun hn => ?_, fun c hc => ?_⟩
  · subst hn
    rw [hs, hb]
    exact ⟨rfl, rfl⟩
  · subst hc
    simp only [readCfg] at hs hb
    have hres := sanitizeStreamerConfig_result k (some c)
    simp only [readCfg] at hres
    rcases hres with ⟨e, _, hr⟩ | ⟨_, e, _, hr⟩ | ⟨hse, hbe, _⟩
    · rw [hr] at h
      simp at h
    · rw [hr] at h
      simp at h
    · constructor
      · rw [hs]
        cases hsc : c.StorageClient with
        | none => simp [sanitizeStorageClientConfig]
        | some s =>
          rw [hsc] at hse
          by_cases hbad : s.ProtobufDescriptor = none ∧ s.BigQuerySchema = none
          · simp [sanitizeStorageClientConfig, hbad] at hse
          · simp [sanitizeStorageClientConfig, hbad]
      · rw [hb]
        cases hbc : c.BatchClient with
        | none => simp [sanitizeBatchClientConfig]
        | some b =>
          rw [hbc] at hbe
          rw [sanitizeBatchClientConfig_some] at hbe ⊢
          by_cases hbad : b.BigQuerySchema = none ∧
              (if b.SourceFormat ≠ "" then b.SourceFormat else k.DefaultSourceFormat)
                ≠ bigqueryJSON ∧
              (if b.SourceFormat ≠ "" then b.SourceFormat else k.DefaultSourceFormat)
                ≠ bigqueryCSV
          · rw [if_pos hbad] at hbe
            simp at hbe
          · rw [if_neg hbad]
            simp

/-- Instance of claim C18: with only a storage client configured, the result
has an insert-all and a storage client and no batch client. -/
theorem sanitizeStreamerConfig_client_pointers_witness :
    ({ expectedDefaultStreamerConfig sampleConstants with
        StorageClient := some { BigQuerySchema := some ⟨7⟩ } } :
          StreamerConfig).InsertAllClient ≠ none :=
  (sanitizeStreamerConfig_client_pointers sampleConstants
    (some { StorageClient := some { BigQuerySchema := some ⟨7⟩ } })
    { expectedDefaultStreamerConfig sampleConstants with
        StorageClient := some { BigQuerySchema := some ⟨7⟩ } } (by decide)).1

/-- Claim C19. For every non-nil insert-all config,
`sanitizeInsertAllClientConfig` copies `FailOnInvalidRows` and
`FailForUnknownValues` to the output unchanged, whatever the batch size and
the retry deadline offset are; for a nil input both are false. -/
theorem sanitizeInsertAllClientConfig_flags (k : Constants) (c : InsertAllClientConfig) :
    (sanitizeInsertAllClientConfig k (some c)).FailOnInvalidRows = c.FailOnInvalidRows ∧
    (sanitizeInsertAllClientConfig k (some c)).FailForUnknownValues =
      c.FailForUnknownValues ∧
    (sanitizeInsertAllClientConfig k none).FailOnInvalidRows = false ∧
    (sanitizeInsertAllClientConfig k none).FailForUnknownValues = false := by
  rw [sanitizeInsertAllClientConfig_fields k (some c),
    sanitizeInsertAllClientConfig_fields k none]
  exact ⟨rfl, rfl, rfl, rfl⟩


/-! ## Frame lemmas of the heap model -/

theorem Extends.refl_list {α : Type} (l : List α) : Extends l l := ⟨[], by simp⟩

theorem Extends.trans_list {α : Type} {l m n : List α} (h1 : Extends l m) (h2 : Extends m n) :
    Extends l n := by
  obtain ⟨t, rfl⟩ := h1
  obtain ⟨u, rfl⟩ := h2
  exact ⟨t ++ u, by simp⟩

theorem Extends.append {α : Type} (l t : List α) : Extends l (l ++ t) := ⟨t, rfl⟩

/-- A store at an address that `l` does not have leaves the cells of `l` alone. -/
theorem Extends.set {α : Type} {l m : List α} (h : Extends l m) (i : Nat) (v : α)
    (hi : l.length ≤ i) : Extends l (m.set i v) := by
  obtain ⟨t, rfl⟩ := h
  exact ⟨t.set (i - l.length) v, List.set_append_right i v hi⟩

theorem Extends.take_eq {α : Type} {l m : List α} (h : Extends l m) :
    m.take l.length = l := by
  obtain ⟨t, rfl⟩ := h
  exact List.take_left l t

theorem Heap.Extends.refl (h : Heap) : h.Extends h :=
  ⟨Bqwriter.Extends.refl_list _, Bqwriter.Extends.refl_list _, Bqwriter.Extends.refl_list _,
    Bqwriter.Extends.refl_list _⟩

theorem Heap.Extends.trans {h g f : Heap} (h1 : h.Extends g) (h2 : g.Extends f) :
    h.Extends f :=
  ⟨h1.1.trans_list h2.1, h1.2.1.trans_list h2.2.1, h1.2.2.1.trans_list h2.2.2.1,
    h1.2.2.2.trans_list h2.2.2.2⟩

theorem Heap.Extends.setStreamer {h g : Heap} (e : h.Extends g) (a : Addr)
    (v : StreamerConfigCell) (ha : h.streamer.length ≤ a) : h.Extends (g.setStreamer a v) :=
  ⟨e.1.set a v ha, e.2.1, e.2.2.1, e.2.2.2⟩

theorem Heap.Extends.setInsertAll {h g : Heap} (e : h.Extends g) (a : Addr)
    (v : InsertAllClientConfig) (ha : h.insertAll.length ≤ a) :
    h.Extends (g.setInsertAll a v) :=
  ⟨e.1, e.2.1.set a v ha, e.2.2.1, e.2.2.2⟩

theorem Heap.Extends.setStorage {h g : Heap} (e : h.Extends g) (a : Addr)
    (v : StorageClientConfig) (ha : h.storage.length ≤ a) : h.Extends (g.setStorage a v) :=
  ⟨e.1, e.2.1, e.2.2.1.set a v ha, e.2.2.2⟩

theorem Heap.Extends.setBatch {h g : Heap} (e : h.Extends g) (a : Addr)
    (v : BatchClientConfig) (ha : h.batch.length ≤ a) : h.Extends (g.setBatch a v) :=
  ⟨e.1, e.2.1, e.2.2.1, e.2.2.2.set a v ha⟩

theorem Heap.Extends.modStreamer {h g : Heap} (e : h.Extends g) (a : Addr)
    (f : StreamerConfigCell → StreamerConfigCell) (ha : h.streamer.length ≤ a) :
    h.Extends (g.modStreamer a f) :=
  e.setStreamer a _ ha

theorem Heap.Extends.modInsertAll {h g : Heap} (e : h.Extends g) (a : Addr)
    (f : InsertAllClientConfig → InsertAllClientConfig) (ha : h.insertAll.length ≤ a) :
    h.Extends (g.modInsertAll a f) :=
  e.setInsertAll a _ ha

theorem Heap.Extends.modStorage {h g : Heap} (e : h.Extends g) (a : Addr)
    (f : StorageClientConfig → StorageClientConfig) (ha : h.storage.length ≤ a) :
    h.Extends (g.modStorage a f) :=
  e.setStorage a _ ha

theorem Heap.Extends.modBatch {h g : Heap} (e : h.Extends g) (a : Addr)
    (f : BatchClientConfig → BatchClientConfig) (ha : h.batch.length ≤ a) :
    h.Extends (g.modBatch a f) :=
  e.setBatch a _ ha

theorem Heap.extends_newStreamer (h : Heap) : h.Extends h.newStreamer :=
  ⟨Bqwriter.Extends.append _ _, Bqwriter.Extends.refl_list _, Bqwriter.Extends.refl_list _,
    Bqwriter.Extends.refl_list _⟩

theorem Heap.extends_newInsertAll (h : Heap) : h.Extends h.newInsertAll :=
  ⟨Bqwriter.Extends.refl_list _, Bqwriter.Extends.append _ _, Bqwriter.Extends.refl_list _,
    Bqwriter.Extends.refl_list _⟩

theorem Heap.extends_newStorage (h : Heap) : h.Extends h.newStorage :=
  ⟨Bqwriter.Extends.refl_list _, Bqwriter.Extends.refl_list _, Bqwriter.Extends.append _ _,
    Bqwriter.Extends.refl_list _⟩

theorem Heap.extends_newBatch (h : Heap) : h.Extends h.newBatch :=
  ⟨Bqwriter.Extends.refl_list _, Bqwriter.Extends.refl_list _, Bqwriter.Extends.refl_list _,
    Bqwriter.Extends.append _ _⟩

/-- The insert-all sanitiser allocates one cell and writes to that cell only;
the pointer it returns is the address of that cell. -/
theorem sanitizeInsertAllClientConfigM_frame (k : Constants) (cfg : Option Addr) (h : Heap) :
    h.Extends (sanitizeInsertAllClientConfigM k cfg h).2 ∧
    (sanitizeInsertAllClientConfigM k cfg h).1 = h.insertAll.length := by
  unfold sanitizeInsertAllClientConfigM
  lift_lets
  extract_lets sanCfg h0 cfg1 h1 h2 h3 h4
  have e0 : h.Extends h0 := h.extends_newInsertAll
  have e1 : h.Extends h1 := e0.modInsertAll _ _ (le_refl _)
  have e2 : h.Extends h2 := e1.modInsertAll _ _ (le_refl _)
  have e3 : h.Extends h3 := by
    simp only [h3]
    split
    · exact e2.modInsertAll _ _ (le_refl _)
    · split
      · exact e2.modInsertAll _ _ (le_refl _)
      · exact e2.modInsertAll _ _ (le_refl _)
  have e4 : h.Extends h4 := by
    simp only [h4]
    split
    · exact e3.modInsertAll _ _ (le_refl _)
    · exact e3.modInsertAll _ _ (le_refl _)
  exact ⟨e4, rfl⟩

/-- The storage sanitiser allocates at most one cell and writes to that cell
only; a pointer it returns is the address of that cell. -/
theorem sanitizeStorageClientConfigM_frame (cfg : Option Addr) (h : Heap) :
    h.Extends (sanitizeStorageClientConfigM cfg h).2 ∧
    (∀ p, (sanitizeStorageClientConfigM cfg h).1.1 = some p → p = h.storage.length) := by
  cases cfg with
  | none => exact ⟨Heap.Extends.refl h, fun p hp => by simp [sanitizeStorageClientConfigM] at hp⟩
  | some a =>
    simp only [sanitizeStorageClientConfigM]
    split
    · exact ⟨Heap.Extends.refl h, fun p hp => by simp at hp⟩
    · refine ⟨(h.extends_newStorage.modStorage _ _ (le_refl _)).modStorage _ _ (le_refl _),
        fun p hp => ?_⟩
      simp only [Option.some.injEq] at hp
      exact hp.symm

/-- The batch sanitiser allocates at most one cell and writes to that cell
only; a pointer it returns is the address of that cell. -/
theorem sanitizeBatchClientConfigM_frame (k : Constants) (cfg : Option Addr) (h : Heap) :
    h.Extends (sanitizeBatchClientConfigM k cfg h).2 ∧
    (∀ p, (sanitizeBatchClientConfigM k cfg h).1.1 = some p → p = h.batch.length) := by
  cases cfg with
  | none => exact ⟨Heap.Extends.refl h, fun p hp => by simp [sanitizeBatchClientConfigM] at hp⟩
  | some a =>
    unfold sanitizeBatchClientConfigM
    simp -zeta only []
    lift_lets
    extract_lets batchCfg h0 h1 h2 h3 h4
    have e0 : h.Extends h0 := h.extends_newBatch
    have e1 : h.Extends h1 := e0.modBatch _ _ (le_refl _)
    have e2 : h.Extends h2 := e1.modBatch _ _ (le_refl _)
    have e3 : h.Extends h3 := by
      simp only [h3]
      split
      · exact e2.modBatch _ _ (le_refl _)
      · exact e2.modBatch _ _ (le_refl _)
    have e4 : h.Extends h4 := by
      simp only [h4]
      split
      · exact e3.modBatch _ _ (le_refl _)
      · exact e3.modBatch _ _ (le_refl _)
    split
    · exact ⟨e4, fun p hp => by simp at hp⟩
    · refine ⟨e4, fun p hp => ?_⟩
      simp only [Option.some.injEq] at hp
      exact hp.symm

/-- The worker-count block writes to the cell at `sanCfg` only. -/
theorem stepWorkerCount_frame (k : Constants) (cfg sanCfg : Addr) {h g : Heap}
    (e : h.Extends g) (ha : h.streamer.length ≤ sanCfg) :
    h.Extends (stepWorkerCount k cfg sanCfg g) := by
  unfold stepWorkerCount
  split
  · exact e.modStreamer _ _ ha
  · split
    · exact e.modStreamer _ _ ha
    · exact e.modStreamer _ _ ha

/-- The insert-all block allocates one insert-all cell and writes to it and
to the cell at `sanCfg` only. -/
theorem stepInsertAllClient_frame (k : Constants) (cfg sanCfg : Addr) {h g : Heap}
    (e : h.Extends g) (ha : h.streamer.length ≤ sanCfg) :
    h.Extends (stepInsertAllClient k cfg sanCfg g) :=
  (e.trans (sanitizeInsertAllClientConfigM_frame k _ g).1).modStreamer _ _ ha

/-- The queue-size block writes to the cell at `sanCfg` only. -/
theorem stepWorkerQueueSize_frame (k : Constants) (cfg sanCfg : Addr) {h g : Heap}
    (e : h.Extends g) (ha : h.streamer.length ≤ sanCfg) :
    h.Extends (stepWorkerQueueSize k cfg sanCfg g) := by
  unfold stepWorkerQueueSize
  split
  · exact e.modStreamer _ _ ha
  · split
    · split
      · exact e.modStreamer _ _ ha
      · exact e.modStreamer _ _ ha
    · exact e.modStreamer _ _ ha

/-- The batch-delay block writes to the cell at `sanCfg` only. -/
theorem stepMaxBatchDelay_frame (k : Constants) (cfg sanCfg : Addr) {h g : Heap}
    (e : h.Extends g) (ha : h.streamer.length ≤ sanCfg) :
    h.Extends (stepMaxBatchDelay k cfg sanCfg g) := by
  unfold stepMaxBatchDelay
  split
  · exact e.modStreamer _ _ ha
  · exact e.modStreamer _ _ ha

/-- The logger block writes to the cell at `sanCfg` only. -/
theorem stepLogger_frame (cfg sanCfg : Addr) {h g : Heap}
    (e : h.Extends g) (ha : h.streamer.length ≤ sanCfg) :
    h.Extends (stepLogger cfg sanCfg g) := by
  unfold stepLogger
  split
  · exact e.modStreamer _ _ ha
  · exact e.modStreamer _ _ ha

/-- The batch block keeps the cells of `h` and returns `sanCfg` or nil. -/
theorem stepBatchClient_frame (k : Constants) (cfg sanCfg : Addr) {h g : Heap}
    (e : h.Extends g) (ha : h.streamer.length ≤ sanCfg) :
    h.Extends (stepBatchClient k cfg sanCfg g).2 ∧
    (∀ p, (stepBatchClient k cfg sanCfg g).1.1 = some p → p = sanCfg) := by
  have e1 := (e.trans (sanitizeBatchClientConfigM_frame k
    (g.getStreamer cfg).BatchClient g).1).modStreamer sanCfg
    (fun s => { s with
      BatchClient := (sanitizeBatchClientConfigM k (g.getStreamer cfg).BatchClient g).1.1 }) ha
  unfold stepBatchClient
  simp only []
  split
  · exact ⟨e1, fun p hp => by simp at hp⟩
  · refine ⟨e1, fun p hp => ?_⟩
    simp only [Option.some.injEq] at hp
    exact hp.symm

/-- The storage block keeps the cells of `h` and returns `sanCfg` or nil. -/
theorem stepStorageClient_frame (k : Constants) (cfg sanCfg : Addr) {h g : Heap}
    (e : h.Extends g) (ha : h.streamer.length ≤ sanCfg) :
    h.Extends (stepStorageClient k cfg sanCfg g).2 ∧
    (∀ p, (stepStorageClient k cfg sanCfg g).1.1 = some p → p = sanCfg) := by
  have e1 := (e.trans (sanitizeStorageClientConfigM_frame
    (g.getStreamer cfg).StorageClient g).1).modStreamer sanCfg
    (fun s => { s with
      StorageClient := (sanitizeStorageClientConfigM (g.getStreamer cfg).StorageClient g).1.1 })
    ha
  unfold stepStorageClient
  simp only []
  split
  · exact ⟨e1, fun p hp => by simp at hp⟩
  · exact stepBatchClient_frame k cfg sanCfg e1 ha

/-- The streamer sanitiser leaves every cell of the heap it was given in
place, and a pointer it returns is the address of the cell it allocated. -/
theorem sanitizeStreamerConfigM_frame (k : Constants) (cfg : Option Addr) (h : Heap) :
    h.Extends (sanitizeStreamerConfigM k cfg h).2 ∧
    (∀ p, (sanitizeStreamerConfigM k cfg h).1.1 = some p → p = h.streamer.length) := by
  unfold sanitizeStreamerConfigM
  simp only []
  exact stepStorageClient_frame k _ _
    (stepLogger_frame _ _
      (stepMaxBatchDelay_frame k _ _
        (stepWorkerQueueSize_frame k _ _
          (stepInsertAllClient_frame k _ _
            (stepWorkerCount_frame k _ _ h.extends_newStreamer (le_refl _))
            (le_refl _))
          (le_refl _))
        (le_refl _))
      (le_refl _))
    (le_refl _)

/-! ## What the blocks leave in the result cell -/

/-- Load after a field assignment at the same address. -/
theorem Heap.getStreamer_modStreamer (g : Heap) (a : Addr)
    (f : StreamerConfigCell → StreamerConfigCell) :
    (g.modStreamer a f).getStreamer a =
      if a < g.streamer.length then f (g.getStreamer a) else g.getStreamer a := by
  simp only [Heap.modStreamer, Heap.setStreamer, Heap.getStreamer,
    List.getD_eq_getElem?_getD, List.getElem?_set]
  by_cases hlt : a < g.streamer.length
  · simp [hlt]
  · simp [hlt, List.getElem?_eq_none (not_lt.mp hlt)]

/-- The regions that the insert-all sanitiser does not touch. -/
theorem sanitizeInsertAllClientConfigM_others (k : Constants) (cfg : Option Addr) (h : Heap) :
    (sanitizeInsertAllClientConfigM k cfg h).2.streamer = h.streamer ∧
    (sanitizeInsertAllClientConfigM k cfg h).2.storage = h.storage ∧
    (sanitizeInsertAllClientConfigM k cfg h).2.batch = h.batch := by
  simp only [sanitizeInsertAllClientConfigM, Heap.modInsertAll, Heap.setInsertAll,
    Heap.newInsertAll, apply_ite Heap.streamer, apply_ite Heap.storage, apply_ite Heap.batch,
    ite_self, and_self]

/-- The regions that the storage sanitiser does not touch. -/
theorem sanitizeStorageClientConfigM_others (cfg : Option Addr) (h : Heap) :
    (sanitizeStorageClientConfigM cfg h).2.streamer = h.streamer ∧
    (sanitizeStorageClientConfigM cfg h).2.insertAll = h.insertAll ∧
    (sanitizeStorageClientConfigM cfg h).2.batch = h.batch := by
  cases cfg with
  | none => exact ⟨rfl, rfl, rfl⟩
  | some a =>
    simp only [sanitizeStorageClientConfigM]
    split <;> exact ⟨rfl, rfl, rfl⟩

/-- The regions that the batch sanitiser does not touch. -/
theorem sanitizeBatchClientConfigM_others (k : Constants) (cfg : Option Addr) (h : Heap) :
    (sanitizeBatchClientConfigM k cfg h).2.streamer = h.streamer ∧
    (sanitizeBatchClientConfigM k cfg h).2.insertAll = h.insertAll ∧
    (sanitizeBatchClientConfigM k cfg h).2.storage = h.storage := by
  cases cfg with
  | none => exact ⟨rfl, rfl, rfl⟩
  | some a =>
    simp only [sanitizeBatchClientConfigM, Heap.modBatch, Heap.setBatch, Heap.newBatch,
      apply_ite Heap.streamer, apply_ite Heap.storage, apply_ite Heap.insertAll,
      apply_ite Prod.snd, ite_self, and_self]

/-- Loads of streamer cells only depend on the streamer region. -/
theorem Heap.getStreamer_congr {g f : Heap} (e : g.streamer = f.streamer) (a : Addr) :
    g.getStreamer a = f.getStreamer a := by
  simp only [Heap.getStreamer, e]

/-- A field assignment to the cell at `a` that keeps the insert-all pointer:
the other regions, the number of cells and that pointer stay as they are. -/
theorem Heap.modStreamer_keeps (g : Heap) (a : Addr)
    (f : StreamerConfigCell → StreamerConfigCell)
    (hf : ∀ s, (f s).InsertAllClient = s.InsertAllClient) :
    (g.modStreamer a f).insertAll = g.insertAll ∧
    (g.modStreamer a f).storage = g.storage ∧
    (g.modStreamer a f).batch = g.batch ∧
    (g.modStreamer a f).streamer.length = g.streamer.length ∧
    ((g.modStreamer a f).getStreamer a).InsertAllClient =
      (g.getStreamer a).InsertAllClient := by
  refine ⟨rfl, rfl, rfl, by simp [Heap.modStreamer, Heap.setStreamer], ?_⟩
  rw [Heap.getStreamer_modStreamer]
  split
  · exact hf _
  · rfl

/-- The worker-count block keeps the other regions, the number of cells and
the insert-all pointer of the result cell. -/
theorem stepWorkerCount_keeps (k : Constants) (cfg sanCfg : Addr) (g : Heap) :
    (stepWorkerCount k cfg sanCfg g).insertAll = g.insertAll ∧
    (stepWorkerCount k cfg sanCfg g).storage = g.storage ∧
    (stepWorkerCount k cfg sanCfg g).batch = g.batch ∧
    (stepWorkerCount k cfg sanCfg g).streamer.length = g.streamer.length ∧
    ((stepWorkerCount k cfg sanCfg g).getStreamer sanCfg).InsertAllClient =
      (g.getStreamer sanCfg).InsertAllClient := by
  unfold stepWorkerCount
  split
  · exact g.modStreamer_keeps _ _ (fun _ => rfl)
  · split
    · exact g.modStreamer_keeps _ _ (fun _ => rfl)
    · exact g.modStreamer_keeps _ _ (fun _ => rfl)

/-- The queue-size block keeps the other regions, the number of cells and the
insert-all pointer of the result cell. -/
theorem stepWorkerQueueSize_keeps (k : Constants) (cfg sanCfg : Addr) (g : Heap) :
    (stepWorkerQueueSize k cfg sanCfg g).insertAll = g.insertAll ∧
    (stepWorkerQueueSize k cfg sanCfg g).storage = g.storage ∧
    (stepWorkerQueueSize k cfg sanCfg g).batch = g.batch ∧
    (stepWorkerQueueSize k cfg sanCfg g).streamer.length = g.streamer.length ∧
    ((stepWorkerQueueSize k cfg sanCfg g).getStreamer sanCfg).InsertAllClient =
      (g.getStreamer sanCfg).InsertAllClient := by
  unfold stepWorkerQueueSize
  split
  · exact g.modStreamer_keeps _ _ (fun _ => rfl)
  · split
    · split
      · exact g.modStreamer_keeps _ _ (fun _ => rfl)
      · exact g.modStreamer_keeps _ _ (fun _ => rfl)
    · exact g.modStreamer_keeps _ _ (fun _ => rfl)

/-- The batch-delay block keeps the other regions, the number of cells and the
insert-all pointer of the result cell. -/
theorem stepMaxBatchDelay_keeps (k : Constants) (cfg sanCfg : Addr) (g : Heap) :
    (stepMaxBatchDelay k cfg sanCfg g).insertAll = g.insertAll ∧
    (stepMaxBatchDelay k cfg sanCfg g).storage = g.storage ∧
    (stepMaxBatchDelay k cfg sanCfg g).batch = g.batch ∧
    (stepMaxBatchDelay k cfg sanCfg g).streamer.length = g.streamer.length ∧
    ((stepMaxBatchDelay k cfg sanCfg g).getStreamer sanCfg).InsertAllClient =
      (g.getStreamer sanCfg).InsertAllClient := by
  unfold stepMaxBatchDelay
  split
  · exact g.modStreamer_keeps _ _ (fun _ => rfl)
  · exact g.modStreamer_keeps _ _ (fun _ => rfl)

/-- The logger block keeps the other regions, the number of cells and the
insert-all pointer of the result cell. -/
theorem stepLogger_keeps (cfg sanCfg : Addr) (g : Heap) :
    (stepLogger cfg sanCfg g).insertAll = g.insertAll ∧
    (stepLogger cfg sanCfg g).storage = g.storage ∧
    (stepLogger cfg sanCfg g).batch = g.batch ∧
    (stepLogger cfg sanCfg g).streamer.length = g.streamer.length ∧
    ((stepLogger cfg sanCfg g).getStreamer sanCfg).InsertAllClient =
      (g.getStreamer sanCfg).InsertAllClient := by
  unfold stepLogger
  split
  · exact g.modStreamer_keeps _ _ (fun _ => rfl)
  · exact g.modStreamer_keeps _ _ (fun _ => rfl)

/-- The insert-all block stores the address of the cell it allocates, the
first free insert-all address, in the result cell; it keeps the storage and
batch regions and the number of streamer cells. -/
theorem stepInsertAllClient_pointer (k : Constants) (cfg sanCfg : Addr) (g : Heap)
    (hs : sanCfg < g.streamer.length) :
    (stepInsertAllClient k cfg sanCfg g).storage = g.storage ∧
    (stepInsertAllClient k cfg sanCfg g).batch = g.batch ∧
    (stepInsertAllClient k cfg sanCfg g).streamer.length = g.streamer.length ∧
    ((stepInsertAllClient k cfg sanCfg g).getStreamer sanCfg).InsertAllClient =
      some g.insertAll.length := by
  obtain ⟨o1, o2, o3⟩ :=
    sanitizeInsertAllClientConfigM_others k (g.getStreamer cfg).InsertAllClient g
  have hp := (sanitizeInsertAllClientConfigM_frame k (g.getStreamer cfg).InsertAllClient g).2
  unfold stepInsertAllClient
  simp only []
  refine ⟨o2, o3, ?_, ?_⟩
  · simp [Heap.modStreamer, Heap.setStreamer, o1]
  · rw [Heap.getStreamer_modStreamer, o1, if_pos hs, hp]

/-- The batch block, on success: the result cell keeps its insert-all and
storage pointers, and a batch pointer in it is the first free batch address. -/
theorem stepBatchClient_pointer (k : Constants) (cfg sanCfg : Addr) (g : Heap)
    (hs : sanCfg < g.streamer.length) :
    (((stepBatchClient k cfg sanCfg g).2.getStreamer sanCfg).InsertAllClient =
      (g.getStreamer sanCfg).InsertAllClient) ∧
    (((stepBatchClient k cfg sanCfg g).2.getStreamer sanCfg).StorageClient =
      (g.getStreamer sanCfg).StorageClient) ∧
    (∀ q, ((stepBatchClient k cfg sanCfg g).2.getStreamer sanCfg).BatchClient = some q →
      q = g.batch.length) := by
  obtain ⟨o1, _, _⟩ := sanitizeBatchClientConfigM_others k (g.getStreamer cfg).BatchClient g
  have hp := (sanitizeBatchClientConfigM_frame k (g.getStreamer cfg).BatchClient g).2
  have hcell :
      ((sanitizeBatchClientConfigM k (g.getStreamer cfg).BatchClient g).2.modStreamer sanCfg
        (fun s => { s with
          BatchClient :=
            (sanitizeBatchClientConfigM k (g.getStreamer cfg).BatchClient g).1.1 })).getStreamer
        sanCfg =
      { g.getStreamer sanCfg with
        BatchClient := (sanitizeBatchClientConfigM k (g.getStreamer cfg).BatchClient g).1.1 } := by
    rw [Heap.getStreamer_modStreamer, o1, if_pos hs, Heap.getStreamer_congr o1]
  unfold stepBatchClient
  simp only []
  split
  · simp only [hcell]
    exact ⟨trivial, trivial, fun q hq => hp q hq⟩
  · simp only [hcell]
    exact ⟨trivial, trivial, fun q hq => hp q hq⟩

/-- The storage block, on success: the result cell keeps its insert-all
pointer, a storage pointer in it is the first free storage address and a batch
pointer in it is the first free batch address. -/
theorem stepStorageClient_pointer (k : Constants) (cfg sanCfg : Addr) (g : Heap)
    (hs : sanCfg < g.streamer.length) (p : Addr)
    (hp : (stepStorageClient k cfg sanCfg g).1.1 = some p) :
    (((stepStorageClient k cfg sanCfg g).2.getStreamer sanCfg).InsertAllClient =
      (g.getStreamer sanCfg).InsertAllClient) ∧
    (∀ q, ((stepStorageClient k cfg sanCfg g).2.getStreamer sanCfg).StorageClient = some q →
      q = g.storage.length) ∧
    (∀ q, ((stepStorageClient k cfg sanCfg g).2.getStreamer sanCfg).BatchClient = some q →
      q = g.batch.length) := by
  obtain ⟨o1, _, o3⟩ :=
    sanitizeStorageClientConfigM_others (g.getStreamer cfg).StorageClient g
  have hq := (sanitizeStorageClientConfigM_frame (g.getStreamer cfg).StorageClient g).2
  have hcell :
      ((sanitizeStorageClientConfigM (g.getStreamer cfg).StorageClient g).2.modStreamer sanCfg
        (fun s => { s with
          StorageClient :=
            (sanitizeStorageClientConfigM (g.getStreamer cfg).StorageClient g).1.1 })).getStreamer
        sanCfg =
      { g.getStreamer sanCfg with
        StorageClient :=
          (sanitizeStorageClientConfigM (g.getStreamer cfg).StorageClient g).1.1 } := by
    rw [Heap.getStreamer_modStreamer, o1, if_pos hs, Heap.getStreamer_congr o1]
  have hlen :
      ((sanitizeStorageClientConfigM (g.getStreamer cfg).StorageClient g).2.modStreamer sanCfg
        (fun s => { s with
          StorageClient :=
            (sanitizeStorageClientConfigM (g.getStreamer cfg).StorageClient
              g).1.1 })).streamer.length = g.streamer.length := by
    simp [Heap.modStreamer, Heap.setStreamer, o1]
  unfold stepStorageClient at hp ⊢
  simp only [] at hp ⊢
  split at hp
  · simp at hp
  · obtain ⟨b1, b2, b3⟩ := stepBatchClient_pointer k cfg sanCfg _ (hlen ▸ hs)
    rw [hcell] at b1 b2
    refine ⟨b1, fun q hq' => ?_, fun q hq' => ?_⟩
    · rw [b2] at hq'
      exact hq q hq'
    · rw [b3 q hq']
      exact congrArg List.length o3

/-- The blocks up to the logger, run on a heap in which the result cell
exists: the storage and batch regions are as before, the result cell still
exists and its insert-all pointer is the first insert-all address that was
free. -/
theorem steps_before_clients (k : Constants) (c n : Addr) (g0 : Heap)
    (hn : n < g0.streamer.length) :
    (stepLogger c n (stepMaxBatchDelay k c n (stepWorkerQueueSize k c n
      (stepInsertAllClient k c n (stepWorkerCount k c n g0))))).storage = g0.storage ∧
    (stepLogger c n (stepMaxBatchDelay k c n (stepWorkerQueueSize k c n
      (stepInsertAllClient k c n (stepWorkerCount k c n g0))))).batch = g0.batch ∧
    n < (stepLogger c n (stepMaxBatchDelay k c n (stepWorkerQueueSize k c n
      (stepInsertAllClient k c n (stepWorkerCount k c n g0))))).streamer.length ∧
    ((stepLogger c n (stepMaxBatchDelay k c n (stepWorkerQueueSize k c n
      (stepInsertAllClient k c n (stepWorkerCount k c n g0))))).getStreamer n).InsertAllClient =
      some g0.insertAll.length := by
  obtain ⟨a1, a2, a3, a4, _⟩ := stepWorkerCount_keeps k c n g0
  generalize stepWorkerCount k c n g0 = g1 at a1 a2 a3 a4 ⊢
  obtain ⟨b2, b3, b4, b5⟩ := stepInsertAllClient_pointer k c n g1 (a4 ▸ hn)
  generalize stepInsertAllClient k c n g1 = g2 at b2 b3 b4 b5 ⊢
  obtain ⟨_, c2, c3, c4, c5⟩ := stepWorkerQueueSize_keeps k c n g2
  generalize stepWorkerQueueSize k c n g2 = g3 at c2 c3 c4 c5 ⊢
  obtain ⟨_, d2, d3, d4, d5⟩ := stepMaxBatchDelay_keeps k c n g3
  generalize stepMaxBatchDelay k c n g3 = g4 at d2 d3 d4 d5 ⊢
  obtain ⟨_, e2, e3, e4, e5⟩ := stepLogger_keeps c n g4
  generalize stepLogger c n g4 = g5 at e2 e3 e4 e5 ⊢
  refine ⟨?_, ?_, ?_, ?_⟩
  · rw [e2, d2, c2, b2, a2]
  · rw [e3, d3, c3, b3, a3]
  · rw [e4, d4, c4, b4, a4]
    exact hn
  · rw [e5, d5, c5, b5, a1]

/-- The streamer sanitiser as the sequence of its blocks, `c` being the
address that is read: the input, or the result cell for a nil input. -/
theorem sanitizeStreamerConfigM_steps (k : Constants) (cfg : Option Addr) (h : Heap) :
    ∃ c, sanitizeStreamerConfigM k cfg h =
      stepStorageClient k c h.streamer.length
        (stepLogger c h.streamer.length (stepMaxBatchDelay k c h.streamer.length
          (stepWorkerQueueSize k c h.streamer.length
            (stepInsertAllClient k c h.streamer.length
              (stepWorkerCount k c h.streamer.length h.newStreamer))))) := by
  cases cfg with
  | none =>
    refine ⟨h.streamer.length, ?_⟩
    unfold sanitizeStreamerConfigM
    simp only []
  | some a =>
    refine ⟨a, ?_⟩
    unfold sanitizeStreamerConfigM
    simp only []

/-- The streamer sanitiser, on success: the insert-all, storage and batch
pointers of the config it returns are addresses that were free before the
call. -/
theorem sanitizeStreamerConfigM_pointers (k : Constants) (cfg : Option Addr) (h : Heap)
    (p : Addr) (hp : (sanitizeStreamerConfigM k cfg h).1.1 = some p) :
    ((sanitizeStreamerConfigM k cfg h).2.getStreamer p).InsertAllClient =
      some h.insertAll.length ∧
    (∀ q, ((sanitizeStreamerConfigM k cfg h).2.getStreamer p).StorageClient = some q →
      q = h.storage.length) ∧
    (∀ q, ((sanitizeStreamerConfigM k cfg h).2.getStreamer p).BatchClient = some q →
      q = h.batch.length) := by
  have hpn := (sanitizeStreamerConfigM_frame k cfg h).2 p hp
  subst hpn
  obtain ⟨c, hc⟩ := sanitizeStreamerConfigM_steps k cfg h
  have l0 : h.streamer.length < h.newStreamer.streamer.length := by
    simp [Heap.newStreamer]
  obtain ⟨s1, s2, s3, s4⟩ := steps_before_clients k c h.streamer.length h.newStreamer l0
  rw [hc] at hp ⊢
  generalize (stepLogger c h.streamer.length (stepMaxBatchDelay k c h.streamer.length
        (stepWorkerQueueSize k c h.streamer.length
          (stepInsertAllClient k c h.streamer.length
            (stepWorkerCount k c h.streamer.length h.newStreamer))))) = g5 at s1 s2 s3 s4 hp ⊢
  obtain ⟨f1, f2, f3⟩ := stepStorageClient_pointer k c h.streamer.length g5 s3 _ hp
  refine ⟨?_, fun q hq => ?_, fun q hq => ?_⟩
  · rw [f1, s4]
    rfl
  · rw [f2 q hq, s1]
    rfl
  · rw [f3 q hq, s2]
    rfl

/-- A cell that was allocated before keeps its contents in every extension. -/
theorem Extends.getD_eq {α : Type} {l m : List α} (e : Extends l m) (a : Nat) (d : α)
    (ha : a < l.length) : m.getD a d = l.getD a d := by
  obtain ⟨t, rfl⟩ := e
  exact List.getD_append l t d a ha

/-! ## No mutation of the input -/

/-- Claim C16. `sanitizeStreamerConfig` never mutates its input: whatever the
input pointer is and whether the call succeeds or fails, every
`StreamerConfig`, `InsertAllClientConfig`, `StorageClientConfig` and
`BatchClientConfig` that existed before the call, so the input config and the
configs it points to, holds the same value after the call; and a config that is
returned is newly built: its address and the addresses of its insert-all,
storage and batch configs were not allocated before the call. -/
theorem sanitizeStreamerConfigM_input_unchanged (k : Constants) (cfg : Option Addr)
    (h : Heap) :
    (∀ a, a < h.streamer.length →
      (sanitizeStreamerConfigM k cfg h).2.getStreamer a = h.getStreamer a) ∧
    (∀ a, a < h.insertAll.length →
      (sanitizeStreamerConfigM k cfg h).2.getInsertAll a = h.getInsertAll a) ∧
    (∀ a, a < h.storage.length →
      (sanitizeStreamerConfigM k cfg h).2.getStorage a = h.getStorage a) ∧
    (∀ a, a < h.batch.length →
      (sanitizeStreamerConfigM k cfg h).2.getBatch a = h.getBatch a) ∧
    (∀ p, (sanitizeStreamerConfigM k cfg h).1.1 = some p →
      p = h.streamer.length ∧
      ((sanitizeStreamerConfigM k cfg h).2.getStreamer p).InsertAllClient =
        some h.insertAll.length ∧
      (∀ q, ((sanitizeStreamerConfigM k cfg h).2.getStreamer p).StorageClient = some q →
        q = h.storage.length) ∧
      (∀ q, ((sanitizeStreamerConfigM k cfg h).2.getStreamer p).BatchClient = some q →
        q = h.batch.length)) := by
  obtain ⟨⟨e1, e2, e3, e4⟩, hfresh⟩ := sanitizeStreamerConfigM_frame k cfg h
  refine ⟨fun a ha => e1.getD_eq a _ ha, fun a ha => e2.getD_eq a _ ha,
    fun a ha => e3.getD_eq a _ ha, fun a ha => e4.getD_eq a _ ha, fun p hp => ?_⟩
  exact ⟨hfresh p hp, sanitizeStreamerConfigM_pointers k cfg h p hp⟩

/-- Instance of claim C16 on the sample heap: the input config at address 0 is
the same after the call, and the result is the new cell at address 1. -/
theorem sanitizeStreamerConfigM_input_unchanged_witness :
    (0 < sampleHeap.streamer.length) ∧
    (sanitizeStreamerConfigM sampleConstants (some 0) sampleHeap).2.getStreamer 0 =
      sampleHeap.getStreamer 0 ∧
    (sanitizeStreamerConfigM sampleConstants (some 0) sampleHeap).1.1 = some 1 ∧
    (1 = sampleHeap.streamer.length) :=
  ⟨by decide,
   (sanitizeStreamerConfigM_input_unchanged sampleConstants (some 0) sampleHeap).1 0
     (by decide),
   by decide,
   ((sanitizeStreamerConfigM_input_unchanged sampleConstants (some 0)
     sampleHeap).2.2.2.2 1 (by decide)).1⟩

/-! ## The built-in logger -/

/-- Claim C20. The built-in logger ignores debug messages: for every argument
list and every template, `stdLogger.Debug` and `stdLogger.Debugf` leave the
output streams as they are, while `stdLogger.Error` and `stdLogger.Errorf`
append their message to the standard error stream and leave the standard
output stream as it is. -/
theorem stdLogger_streams {α : Type} (fm : Formatter α) (stdl : stdLogger)
    (template : String) (args : List α) (w : Streams) :
    stdl.Debug args w = w ∧
    stdl.Debugf template args w = w ∧
    (stdLogger.Error fm stdl args w).stderr = w.stderr ++ fm.sprint args ∧
    (stdLogger.Error fm stdl args w).stdout = w.stdout ∧
    (stdLogger.Errorf fm stdl template args w).stderr =
      w.stderr ++ fm.sprintf template args ∧
    (stdLogger.Errorf fm stdl template args w).stdout = w.stdout :=
  ⟨rfl, rfl, rfl, rfl, rfl, rfl⟩


/-! ## The heap sanitisers compute the value sanitisers -/

/-- Load from the last cell. -/
theorem getD_append_last {α : Type} (l : List α) (c d : α) :
    (l ++ [c]).getD l.length d = c := by
  simp [List.getD_eq_getElem?_getD]

/-- Load from a cell before the last one. -/
theorem getD_append_old {α : Type} (l : List α) (c d : α) (a : Nat) (ha : a < l.length) :
    (l ++ [c]).getD a d = l.getD a d :=
  List.getD_append l [c] d a ha

/-- Store into the last cell. -/
theorem set_append_last {α : Type} (l : List α) (c v : α) :
    (l ++ [c]).set l.length v = l ++ [v] := by
  simp

/-- The insert-all sanitiser on the heap appends the value that
`sanitizeInsertAllClientConfig` computes from the config the pointer stands
for, and returns its address. -/
theorem sanitizeInsertAllClientConfigM_eq (k : Constants) (cfg : Option Addr) (h : Heap)
    (hv : ∀ q, cfg = some q → q < h.insertAll.length) :
    sanitizeInsertAllClientConfigM k cfg h =
      (h.insertAll.length,
        { h with insertAll := h.insertAll ++
            [sanitizeInsertAllClientConfig k (cfg.map h.getInsertAll)] }) := by
  rw [sanitizeInsertAllClientConfig_fields]
  cases cfg with
  | none =>
    simp only [sanitizeInsertAllClientConfigM, Heap.newInsertAll, Heap.modInsertAll,
      Heap.setInsertAll, Heap.getInsertAll, getD_append_last, set_append_last,
      Option.map_none', readCfg]
    simp
  | some q =>
    have hold : ∀ c d : InsertAllClientConfig,
        (h.insertAll ++ [c]).getD q d = h.insertAll.getD q d :=
      fun c d => getD_append_old _ c d q (hv q rfl)
    by_cases hb1 : (h.insertAll.getD q {}).BatchSize < 0 <;>
    by_cases hb2 : (h.insertAll.getD q {}).BatchSize = 0 <;>
    by_cases hm : (h.insertAll.getD q {}).MaxRetryDeadlineOffset = 0 <;>
    simp [sanitizeInsertAllClientConfigM, Heap.newInsertAll, Heap.modInsertAll,
      Heap.setInsertAll, Heap.getInsertAll, getD_append_last, hold, hb1, hb2, hm, readCfg,
      -List.getD_eq_getElem?_getD]

/-- The worker-count block on a heap whose last streamer cell is the result
cell `c`: it rewrites the worker count of `c` from the cell that `a` reads. -/
theorem stepWorkerCount_last (k : Constants) (a : Addr) (l : List StreamerConfigCell)
    (c : StreamerConfigCell) (I : List InsertAllClientConfig)
    (S : List StorageClientConfig) (B : List BatchClientConfig) :
    stepWorkerCount k a l.length ⟨l ++ [c], I, S, B⟩ =
      ⟨l ++ [{ c with
        WorkerCount :=
          if ((l ++ [c]).getD a {}).WorkerCount < 0 then 1
          else if ((l ++ [c]).getD a {}).WorkerCount = 0 then k.DefaultWorkerCount
          else ((l ++ [c]).getD a {}).WorkerCount }], I, S, B⟩ := by
  simp only [stepWorkerCount, Heap.modStreamer, Heap.setStreamer, Heap.getStreamer,
    getD_append_last, set_append_last]
  split
  · rfl
  · split <;> rfl

/-- The queue-size block on a heap whose last streamer cell is the result cell
`c`. -/
theorem stepWorkerQueueSize_last (k : Constants) (a : Addr) (l : List StreamerConfigCell)
    (c : StreamerConfigCell) (I : List InsertAllClientConfig)
    (S : List StorageClientConfig) (B : List BatchClientConfig) :
    stepWorkerQueueSize k a l.length ⟨l ++ [c], I, S, B⟩ =
      ⟨l ++ [{ c with
        WorkerQueueSize :=
          if ((l ++ [c]).getD a {}).WorkerQueueSize < 0 then 0
          else if ((l ++ [c]).getD a {}).WorkerQueueSize = 0 then
            if ((l ++ [c]).getD a {}).StorageClient = none then
              goDiv (goAdd
                ((⟨l ++ [c], I, S, B⟩ : Heap).derefInsertAll c.InsertAllClient).BatchSize 1) 2
            else k.DefaultWorkerQueueSize
          else ((l ++ [c]).getD a {}).WorkerQueueSize }], I, S, B⟩ := by
  simp only [stepWorkerQueueSize, Heap.modStreamer, Heap.setStreamer, Heap.getStreamer,
    getD_append_last, set_append_last]
  split
  · rfl
  · split
    · split <;> rfl
    · rfl

/-- The batch-delay block on a heap whose last streamer cell is the result
cell `c`. -/
theorem stepMaxBatchDelay_last (k : Constants) (a : Addr) (l : List StreamerConfigCell)
    (c : StreamerConfigCell) (I : List InsertAllClientConfig)
    (S : List StorageClientConfig) (B : List BatchClientConfig) :
    stepMaxBatchDelay k a l.length ⟨l ++ [c], I, S, B⟩ =
      ⟨l ++ [{ c with
        MaxBatchDelay :=
          if ((l ++ [c]).getD a {}).MaxBatchDelay = 0 then k.DefaultMaxBatchDelay
          else ((l ++ [c]).getD a {}).MaxBatchDelay }], I, S, B⟩ := by
  simp only [stepMaxBatchDelay, Heap.modStreamer, Heap.setStreamer, Heap.getStreamer,
    getD_append_last, set_append_last]
  split <;> rfl

/-- The logger block on a heap whose last streamer cell is the result cell
`c`. -/
theorem stepLogger_last (a : Addr) (l : List StreamerConfigCell)
    (c : StreamerConfigCell) (I : List InsertAllClientConfig)
    (S : List StorageClientConfig) (B : List BatchClientConfig) :
    stepLogger a l.length ⟨l ++ [c], I, S, B⟩ =
      ⟨l ++ [{ c with
        Logger :=
          if ((l ++ [c]).getD a {}).Logger = none then some Logger.builtin
          else ((l ++ [c]).getD a {}).Logger }], I, S, B⟩ := by
  simp only [stepLogger, Heap.modStreamer, Heap.setStreamer, Heap.getStreamer,
    getD_append_last, set_append_last]
  split <;> rfl

/-- The insert-all block on a heap whose last streamer cell is the result cell
`c`: it appends the sanitised insert-all config and stores its address in
`c`. -/
theorem stepInsertAllClient_last (k : Constants) (a : Addr) (l : List StreamerConfigCell)
    (c : StreamerConfigCell) (I : List InsertAllClientConfig)
    (S : List StorageClientConfig) (B : List BatchClientConfig)
    (hv : ∀ q, ((l ++ [c]).getD a {}).InsertAllClient = some q → q < I.length) :
    stepInsertAllClient k a l.length ⟨l ++ [c], I, S, B⟩ =
      ⟨l ++ [{ c with InsertAllClient := some I.length }],
        I ++ [sanitizeInsertAllClientConfig k
          (((l ++ [c]).getD a {}).InsertAllClient.map (fun q => I.getD q {}))], S, B⟩ := by
  simp only [stepInsertAllClient, Heap.getStreamer]
  rw [sanitizeInsertAllClientConfigM_eq k _ _ hv]
  simp only [Heap.modStreamer, Heap.setStreamer, Heap.getStreamer,
    getD_append_last, set_append_last]
  rfl

/-- The storage sanitiser on the heap, against `sanitizeStorageClientConfig` on
the config the pointer stands for: the same error; on success one cell with
the sanitised value is appended and its address returned, otherwise the heap is
as before. -/
theorem sanitizeStorageClientConfigM_eq (cfg : Option Addr) (L : List StreamerConfigCell)
    (I : List InsertAllClientConfig) (S : List StorageClientConfig)
    (B : List BatchClientConfig) (hv : ∀ q, cfg = some q → q < S.length) :
    sanitizeStorageClientConfigM cfg ⟨L, I, S, B⟩ =
      match sanitizeStorageClientConfig (cfg.map (fun q => S.getD q {})) with
      | (some v, e) => ((some S.length, e), ⟨L, I, S ++ [v], B⟩)
      | (none, e) => ((none, e), ⟨L, I, S, B⟩) := by
  cases cfg with
  | none => rfl
  | some q =>
    have hold : ∀ c d : StorageClientConfig, (S ++ [c]).getD q d = S.getD q d :=
      fun c d => getD_append_old _ c d q (hv q rfl)
    by_cases hbad : (S.getD q {}).ProtobufDescriptor = none ∧ (S.getD q {}).BigQuerySchema = none
    · simp only [sanitizeStorageClientConfigM, sanitizeStorageClientConfig, Heap.getStorage,
        Option.map_some', if_pos hbad]
    · simp only [sanitizeStorageClientConfigM, sanitizeStorageClientConfig, Heap.getStorage,
        Heap.newStorage, Heap.modStorage, Heap.setStorage, Option.map_some', if_neg hbad,
        getD_append_last, set_append_last, hold]

/-- The batch sanitiser on the heap, for a non-nil input: one cell is
appended, holding the value that `sanitizeBatchClientConfig` returns on
success; the pointer and the error are those of `sanitizeBatchClientConfig` on
the config the pointer stands for. -/
theorem sanitizeBatchClientConfigM_some (k : Constants) (q : Addr)
    (L : List StreamerConfigCell) (I : List InsertAllClientConfig)
    (S : List StorageClientConfig) (B : List BatchClientConfig) (hq : q < B.length) :
    sanitizeBatchClientConfigM k (some q) ⟨L, I, S, B⟩ =
      (if (B.getD q {}).BigQuerySchema = none ∧
          (if (B.getD q {}).SourceFormat ≠ "" then (B.getD q {}).SourceFormat
            else k.DefaultSourceFormat) ≠ bigqueryJSON ∧
          (if (B.getD q {}).SourceFormat ≠ "" then (B.getD q {}).SourceFormat
            else k.DefaultSourceFormat) ≠ bigqueryCSV
        then (none, some Error.ErrAutoDetectSchemaNotSupported)
        else (some B.length, none),
       ⟨L, I, S, B ++
        [{ BigQuerySchema := (B.getD q {}).BigQuerySchema
           SourceFormat :=
             if (B.getD q {}).SourceFormat ≠ "" then (B.getD q {}).SourceFormat
             else k.DefaultSourceFormat
           FailForUnknownValues := (B.getD q {}).FailForUnknownValues
           WriteDisposition :=
             if (B.getD q {}).WriteDisposition ≠ "" then (B.getD q {}).WriteDisposition
             else k.DefaultWriteDisposition }]⟩) := by
  have hold : ∀ c : BatchClientConfig, (B ++ [c]).getD q {} = B.getD q {} :=
    fun c => getD_append_old _ c _ q hq
  generalize hb : B.getD q {} = b at hold ⊢
  by_cases hf : b.SourceFormat ≠ "" <;> by_cases hw : b.WriteDisposition ≠ "" <;>
  · simp only [sanitizeBatchClientConfigM, Heap.getBatch, Heap.newBatch, Heap.modBatch,
      Heap.setBatch, getD_append_last, set_append_last, hold, hf, hw, if_true,
      if_false, not_true_eq_false, not_false_eq_true, ne_eq]
    split <;> rfl

/-- The blocks up to the logger on a heap whose last streamer cell is the
zero-valued result cell, when every read of the input gives the cell `inp` (for
a nil input, the zero value): the result cell and the new insert-all cell in
closed form. -/
theorem steps_before_clients_last (k : Constants) (a : Addr) (l : List StreamerConfigCell)
    (I : List InsertAllClientConfig) (S : List StorageClientConfig)
    (B : List BatchClientConfig) (inp : StreamerConfigCell)
    (hrd : (a < l.length ∧ l.getD a {} = inp) ∨ (a = l.length ∧ inp = {}))
    (hv : ∀ q, inp.InsertAllClient = some q → q < I.length) :
    stepLogger a l.length (stepMaxBatchDelay k a l.length (stepWorkerQueueSize k a l.length
      (stepInsertAllClient k a l.length (stepWorkerCount k a l.length
        ⟨l ++ [({} : StreamerConfigCell)], I, S, B⟩)))) =
      ⟨l ++ [{ WorkerCount :=
                 if inp.WorkerCount < 0 then 1
                 else if inp.WorkerCount = 0 then k.DefaultWorkerCount
                 else inp.WorkerCount
               WorkerQueueSize :=
                 if inp.WorkerQueueSize < 0 then 0
                 else if inp.WorkerQueueSize = 0 then
                   if inp.StorageClient = none then
                     goDiv (goAdd (sanitizeInsertAllClientConfig k
                       (inp.InsertAllClient.map (fun q => I.getD q {}))).BatchSize 1) 2
                   else k.DefaultWorkerQueueSize
                 else inp.WorkerQueueSize
               MaxBatchDelay :=
                 if inp.MaxBatchDelay = 0 then k.DefaultMaxBatchDelay else inp.MaxBatchDelay
               Logger := if inp.Logger = none then some Logger.builtin else inp.Logger
               InsertAllClient := some I.length
               StorageClient := none
               BatchClient := none }],
        I ++ [sanitizeInsertAllClientConfig k
          (inp.InsertAllClient.map (fun q => I.getD q {}))], S, B⟩ := by
  rcases hrd with ⟨ha, hinp⟩ | ⟨ha, hinp⟩
  · have hold : ∀ c : StreamerConfigCell, (l ++ [c]).getD a {} = inp :=
      fun c => (getD_append_old l c _ a ha).trans hinp
    rw [stepWorkerCount_last, stepInsertAllClient_last _ _ _ _ _ _ _ (by
      intro q hq
      rw [hold] at hq
      exact hv q hq), stepWorkerQueueSize_last, stepMaxBatchDelay_last, stepLogger_last]
    simp only [hold, Heap.derefInsertAll, Heap.getInsertAll, getD_append_last]
  · subst ha hinp
    rw [stepWorkerCount_last, stepInsertAllClient_last _ _ _ _ _ _ _ (by
      intro q hq
      rw [getD_append_last] at hq
      simp at hq), stepWorkerQueueSize_last, stepMaxBatchDelay_last, stepLogger_last]
    simp only [Heap.derefInsertAll, Heap.getInsertAll, getD_append_last]

/-- The batch block on a heap whose last streamer cell is the result cell `c`,
when the batch pointer that is read is `p`: the error of
`sanitizeBatchClientConfig` on the config `p` stands for, and on success the
result cell with the new batch pointer and the sanitised batch config
appended. -/
theorem stepBatchClient_last (k : Constants) (a : Addr) (l : List StreamerConfigCell)
    (c : StreamerConfigCell) (I : List InsertAllClientConfig)
    (S : List StorageClientConfig) (B : List BatchClientConfig) (p : Option Addr)
    (hp : ((l ++ [c]).getD a {}).BatchClient = p)
    (hv : ∀ q, p = some q → q < B.length) :
    (∀ e, (sanitizeBatchClientConfig k (p.map (fun q => B.getD q {}))).2 = some e →
      (stepBatchClient k a l.length ⟨l ++ [c], I, S, B⟩).1 = (none, some e)) ∧
    ((sanitizeBatchClientConfig k (p.map (fun q => B.getD q {}))).2 = none →
      stepBatchClient k a l.length ⟨l ++ [c], I, S, B⟩ =
        ((some l.length, none),
          ⟨l ++ [{ c with
              BatchClient :=
                (sanitizeBatchClientConfig k (p.map (fun q => B.getD q {}))).1.map
                  (fun _ => B.length) }], I, S,
            B ++ (sanitizeBatchClientConfig k (p.map (fun q => B.getD q {}))).1.toList⟩)) := by
  cases p with
  | none =>
    simp only [stepBatchClient, Heap.getStreamer, hp, sanitizeBatchClientConfigM,
      sanitizeBatchClientConfig, Option.map_none', Heap.modStreamer, Heap.setStreamer,
      getD_append_last, set_append_last, Option.toList, List.append_nil]
    exact ⟨fun e he => by simp at he, fun _ => trivial⟩
  | some q =>
    have hq := hv q rfl
    simp only [stepBatchClient, Heap.getStreamer, hp, Option.map_some']
    rw [sanitizeBatchClientConfigM_some k q _ I S B hq, sanitizeBatchClientConfig_some]
    by_cases hbad : (B.getD q {}).BigQuerySchema = none ∧
        (if (B.getD q {}).SourceFormat ≠ "" then (B.getD q {}).SourceFormat
          else k.DefaultSourceFormat) ≠ bigqueryJSON ∧
        (if (B.getD q {}).SourceFormat ≠ "" then (B.getD q {}).SourceFormat
          else k.DefaultSourceFormat) ≠ bigqueryCSV
    · simp only [if_pos hbad]
      exact ⟨fun e he => by
        simp only [Option.some.injEq] at he
        rw [he], fun h => by simp at h⟩
    · simp only [if_neg hbad, Heap.modStreamer, Heap.setStreamer, Heap.getStreamer,
        getD_append_last, set_append_last, Option.map_some', Option.toList]
      exact ⟨fun e he => by simp at he, fun _ => trivial⟩

/-- The storage block and what follows it, on a heap whose last streamer cell
is the result cell `c`, when the storage and batch pointers that are read are
`ps` and `pb`: the first error of `sanitizeStorageClientConfig` and
`sanitizeBatchClientConfig` on the configs the pointers stand for, and without
an error the result cell with the two new pointers and the sanitised configs
appended. -/
theorem stepStorageClient_last (k : Constants) (a : Addr) (l : List StreamerConfigCell)
    (c : StreamerConfigCell) (I : List InsertAllClientConfig)
    (S : List StorageClientConfig) (B : List BatchClientConfig) (ps pb : Option Addr)
    (hps : ((l ++ [c]).getD a {}).StorageClient = ps)
    (hpb : ∀ c' : StreamerConfigCell, c'.BatchClient = c.BatchClient →
      ((l ++ [c']).getD a {}).BatchClient = pb)
    (hvs : ∀ q, ps = some q → q < S.length) (hvb : ∀ q, pb = some q → q < B.length) :
    (∀ e, (sanitizeStorageClientConfig (ps.map (fun q => S.getD q {}))).2 = some e →
      (stepStorageClient k a l.length ⟨l ++ [c], I, S, B⟩).1 = (none, some e)) ∧
    ((sanitizeStorageClientConfig (ps.map (fun q => S.getD q {}))).2 = none →
      ∀ e, (sanitizeBatchClientConfig k (pb.map (fun q => B.getD q {}))).2 = some e →
        (stepStorageClient k a l.length ⟨l ++ [c], I, S, B⟩).1 = (none, some e)) ∧
    ((sanitizeStorageClientConfig (ps.map (fun q => S.getD q {}))).2 = none →
      (sanitizeBatchClientConfig k (pb.map (fun q => B.getD q {}))).2 = none →
        stepStorageClient k a l.length ⟨l ++ [c], I, S, B⟩ =
          ((some l.length, none),
            ⟨l ++ [{ c with
                StorageClient :=
                  (sanitizeStorageClientConfig (ps.map (fun q => S.getD q {}))).1.map
                    (fun _ => S.length)
                BatchClient :=
                  (sanitizeBatchClientConfig k (pb.map (fun q => B.getD q {}))).1.map
                    (fun _ => B.length) }], I,
              S ++ (sanitizeStorageClientConfig (ps.map (fun q => S.getD q {}))).1.toList,
              B ++ (sanitizeBatchClientConfig k (pb.map (fun q => B.getD q {}))).1.toList⟩)) := by
  simp only [stepStorageClient, Heap.getStreamer, hps]
  rw [sanitizeStorageClientConfigM_eq ps _ I S B hvs]
  generalize sanitizeStorageClientConfig (ps.map (fun q => S.getD q {})) = r
  obtain ⟨r1, r2⟩ := r
  cases r2 with
  | some e0 =>
    cases r1 <;>
    · simp only []
      exact ⟨fun e he => by rw [← Option.some.inj he],
        fun h => by simp at h, fun h => by simp at h⟩
  | none =>
    cases r1 with
    | none =>
      simp only [Heap.modStreamer, Heap.setStreamer, Heap.getStreamer, getD_append_last,
        set_append_last, Option.map_none', Option.toList, List.append_nil]
      obtain ⟨b1, b2⟩ := stepBatchClient_last k a l { c with StorageClient := none } I S B pb
        (hpb _ rfl) hvb
      exact ⟨fun e he => by simp at he, fun _ e he => b1 e he, fun _ hb => b2 hb⟩
    | some v =>
      simp only [Heap.modStreamer, Heap.setStreamer, Heap.getStreamer, getD_append_last,
        set_append_last, Option.map_some', Option.toList]
      obtain ⟨b1, b2⟩ := stepBatchClient_last k a l { c with StorageClient := some S.length }
        I (S ++ [v]) B pb (hpb _ rfl) hvb
      exact ⟨fun e he => by simp at he, fun _ e he => b1 e he, fun _ hb => b2 hb⟩

/-- Two configs with the same seven fields are equal. -/
theorem StreamerConfig.eq_of_fields (x y : StreamerConfig)
    (h1 : x.WorkerCount = y.WorkerCount) (h2 : x.WorkerQueueSize = y.WorkerQueueSize)
    (h3 : x.MaxBatchDelay = y.MaxBatchDelay) (h4 : x.Logger = y.Logger)
    (h5 : x.InsertAllClient = y.InsertAllClient) (h6 : x.StorageClient = y.StorageClient)
    (h7 : x.BatchClient = y.BatchClient) : x = y := by
  cases x
  cases y
  simp_all

/-- A pointer to a newly appended cell, followed. -/
theorem map_getD_append_toList {α : Type} (l : List α) (o : Option α) (d : α) :
    (o.map (fun _ => l.length)).map (fun q => (l ++ o.toList).getD q d) = o := by
  cases o with
  | none => rfl
  | some v => simp [Option.toList, List.getD_eq_getElem?_getD]

/-- Refinement: on a heap in which the input pointer is valid, the sanitiser
on the heap returns the error of `sanitizeStreamerConfig` applied to the config
the input pointer stands for, and the pointer it returns stands, in the final
heap, for the config that `sanitizeStreamerConfig` returns. -/
theorem sanitizeStreamerConfigM_refines (k : Constants) (cfg : Option Addr) (h : Heap)
    (hv : h.ValidCfg cfg) :
    (sanitizeStreamerConfigM k cfg h).1.2 =
      (sanitizeStreamerConfig k (cfg.map h.resolve)).2 ∧
    (sanitizeStreamerConfigM k cfg h).1.1.map (sanitizeStreamerConfigM k cfg h).2.resolve =
      (sanitizeStreamerConfig k (cfg.map h.resolve)).1 := by
  obtain ⟨l, I, S, B⟩ := h
  -- the address that is read, the cell that reads of the input give, and the
  -- input as a value
  obtain ⟨a, inp, hsteps, hrd, hval, hvi, hvs, hvb⟩ : ∃ (a : Addr) (inp : StreamerConfigCell),
      sanitizeStreamerConfigM k cfg ⟨l, I, S, B⟩ =
        stepStorageClient k a l.length
          (stepLogger a l.length (stepMaxBatchDelay k a l.length
            (stepWorkerQueueSize k a l.length (stepInsertAllClient k a l.length
              (stepWorkerCount k a l.length
                ⟨l ++ [({} : StreamerConfigCell)], I, S, B⟩))))) ∧
      ((a < l.length ∧ l.getD a {} = inp) ∨ (a = l.length ∧ inp = {})) ∧
      readCfg (cfg.map (Heap.resolve ⟨l, I, S, B⟩)) {} =
        { WorkerCount := inp.WorkerCount
          WorkerQueueSize := inp.WorkerQueueSize
          MaxBatchDelay := inp.MaxBatchDelay
          Logger := inp.Logger
          InsertAllClient := inp.InsertAllClient.map (fun q => I.getD q {})
          StorageClient := inp.StorageClient.map (fun q => S.getD q {})
          BatchClient := inp.BatchClient.map (fun q => B.getD q {}) } ∧
      (∀ q, inp.InsertAllClient = some q → q < I.length) ∧
      (∀ q, inp.StorageClient = some q → q < S.length) ∧
      (∀ q, inp.BatchClient = some q → q < B.length) := by
    cases cfg with
    | none =>
      refine ⟨l.length, {}, ?_, Or.inr ⟨rfl, rfl⟩, rfl, ?_, ?_, ?_⟩
      · unfold sanitizeStreamerConfigM
        simp only [Heap.newStreamer]
      · intro q hq
        simp at hq
      · intro q hq
        simp at hq
      · intro q hq
        simp at hq
    | some a =>
      obtain ⟨v1, v2, v3, v4⟩ := hv a rfl
      refine ⟨a, l.getD a {}, ?_, Or.inl ⟨v1, rfl⟩, rfl, v2, v3, v4⟩
      unfold sanitizeStreamerConfigM
      simp only [Heap.newStreamer]
  obtain ⟨c5, hc5, hg5⟩ : ∃ c5 : StreamerConfigCell,
      c5 =
        { WorkerCount :=
            if inp.WorkerCount < 0 then 1
            else if inp.WorkerCount = 0 then k.DefaultWorkerCount
            else inp.WorkerCount
          WorkerQueueSize :=
            if inp.WorkerQueueSize < 0 then 0
            else if inp.WorkerQueueSize = 0 then
              if inp.StorageClient = none then
                goDiv (goAdd (sanitizeInsertAllClientConfig k
                  (inp.InsertAllClient.map (fun q => I.getD q {}))).BatchSize 1) 2
              else k.DefaultWorkerQueueSize
            else inp.WorkerQueueSize
          MaxBatchDelay :=
            if inp.MaxBatchDelay = 0 then k.DefaultMaxBatchDelay else inp.MaxBatchDelay
          Logger := if inp.Logger = none then some Logger.builtin else inp.Logger
          InsertAllClient := some I.length
          StorageClient := none
          BatchClient := none } ∧
      stepLogger a l.length (stepMaxBatchDelay k a l.length
        (stepWorkerQueueSize k a l.length (stepInsertAllClient k a l.length
          (stepWorkerCount k a l.length
            ⟨l ++ [({} : StreamerConfigCell)], I, S, B⟩)))) =
        ⟨l ++ [c5], I ++ [sanitizeInsertAllClientConfig k
          (inp.InsertAllClient.map (fun q => I.getD q {}))], S, B⟩ :=
    ⟨_, rfl, steps_before_clients_last k a l I S B inp hrd hvi⟩
  have hc5S : c5.StorageClient = none := by rw [hc5]
  have hc5B : c5.BatchClient = none := by rw [hc5]
  rw [hsteps, hg5]
  have hps : ∀ c : StreamerConfigCell, c.StorageClient = none →
      ((l ++ [c]).getD a {}).StorageClient = inp.StorageClient := by
    intro c hcn
    rcases hrd with ⟨ha, hinp⟩ | ⟨ha, hinp⟩
    · rw [getD_append_old l c _ a ha, hinp]
    · subst ha hinp
      rw [getD_append_last, hcn]
  have hpb : ∀ c : StreamerConfigCell, c.BatchClient = none →
      ((l ++ [c]).getD a {}).BatchClient = inp.BatchClient := by
    intro c hcn
    rcases hrd with ⟨ha, hinp⟩ | ⟨ha, hinp⟩
    · rw [getD_append_old l c _ a ha, hinp]
    · subst ha hinp
      rw [getD_append_last, hcn]
  obtain ⟨t1, t2, t3⟩ := stepStorageClient_last k a l c5
    (I ++ [sanitizeInsertAllClientConfig k (inp.InsertAllClient.map (fun q => I.getD q {}))])
    S B inp.StorageClient inp.BatchClient
    (hps c5 hc5S) (fun c' hc' => hpb c' (hc'.trans hc5B)) hvs hvb
  have hres := sanitizeStreamerConfig_result k (cfg.map (Heap.resolve ⟨l, I, S, B⟩))
  rw [hval] at hres
  simp only [] at hres
  rcases hres with ⟨e, he, hr⟩ | ⟨hs, e, he, hr⟩ | ⟨hs, hb, out, hr⟩
  · rw [hr, t1 e he]
    exact ⟨rfl, rfl⟩
  · rw [hr, t2 hs e he]
    exact ⟨rfl, rfl⟩
  · rw [hr, t3 hs hb]
    refine ⟨rfl, ?_⟩
    simp only [Option.map_some', Option.some.injEq]
    obtain ⟨f1, f2, f3, f4, f5, f6, f7⟩ := sanitizeStreamerConfig_ok_fields k _ out hr
    rw [hval] at f1 f2 f3 f4 f5 f6 f7
    simp only [] at f1 f2 f3 f4 f5 f6 f7
    subst hc5
    apply StreamerConfig.eq_of_fields
    · rw [f1]
      simp only [Heap.resolve, Heap.getStreamer, getD_append_last]
    · rw [f3]
      simp only [Heap.resolve, Heap.getStreamer, getD_append_last, Option.map_eq_none']
    · rw [f4]
      simp only [Heap.resolve, Heap.getStreamer, getD_append_last]
    · rw [f5]
      simp only [Heap.resolve, Heap.getStreamer, getD_append_last]
    · rw [f2]
      simp only [Heap.resolve, Heap.getStreamer, Heap.getInsertAll, getD_append_last,
        Option.map_some']
    · rw [f6]
      simp only [Heap.resolve, Heap.getStreamer, Heap.getStorage, getD_append_last]
      exact map_getD_append_toList S _ _
    · rw [f7]
      simp only [Heap.resolve, Heap.getStreamer, Heap.getBatch, getD_append_last]
      exact map_getD_append_toList B _ _

/-- The input pointer of the sample heap is valid, so the refinement applies
to it. -/
theorem sampleHeap_valid : sampleHeap.ValidCfg (some 0) := by
  intro a ha
  cases ha
  refine ⟨by decide, fun q hq => ?_, fun q hq => ?_, fun q hq => ?_⟩
  · cases hq
    decide
  · cases hq
    decide
  · cases hq
    decide

/-- On the sample heap the call succeeds and the returned pointer stands for
the config that `sanitizeStreamerConfig` computes from the input. -/
theorem sanitizeStreamerConfigM_refines_sample :
    (sanitizeStreamerConfigM sampleConstants (some 0) sampleHeap).1.1.map
        (sanitizeStreamerConfigM sampleConstants (some 0) sampleHeap).2.resolve =
      some
        { WorkerCount := 1
          WorkerQueueSize := 100
          MaxBatchDelay := 7
          Logger := some (Logger.custom 1)
          InsertAllClient := some
            { FailOnInvalidRows := true, BatchSize := 5,
              MaxRetryDeadlineOffset := 32000000000 }
          StorageClient := some { BigQuerySchema := some ⟨7⟩ }
          BatchClient := some
            { SourceFormat := bigqueryCSV, WriteDisposition := bigqueryWriteAppend } } :=
  ((sanitizeStreamerConfigM_refines sampleConstants (some 0) sampleHeap
    sampleHeap_valid).2).trans (by decide)


/-! ## Retry delay multiplier -/

/-- Claim C27, at an input on which it fails: a config whose storage client has
schema 1 is accepted, and the sanitised storage client is the input one. It has
a schema and a descriptor and nothing else: no retry delay multiplier, and no
default multiplier in the place of one that is at most 1. -/
theorem storage_client_sanitised_without_multiplier :
    sanitizeStreamerConfig sampleConstants
      (some { StorageClient := some { BigQuerySchema := some ⟨1⟩ } }) =
      (some { expectedDefaultStreamerConfig sampleConstants with
                StorageClient := some { BigQuerySchema := some ⟨1⟩ } }, none) ∧
    sanitizeStorageClientConfig (some { BigQuerySchema := some ⟨1⟩ }) =
      (some { BigQuerySchema := some ⟨1⟩ }, none) := by
  decide

/-- A storage config that has a descriptor or a schema is returned by
`sanitizeStorageClientConfig` as it is, so that whatever is read off the config
is the same before and after sanitising. -/
theorem sanitizeStorageClientConfig_returns_input (s : StorageClientConfig)
    (h : ¬ (s.ProtobufDescriptor = none ∧ s.BigQuerySchema = none)) :
    sanitizeStorageClientConfig (some s) = (some s, none) := by
  simp only [sanitizeStorageClientConfig, if_neg h]

/-! ## Queue size with a storage client, sign of the queue size, insert-all bounds -/

/-- Claim C28. On every input config with a queue size of 0 and a non-nil
storage client on which `sanitizeStreamerConfig` succeeds (so that the storage
client is valid), the sanitised queue size is `DefaultWorkerQueueSize`,
whatever the insert-all client, its batch size and the batch client are. -/
theorem sanitizeStreamerConfig_workerQueueSize_storage (k : Constants)
    (c out : StreamerConfig) (s : StorageClientConfig)
    (h : sanitizeStreamerConfig k (some c) = (some out, none))
    (hq : c.WorkerQueueSize = 0) (hs : c.StorageClient = some s) :
    out.WorkerQueueSize = k.DefaultWorkerQueueSize := by
  have hw := (sanitizeStreamerConfig_ok_fields k (some c) out h).2.2.1
  simp only [readCfg] at hw
  rw [hw, if_neg (by omega), if_pos hq, if_neg (by rw [hs]; simp)]

/-- Instance of claim C28: a storage client with a schema, an insert-all batch
size of 7 and a batch client; the queue size is 100, not 4. -/
theorem sanitizeStreamerConfig_workerQueueSize_storage_witness :
    sanitizeStreamerConfig sampleConstants
        (some { StorageClient := some { BigQuerySchema := some ⟨1⟩ },
                InsertAllClient := some { BatchSize := 7 },
                BatchClient := some { BigQuerySchema := some ⟨2⟩ } }) =
      (some { expectedDefaultStreamerConfig sampleConstants with
                StorageClient := some { BigQuerySchema := some ⟨1⟩ },
                InsertAllClient := some { BatchSize := 7,
                                          MaxRetryDeadlineOffset := 32000000000 },
                BatchClient := some { BigQuerySchema := some ⟨2⟩,
                                      SourceFormat := bigqueryJSON,
                                      WriteDisposition := bigqueryWriteAppend } },
        none) ∧
    ({ expectedDefaultStreamerConfig sampleConstants with
        StorageClient := some { BigQuerySchema := some ⟨1⟩ },
        InsertAllClient := some { BatchSize := 7,
                                  MaxRetryDeadlineOffset := 32000000000 },
        BatchClient := some { BigQuerySchema := some ⟨2⟩,
                              SourceFormat := bigqueryJSON,
                              WriteDisposition := bigqueryWriteAppend } }
      : StreamerConfig).WorkerQueueSize = sampleConstants.DefaultWorkerQueueSize :=
  ⟨by decide,
   sanitizeStreamerConfig_workerQueueSize_storage sampleConstants
    { StorageClient := some { BigQuerySchema := some ⟨1⟩ },
      InsertAllClient := some { BatchSize := 7 },
      BatchClient := some { BigQuerySchema := some ⟨2⟩ } }
    _ { BigQuerySchema := some ⟨1⟩ } (by decide) rfl rfl⟩

/-- Sign of the sanitised queue size away from the overflow: when the default
queue size and the default batch size are not negative, every successful run
whose sanitised batch size is below the largest `int` returns a queue size that
is not negative. -/
theorem workerQueueSize_nonneg_below_maxInt (k : Constants)
    (hq : 0 ≤ k.DefaultWorkerQueueSize) (hb : 0 ≤ k.DefaultBatchSize)
    (cfg : Option StreamerConfig) (out : StreamerConfig)
    (h : sanitizeStreamerConfig k cfg = (some out, none))
    (hlt : (sanitizeInsertAllClientConfig k (readCfg cfg {}).InsertAllClient).BatchSize
      < maxInt) :
    0 ≤ out.WorkerQueueSize := by
  have hw := (sanitizeStreamerConfig_ok_fields k cfg out h).2.2.1
  have h0 : 0 ≤ (sanitizeInsertAllClientConfig k
      (readCfg cfg {}).InsertAllClient).BatchSize := by
    rw [sanitizeInsertAllClientConfig_fields]
    dsimp only
    split
    · decide
    · split
      · exact hb
      · omega
  rw [hw]
  split
  · exact le_refl 0
  · split
    · split
      · rw [goDiv_goAdd_one_two _ h0 hlt]
        omega
      · exact hq
    · omega

/-- Claim C29, at the input on which it fails: with an input queue size of 0,
no storage client and an insert-all batch size equal to the largest `int`,
`sanitizeStreamerConfig` succeeds and the sanitised queue size is negative:
`BatchSize + 1` wraps around to the smallest `int`, whose half is
`-4611686018427387904`. -/
theorem workerQueueSize_negative_at_maxInt :
    goAdd 9223372036854775807 1 = minInt ∧
    ∃ out, sanitizeStreamerConfig sampleConstants
        (some { WorkerQueueSize := 0, StorageClient := none,
                InsertAllClient := some { BatchSize := 9223372036854775807 } }) =
          (some out, none) ∧
      out.WorkerQueueSize < 0 :=
  ⟨by decide,
   { WorkerCount := 2, WorkerQueueSize := -4611686018427387904,
     MaxBatchDelay := 5000000000, Logger := some Logger.builtin,
     InsertAllClient := some { BatchSize := 9223372036854775807,
                               MaxRetryDeadlineOffset := 32000000000 } },
   by decide, by decide⟩

/-- Claim C30. When the default batch size is at least 1 and the default retry
deadline offset is not zero, `sanitizeInsertAllClientConfig` returns, for every
input config and for the nil input, a batch size of at least 1 and a retry
deadline offset that is not zero. -/
theorem sanitizeInsertAllClientConfig_configured (k : Constants)
    (hb : 1 ≤ k.DefaultBatchSize) (hd : k.DefaultMaxRetryDeadlineOffset ≠ 0)
    (cfg : Option InsertAllClientConfig) :
    1 ≤ (sanitizeInsertAllClientConfig k cfg).BatchSize ∧
    (sanitizeInsertAllClientConfig k cfg).MaxRetryDeadlineOffset ≠ 0 := by
  rw [sanitizeInsertAllClientConfig_fields]
  constructor
  · dsimp only
    split
    · decide
    · split
      · exact hb
      · omega
  · dsimp only
    split
    · exact hd
    · assumption

/-- Instances of claim C30: the nil input gives the defaults 200 and
32000000000, and a config with batch size -3 and offset 5 gives 1 and 5. -/
theorem sanitizeInsertAllClientConfig_configured_witness :
    ((1 : Int) ≤ sampleConstants.DefaultBatchSize ∧
      sampleConstants.DefaultMaxRetryDeadlineOffset ≠ 0) ∧
    sanitizeInsertAllClientConfig sampleConstants none =
      { BatchSize := 200, MaxRetryDeadlineOffset := 32000000000 } ∧
    sanitizeInsertAllClientConfig sampleConstants
      (some { BatchSize := -3, MaxRetryDeadlineOffset := 5 }) =
      { BatchSize := 1, MaxRetryDeadlineOffset := 5 } ∧
    (1 ≤ (sanitizeInsertAllClientConfig sampleConstants none).BatchSize ∧
      (sanitizeInsertAllClientConfig sampleConstants none).MaxRetryDeadlineOffset ≠ 0) ∧
    (1 ≤ (sanitizeInsertAllClientConfig sampleConstants
        (some { BatchSize := -3, MaxRetryDeadlineOffset := 5 })).BatchSize ∧
      (sanitizeInsertAllClientConfig sampleConstants
        (some { BatchSize := -3, MaxRetryDeadlineOffset := 5 })).MaxRetryDeadlineOffset
        ≠ 0) :=
  ⟨by decide, by decide, by decide,
   sanitizeInsertAllClientConfig_configured sampleConstants (by decide) (by decide) none,
   sanitizeInsertAllClientConfig_configured sampleConstants (by decide) (by decide)
    (some { BatchSize := -3, MaxRetryDeadlineOffset := 5 })⟩
/-! ## The worker loop, whatever the sink does -/

/-- A report to the logger leaves the history of handed batches alone. -/
theorem Shared.report_handed (sh : Shared) (e : Option SinkError) :
    (sh.report e).handed = sh.handed := by
  cases e <;> rfl

/-- A report to the logger appends the error, if there is one. -/
theorem Shared.report_logged (sh : Shared) (e : Option SinkError) :
    (sh.report e).logged = sh.logged ++ e.toList := by
  cases e with
  | none => simp [Shared.report]
  | some err => rfl

/-- A report to the logger leaves the sink alone. -/
theorem Shared.report_client (sh : Shared) (e : Option SinkError) :
    (sh.report e).client = sh.client := by
  cases e <;> rfl

/-- Handing a batch clears it, keeps the rest of the worker, and records the
batch in the history, whatever the sink answers. -/
theorem Worker.handBatch_fields (retries i : Nat) (w : Worker) (sh : Shared) :
    (Worker.handBatch retries i w sh).2.1 = { w with batch := [] } ∧
    (Worker.handBatch retries i w sh).2.2.handed = sh.handed ++ [(i, w.batch)] := by
  unfold Worker.handBatch
  exact ⟨rfl, by rw [Shared.report_handed]⟩

/-- Receiving a record changes the batch of a worker only. -/
theorem Worker.receive_fields (batchSize retries i : Nat) (w : Worker) (sh : Shared)
    (r : Record) :
    (Worker.receive batchSize retries i w sh r).1.queue = w.queue ∧
    (Worker.receive batchSize retries i w sh r).1.stopped = w.stopped ∧
    (Worker.receive batchSize retries i w sh r).1.written = w.written := by
  unfold Worker.receive
  split
  · rw [(Worker.handBatch_fields retries i _ sh).1]
    exact ⟨rfl, rfl, rfl⟩
  · exact ⟨rfl, rfl, rfl⟩

/-- Receiving records one after the other changes the batch of a worker
only. -/
theorem Worker.receive_foldl_fields (batchSize retries i : Nat) (l : List Record) :
    ∀ (w : Worker) (sh : Shared),
    (l.foldl (fun p r => Worker.receive batchSize retries i p.1 p.2 r) (w, sh)).1.queue =
      w.queue ∧
    (l.foldl (fun p r => Worker.receive batchSize retries i p.1 p.2 r) (w, sh)).1.stopped =
      w.stopped ∧
    (l.foldl (fun p r => Worker.receive batchSize retries i p.1 p.2 r) (w, sh)).1.written =
      w.written := by
  induction l with
  | nil => intro w sh; exact ⟨rfl, rfl, rfl⟩
  | cons r rest ih =>
    intro w sh
    obtain ⟨h1, h2, h3⟩ := Worker.receive_fields batchSize retries i w sh r
    obtain ⟨g1, g2, g3⟩ := ih (Worker.receive batchSize retries i w sh r).1
      (Worker.receive batchSize retries i w sh r).2
    exact ⟨g1.trans h1, g2.trans h2, g3.trans h3⟩

/-- The time trigger empties the batch and keeps the rest of the worker. -/
theorem Worker.timedFlush_fields (retries i : Nat) (w : Worker) (sh : Shared) :
    (Worker.timedFlush retries i w sh).1 = { w with batch := [] } := by
  unfold Worker.timedFlush
  by_cases hb : w.batch = []
  · rw [if_pos hb]
    cases w
    simp only at hb
    subst hb
    rfl
  · rw [if_neg hb]
    have h := (Worker.handBatch_fields retries i w sh).1
    generalize Worker.handBatch retries i w sh = p at h
    obtain ⟨⟨fl, e⟩, w1, sh1⟩ := p
    simp only at h
    subst h
    cases fl <;> cases e <;> rfl

/-- Pulling keeps the `Stopped` flag and the history of a worker. -/
theorem Worker.pull_fields (batchSize retries i : Nat) (w : Worker) (sh : Shared) :
    (Worker.pull batchSize retries i w sh).1.stopped = w.stopped ∧
    (Worker.pull batchSize retries i w sh).1.written = w.written := by
  unfold Worker.pull
  cases w.queue with
  | nil => exact ⟨rfl, rfl⟩
  | cons r rest =>
    obtain ⟨_, h2, h3⟩ := Worker.receive_fields batchSize retries i { w with queue := rest } sh r
    exact ⟨h2, h3⟩

/-- Draining leaves a stopped worker with neither queue nor batch, and with the
history it had. -/
theorem Worker.drain_fields (batchSize retries i : Nat) (w : Worker) (sh : Shared) :
    (Worker.drain batchSize retries i w sh).1 =
      { queue := [], batch := [], stopped := true, written := w.written } := by
  unfold Worker.drain
  simp only []
  obtain ⟨h1, _, h3⟩ := Worker.receive_foldl_fields batchSize retries i w.queue
    { w with queue := [] } sh
  generalize (w.queue.foldl (fun p r => Worker.receive batchSize retries i p.1 p.2 r)
    ({ w with queue := [] }, sh)) = p at h1 h3
  rw [Worker.timedFlush_fields]
  simp only at h1 h3
  rw [h1, h3]

/-! ## The engine, whatever the sink does -/

/-- A turn of a worker keeps the lifecycle flag, the configuration, the size of
the pool and the position of the dispatcher. -/
theorem Streamer.onWorker_fields (s : Streamer) (i : Nat)
    (f : Worker → Shared → Worker × Shared) :
    (s.onWorker i f).state = s.state ∧ (s.onWorker i f).batchSize = s.batchSize ∧
    (s.onWorker i f).queueSize = s.queueSize ∧ (s.onWorker i f).retries = s.retries ∧
    (s.onWorker i f).workers.length = s.workers.length ∧
    (s.onWorker i f).next = s.next := by
  unfold Streamer.onWorker
  split
  · exact ⟨rfl, rfl, rfl, rfl, rfl, rfl⟩
  · split
    · exact ⟨rfl, rfl, rfl, rfl, rfl, rfl⟩
    · exact ⟨rfl, rfl, rfl, rfl, List.length_set _ _ _, rfl⟩

/-- A call of `Write` keeps the lifecycle flag, the configuration and the size
of the pool. -/
theorem Streamer.Write_fields (s : Streamer) (record : Option Record) :
    (s.Write record).2.state = s.state ∧ (s.Write record).2.batchSize = s.batchSize ∧
    (s.Write record).2.queueSize = s.queueSize ∧ (s.Write record).2.retries = s.retries ∧
    (s.Write record).2.workers.length = s.workers.length := by
  unfold Streamer.Write
  cases record with
  | none => exact ⟨rfl, rfl, rfl, rfl, rfl⟩
  | some r =>
    simp only []
    split
    · exact ⟨rfl, rfl, rfl, rfl, rfl⟩
    · split
      · exact ⟨rfl, rfl, rfl, rfl, rfl⟩
      · split
        · exact ⟨rfl, rfl, rfl, rfl, rfl⟩
        · split
          · exact ⟨rfl, rfl, rfl, rfl, List.length_set _ _ _⟩
          · split
            · exact ⟨rfl, rfl, rfl, rfl, List.length_set _ _ _⟩
            · exact ⟨rfl, rfl, rfl, rfl, rfl⟩

/-- The first step of `Close` keeps the configuration and the pool. -/
theorem Streamer.closeBegin_fields (s : Streamer) :
    s.closeBegin.batchSize = s.batchSize ∧ s.closeBegin.queueSize = s.queueSize ∧
    s.closeBegin.retries = s.retries ∧ s.closeBegin.workers = s.workers ∧
    s.closeBegin.shared = s.shared := by
  unfold Streamer.closeBegin
  split <;> exact ⟨rfl, rfl, rfl, rfl, rfl⟩

/-- Draining a worker keeps the lifecycle flag, the configuration and the size
of the pool. -/
theorem Streamer.drain_config (s : Streamer) (i : Nat) :
    (s.drain i).state = s.state ∧ (s.drain i).batchSize = s.batchSize ∧
    (s.drain i).queueSize = s.queueSize ∧ (s.drain i).retries = s.retries ∧
    (s.drain i).workers.length = s.workers.length := by
  unfold Streamer.drain
  split
  · obtain ⟨h1, h2, h3, h4, h5, _⟩ := Streamer.onWorker_fields s i
      (Worker.drain s.batchSize s.retries i)
    exact ⟨h1, h2, h3, h4, h5⟩
  · exact ⟨rfl, rfl, rfl, rfl, rfl⟩

/-- The last step of `Close` keeps the configuration and the pool. -/
theorem Streamer.closeEnd_fields (s : Streamer) :
    s.closeEnd.batchSize = s.batchSize ∧ s.closeEnd.queueSize = s.queueSize ∧
    s.closeEnd.retries = s.retries ∧ s.closeEnd.workers = s.workers := by
  unfold Streamer.closeEnd
  split <;> exact ⟨rfl, rfl, rfl, rfl⟩

/-- Every event keeps the configuration and the size of the pool. -/
theorem Streamer.step_fields (s : Streamer) (e : Event) :
    (s.step e).batchSize = s.batchSize ∧ (s.step e).queueSize = s.queueSize ∧
    (s.step e).retries = s.retries ∧ (s.step e).workers.length = s.workers.length := by
  cases e with
  | write record =>
    obtain ⟨_, h2, h3, h4, h5⟩ := Streamer.Write_fields s record
    exact ⟨h2, h3, h4, h5⟩
  | pull i =>
    obtain ⟨_, h2, h3, h4, h5, _⟩ := Streamer.onWorker_fields s i
      (Worker.pull s.batchSize s.retries i)
    exact ⟨h2, h3, h4, h5⟩
  | tick i =>
    obtain ⟨_, h2, h3, h4, h5, _⟩ := Streamer.onWorker_fields s i
      (Worker.timedFlush s.retries i)
    exact ⟨h2, h3, h4, h5⟩
  | closeBegin =>
    obtain ⟨h2, h3, h4, h5, _⟩ := Streamer.closeBegin_fields s
    exact ⟨h2, h3, h4, congrArg List.length h5⟩
  | drain i =>
    obtain ⟨_, h2, h3, h4, h5⟩ := Streamer.drain_config s i
    exact ⟨h2, h3, h4, h5⟩
  | closeEnd =>
    obtain ⟨h2, h3, h4, h5⟩ := Streamer.closeEnd_fields s
    exact ⟨h2, h3, h4, congrArg List.length h5⟩

/-- An engine that is not open stays so, whatever happens. -/
theorem Streamer.step_not_open (s : Streamer) (e : Event)
    (h : s.state ≠ EngineState.Open) : (s.step e).state ≠ EngineState.Open := by
  cases e with
  | write record => rw [show (s.step (Event.write record)).state = s.state from
      (Streamer.Write_fields s record).1]; exact h
  | pull i => rw [show (s.step (Event.pull i)).state = s.state from
      (Streamer.onWorker_fields s i _).1]; exact h
  | tick i => rw [show (s.step (Event.tick i)).state = s.state from
      (Streamer.onWorker_fields s i _).1]; exact h
  | closeBegin =>
    show s.closeBegin.state ≠ _
    unfold Streamer.closeBegin
    rw [if_neg h]
    exact h
  | drain i =>
    show (s.drain i).state ≠ _
    unfold Streamer.drain
    split
    · rw [(Streamer.onWorker_fields s i _).1]; exact h
    · exact h
  | closeEnd =>
    show s.closeEnd.state ≠ _
    unfold Streamer.closeEnd
    split
    · exact fun hc => by cases hc
    · exact h

/-- A run is the run of its first events followed by the run of the others. -/
theorem Streamer.run_append (s : Streamer) (l1 l2 : List Event) :
    s.run (l1 ++ l2) = (s.run l1).run l2 := by
  unfold Streamer.run
  exact List.foldl_append _ _ _ _

/-- What every event preserves holds after every run. -/
theorem Streamer.run_induct (P : Streamer → Prop)
    (hstep : ∀ s e, P s → P (s.step e)) (events : List Event) :
    ∀ s, P s → P (s.run events) := by
  induction events with
  | nil => intro s h; exact h
  | cons e rest ih => intro s h; exact ih (s.step e) (hstep s e h)

/-- An engine that is not open is not open after any run. -/
theorem Streamer.run_not_open (s : Streamer) (events : List Event)
    (h : s.state ≠ EngineState.Open) : (s.run events).state ≠ EngineState.Open :=
  Streamer.run_induct (fun s => s.state ≠ EngineState.Open) Streamer.step_not_open events s h
/-! ## The stub sink without queued errors -/

/-- Without queued errors `Flush` counts one flush and returns no error. -/
theorem stubBQClient.Flush_noErr (c : stubBQClient) (h : c.nextErrors = []) :
    c.Flush = (none, { c with flushCount := c.flushCount + 1 }) := by
  unfold stubBQClient.Flush
  rw [h]

/-- Without queued errors a `Put` of a slice appends its rows, returns no
error, queues no error, and counts one flush exactly when it reports one. -/
theorem stubBQClient.Put_noErr (c : stubBQClient) (rows : List Record)
    (h : c.nextErrors = []) :
    (c.Put (PutData.slice rows)).1.2 = none ∧
    (c.Put (PutData.slice rows)).2.nextErrors = [] ∧
    (c.Put (PutData.slice rows)).2.rows = c.rows ++ rows ∧
    (c.Put (PutData.slice rows)).2.flushCount =
      c.flushCount + (if (c.Put (PutData.slice rows)).1.1 then 1 else 0) := by
  unfold stubBQClient.Put
  rw [h]
  by_cases hf : c.flushNextPut = true
  · simp [hf, stubBQClient.Flush, stubBQClient.signalPut, h]
  · simp [hf, stubBQClient.signalPut, h]

/-- Without queued errors the retry policy makes one attempt of `Put`. -/
theorem putWithRetry_noErr (retries : Nat) (c : stubBQClient) (rows : List Record)
    (h : c.nextErrors = []) :
    putWithRetry retries c (PutData.slice rows) = c.Put (PutData.slice rows) := by
  cases retries with
  | zero => rfl
  | succ n =>
    have hp := (stubBQClient.Put_noErr c rows h).1
    unfold putWithRetry
    generalize c.Put (PutData.slice rows) = p at hp
    obtain ⟨⟨fl, e⟩, c1⟩ := p
    simp only at hp
    subst hp
    rfl

/-- Without queued errors the retry policy makes one attempt of `Flush`. -/
theorem flushWithRetry_noErr (retries : Nat) (c : stubBQClient) (h : c.nextErrors = []) :
    flushWithRetry retries c = (none, { c with flushCount := c.flushCount + 1 }) := by
  cases retries with
  | zero => exact stubBQClient.Flush_noErr c h
  | succ n =>
    unfold flushWithRetry
    rw [stubBQClient.Flush_noErr c h]

/-! ## One worker and the sink, without sink errors -/

/-- The rows sent by worker `j` after one more batch was handed by worker
`i`. -/
theorem Shared.sentBy_handed_append (sh sh' : Shared) (i j : Nat) (b : List Record)
    (h : sh'.handed = sh.handed ++ [(i, b)]) :
    sh'.sentBy j = sh.sentBy j ++ (if i = j then b else []) := by
  unfold Shared.sentBy
  rw [h, List.filter_append, List.map_append, List.flatten_append]
  by_cases hij : i = j
  · simp [hij]
  · simp [hij]

/-- The rows sent after one more batch was handed. -/
theorem Shared.sent_handed_append (sh sh' : Shared) (i : Nat) (b : List Record)
    (h : sh'.handed = sh.handed ++ [(i, b)]) :
    sh'.sent = sh.sent ++ b := by
  unfold Shared.sent
  rw [h, List.map_append, List.flatten_append]
  simp

/-- Flattening keeps the sublist relation. -/
theorem flatten_sublist_flatten {α : Type} {l1 l2 : List (List α)} (h : l1.Sublist l2) :
    l1.flatten.Sublist l2.flatten := by
  induction h with
  | slnil => exact List.Sublist.refl _
  | cons a _ ih =>
    rw [List.flatten_cons]
    exact ih.trans (List.sublist_append_right _ _)
  | cons₂ a _ ih =>
    rw [List.flatten_cons, List.flatten_cons]
    exact List.Sublist.append (List.Sublist.refl _) ih

/-- The rows sent by one worker are among the rows sent, in the same order. -/
theorem Shared.sentBy_sublist_sent (sh : Shared) (i : Nat) :
    (sh.sentBy i).Sublist sh.sent := by
  unfold Shared.sentBy Shared.sent
  exact flatten_sublist_flatten ((List.filter_sublist _).map _)

/-- A report of no error changes nothing. -/
theorem Shared.report_none (sh : Shared) : sh.report none = sh := rfl

/-- Handing a batch to a sink without queued errors: no error comes back, the
batch is cleared, the rows arrive at the sink, nothing is logged, and the
flush counter grows by one exactly when the sink reports a flush. -/
theorem Worker.handBatch_noErr (retries i : Nat) (w : Worker) (sh : Shared)
    (hn : sh.client.nextErrors = []) (hr : sh.client.rows = sh.sent) :
    (Worker.handBatch retries i w sh).1.2 = none ∧
    (Worker.handBatch retries i w sh).2.1 = { w with batch := [] } ∧
    (Worker.handBatch retries i w sh).2.2.client.nextErrors = [] ∧
    (Worker.handBatch retries i w sh).2.2.client.rows =
      (Worker.handBatch retries i w sh).2.2.sent ∧
    (Worker.handBatch retries i w sh).2.2.logged = sh.logged ∧
    (Worker.handBatch retries i w sh).2.2.handed = sh.handed ++ [(i, w.batch)] ∧
    (Worker.handBatch retries i w sh).2.2.client.flushCount =
      sh.client.flushCount + (if (Worker.handBatch retries i w sh).1.1 then 1 else 0) := by
  obtain ⟨h1, h2, h3, h4⟩ := stubBQClient.Put_noErr sh.client w.batch hn
  unfold Worker.handBatch
  simp only [putWithRetry_noErr retries sh.client w.batch hn, h1, Shared.report_none]
  refine ⟨trivial, trivial, h2, ?_, trivial, trivial, h4⟩
  rw [h3, hr]
  exact (Shared.sent_handed_append sh _ i w.batch rfl).symm

/-- An explicit flush of a sink without queued errors counts one flush and
changes nothing else. -/
theorem Shared.explicitFlush_noErr (retries : Nat) (sh : Shared)
    (hn : sh.client.nextErrors = []) :
    sh.explicitFlush retries =
      { sh with client := { sh.client with flushCount := sh.client.flushCount + 1 } } := by
  unfold Shared.explicitFlush
  simp only [flushWithRetry_noErr retries sh.client hn, Shared.report_none]

/-- Nothing happens: progress by no record. -/
theorem Worker.progress_refl (i : Nat) (w : Worker) (sh : Shared)
    (hn : sh.client.nextErrors = []) (hr : sh.client.rows = sh.sent) :
    Worker.Progress i [] w sh w sh :=
  ⟨hn, hr, rfl, by simp, fun _ _ => rfl, rfl, rfl, rfl, le_refl _, fun _ h => Or.inl h⟩

/-- Progress composes, the records that came in being appended. -/
theorem Worker.progress_trans {i : Nat} {a1 a2 : List Record} {w w1 w2 : Worker}
    {sh sh1 sh2 : Shared} (h1 : Worker.Progress i a1 w sh w1 sh1)
    (h2 : Worker.Progress i a2 w1 sh1 w2 sh2) :
    Worker.Progress i (a1 ++ a2) w sh w2 sh2 where
  noErr := h2.noErr
  rows := h2.rows
  logged := h2.logged.trans h1.logged
  sent := by rw [h2.sent, h1.sent, List.append_assoc, List.append_assoc]
  others := fun j hj => (h2.others j hj).trans (h1.others j hj)
  queue := h2.queue.trans h1.queue
  written := h2.written.trans h1.written
  stopped := h2.stopped.trans h1.stopped
  flushes := le_trans h1.flushes h2.flushes
  tags := fun p hp => (h2.tags p hp).elim (fun h => h1.tags p h) Or.inr

/-- Receiving one record, without sink error, is progress by that record. -/
theorem Worker.receive_progress (batchSize retries i : Nat) (w : Worker) (sh : Shared)
    (r : Record) (hn : sh.client.nextErrors = []) (hr : sh.client.rows = sh.sent) :
    Worker.Progress i [r] w sh (Worker.receive batchSize retries i w sh r).1
      (Worker.receive batchSize retries i w sh r).2 := by
  unfold Worker.receive
  split
  · obtain ⟨_, h2, h3, h4, h5, h6, h7⟩ :=
      Worker.handBatch_noErr retries i { w with batch := w.batch ++ [r] } sh hn hr
    refine ⟨h3, h4, h5, ?_, fun j hj => ?_, ?_, ?_, ?_, ?_, fun p hp => ?_⟩
    · rw [Shared.sentBy_handed_append sh _ i i _ h6, h2]
      simp
    · rw [Shared.sentBy_handed_append sh _ i j _ h6, if_neg (Ne.symm hj)]
      simp
    · rw [h2]
    · rw [h2]
    · rw [h2]
    · rw [h7]
      exact Nat.le_add_right _ _
    · rw [h6] at hp
      rcases List.mem_append.mp hp with h | h
      · exact Or.inl h
      · rw [List.mem_singleton.mp h]
        exact Or.inr rfl
  · exact ⟨hn, hr, rfl, by simp, fun _ _ => rfl, rfl, rfl, rfl, le_refl _,
      fun _ h => Or.inl h⟩

/-- Receiving records one after the other, without sink error, is progress by
these records. -/
theorem Worker.receive_foldl_progress (batchSize retries i : Nat) (l : List Record) :
    ∀ (w : Worker) (sh : Shared), sh.client.nextErrors = [] → sh.client.rows = sh.sent →
    Worker.Progress i l w sh
      (l.foldl (fun p r => Worker.receive batchSize retries i p.1 p.2 r) (w, sh)).1
      (l.foldl (fun p r => Worker.receive batchSize retries i p.1 p.2 r) (w, sh)).2 := by
  induction l with
  | nil => intro w sh hn hr; exact Worker.progress_refl i w sh hn hr
  | cons r rest ih =>
    intro w sh hn hr
    have h1 := Worker.receive_progress batchSize retries i w sh r hn hr
    have h2 := ih (Worker.receive batchSize retries i w sh r).1
      (Worker.receive batchSize retries i w sh r).2 h1.noErr h1.rows
    exact Worker.progress_trans h1 h2

/-- The time trigger, without sink error, is progress by no record; it leaves
the batch empty and the sink counts exactly one more flush. -/
theorem Worker.timedFlush_progress (retries i : Nat) (w : Worker) (sh : Shared)
    (hn : sh.client.nextErrors = []) (hr : sh.client.rows = sh.sent) :
    Worker.Progress i [] w sh (Worker.timedFlush retries i w sh).1
      (Worker.timedFlush retries i w sh).2 ∧
    (Worker.timedFlush retries i w sh).1.batch = [] ∧
    (Worker.timedFlush retries i w sh).2.client.flushCount = sh.client.flushCount + 1 := by
  unfold Worker.timedFlush
  by_cases hb : w.batch = []
  · rw [if_pos hb, Shared.explicitFlush_noErr retries sh hn]
    exact ⟨⟨hn, hr, rfl, (List.append_nil _).symm, fun _ _ => rfl, rfl, rfl, rfl,
      Nat.le_add_right _ _, fun _ h => Or.inl h⟩, hb, rfl⟩
  · rw [if_neg hb]
    obtain ⟨h1, h2, h3, h4, h5, h6, h7⟩ := Worker.handBatch_noErr retries i w sh hn hr
    generalize Worker.handBatch retries i w sh = p at h1 h2 h3 h4 h5 h6 h7
    obtain ⟨⟨fl, e⟩, w1, sh1⟩ := p
    simp only at h1 h2 h3 h4 h5 h6 h7
    subst h1 h2
    have hs : sh1.sentBy i = sh.sentBy i ++ w.batch := by
      rw [Shared.sentBy_handed_append sh sh1 i i _ h6, if_pos rfl]
    have ho : ∀ j, j ≠ i → sh1.sentBy j = sh.sentBy j := by
      intro j hj
      rw [Shared.sentBy_handed_append sh sh1 i j _ h6, if_neg (Ne.symm hj)]
      simp
    have ht : ∀ p, p ∈ sh1.handed → p ∈ sh.handed ∨ p.1 = i := by
      intro p hp
      rw [h6] at hp
      rcases List.mem_append.mp hp with h | h
      · exact Or.inl h
      · rw [List.mem_singleton.mp h]
        exact Or.inr rfl
    cases fl with
    | false =>
      simp only [Bool.false_eq_true, if_false, Nat.add_zero] at h7
      show Worker.Progress i [] w sh { w with batch := [] } (sh1.explicitFlush retries) ∧
        ([] : List Record) = [] ∧
        (sh1.explicitFlush retries).client.flushCount = sh.client.flushCount + 1
      rw [Shared.explicitFlush_noErr retries sh1 h3]
      refine ⟨⟨h3, h4, h5, ?_, ho, rfl, rfl, rfl, ?_, ht⟩, rfl, ?_⟩
      · show sh1.sentBy i ++ [] = _
        rw [hs]
      · show sh.client.flushCount ≤ sh1.client.flushCount + 1
        omega
      · show sh1.client.flushCount + 1 = _
        omega
    | true =>
      simp only [if_true] at h7
      show Worker.Progress i [] w sh { w with batch := [] } sh1 ∧
        ([] : List Record) = [] ∧ sh1.client.flushCount = sh.client.flushCount + 1
      refine ⟨⟨h3, h4, h5, ?_, ho, rfl, rfl, rfl, ?_, ht⟩, rfl, h7⟩
      · show sh1.sentBy i ++ [] = _
        rw [hs]
      · omega

/-- Pulling a record, without sink error, is a turn of the worker. -/
theorem Worker.pull_turn (batchSize retries i : Nat) (w : Worker) (sh : Shared)
    (hs : w.stopped = false)
    (hn : sh.client.nextErrors = []) (hr : sh.client.rows = sh.sent) :
    Worker.Turn i w sh (Worker.pull batchSize retries i w sh).1
      (Worker.pull batchSize retries i w sh).2 := by
  unfold Worker.pull
  cases hq : w.queue with
  | nil =>
    refine ⟨hn, hr, rfl, ?_, fun _ _ => rfl, rfl, ?_, fun h => ?_, le_refl _,
      fun _ h => Or.inl h⟩
    · rw [hq]
    · rw [hq]
    · rw [hs] at h
      cases h
  | cons r rest =>
    have h := Worker.receive_progress batchSize retries i { w with queue := rest } sh r hn hr
    refine ⟨h.noErr, h.rows, h.logged, ?_, h.others, h.written, ?_, fun hst => ?_, h.flushes,
      h.tags⟩
    · rw [h.sent, h.queue]
      simp [hq]
    · rw [h.queue]
      simp [hq]
    · rw [h.stopped] at hst
      simp only [hs] at hst
      cases hst

/-- The time trigger, without sink error, is a turn of the worker that counts
one more flush. -/
theorem Worker.timedFlush_turn (retries i : Nat) (w : Worker) (sh : Shared)
    (hs : w.stopped = false)
    (hn : sh.client.nextErrors = []) (hr : sh.client.rows = sh.sent) :
    Worker.Turn i w sh (Worker.timedFlush retries i w sh).1
      (Worker.timedFlush retries i w sh).2 := by
  obtain ⟨h, _, hf⟩ := Worker.timedFlush_progress retries i w sh hn hr
  refine ⟨h.noErr, h.rows, h.logged, ?_, h.others, h.written, ?_, fun hst => ?_, h.flushes,
    h.tags⟩
  · rw [h.sent, h.queue]
    simp
  · rw [h.queue]
  · rw [h.stopped, hs] at hst
    cases hst

/-- Draining, without sink error, is a turn of the worker: it ends stopped,
with neither queue nor batch, its history as before, and the sink has counted
at least one more flush. -/
theorem Worker.drain_turn (batchSize retries i : Nat) (w : Worker) (sh : Shared)
    (hn : sh.client.nextErrors = []) (hr : sh.client.rows = sh.sent) :
    Worker.Turn i w sh (Worker.drain batchSize retries i w sh).1
      (Worker.drain batchSize retries i w sh).2 ∧
    (Worker.drain batchSize retries i w sh).1.stopped = true ∧
    sh.client.flushCount + 1 ≤ (Worker.drain batchSize retries i w sh).2.client.flushCount := by
  have h1 := Worker.receive_foldl_progress batchSize retries i w.queue
    { w with queue := [] } sh hn hr
  unfold Worker.drain
  simp only []
  generalize (w.queue.foldl (fun p r => Worker.receive batchSize retries i p.1 p.2 r)
    ({ w with queue := [] }, sh)) = p at h1
  obtain ⟨h2, hb, hf⟩ := Worker.timedFlush_progress retries i p.1 p.2 h1.noErr h1.rows
  generalize Worker.timedFlush retries i p.1 p.2 = q at h2 hb hf
  have hq : q.1.queue = [] := by rw [h2.queue, h1.queue]
  refine ⟨⟨h2.noErr, h2.rows, h2.logged.trans h1.logged, ?_, ?_, ?_, ?_, fun _ => ⟨hq, hb⟩, ?_,
    fun p hp => (h2.tags p hp).elim (fun h => h1.tags p h) Or.inr⟩, trivial, ?_⟩
  · show q.2.sentBy i ++ q.1.batch ++ q.1.queue = _
    rw [h2.sent, h1.sent, hq]
    simp
  · exact fun j hj => (h2.others j hj).trans (h1.others j hj)
  · exact h2.written.trans h1.written
  · show q.1.queue.length ≤ _
    rw [hq]
    exact Nat.zero_le _
  · exact le_trans h1.flushes h2.flushes
  · have := h1.flushes
    omega

/-! ## The engine without sink errors -/

/-- Without queued errors `Close` of the sink returns no error and changes
nothing. -/
theorem stubBQClient.Close_noErr (c : stubBQClient) (h : c.nextErrors = []) :
    c.Close = (none, c) := by
  unfold stubBQClient.Close
  rw [h]

/-- A sound state stays sound when one worker is replaced and the shared part
changes, provided the new worker accounts for its records and the other
workers sent nothing. -/
theorem Streamer.Sound.update {s s' : Streamer} (hs : s.Sound) (i : Nat) (w w' : Worker)
    (hw : s.workers[i]? = some w) (hws : s'.workers = s.workers.set i w')
    (hst : s'.state = s.state) (hq : s'.queueSize = s.queueSize)
    (hn : s'.shared.client.nextErrors = []) (hr : s'.shared.client.rows = s'.shared.sent)
    (hl : s'.shared.logged = s.shared.logged)
    (hk : s'.shared.sentBy i ++ w'.batch ++ w'.queue = w'.written)
    (ho : ∀ j, j ≠ i → s'.shared.sentBy j = s.shared.sentBy j)
    (hb : w'.queue.length ≤ s.queueSize)
    (hi : w'.stopped = true → w'.queue = [] ∧ w'.batch = [])
    (hrun : s.state = EngineState.Open → w'.stopped = false)
    (hhalt : s.state = EngineState.Closed → w'.stopped = true)
    (ht : ∀ p, p ∈ s'.shared.handed → p ∈ s.shared.handed ∨ p.1 = i) : s'.Sound where
  noErr := hn
  rows := hr
  logged := hl.trans hs.logged
  kept := by
    intro j wj hj
    rw [hws, List.getElem?_set] at hj
    by_cases hij : i = j
    · subst hij
      rw [if_pos rfl] at hj
      split at hj
      · cases hj
        exact hk
      · cases hj
    · rw [if_neg hij] at hj
      rw [ho j (Ne.symm hij)]
      exact hs.kept j wj hj
  bounded := by
    intro x hx
    rw [hws] at hx
    rw [hq]
    rcases List.mem_or_eq_of_mem_set hx with h | h
    · exact hs.bounded x h
    · rw [h]; exact hb
  idle := by
    intro x hx
    rw [hws] at hx
    rcases List.mem_or_eq_of_mem_set hx with h | h
    · exact hs.idle x h
    · rw [h]; exact hi
  running := by
    intro ho x hx
    rw [hst] at ho
    rw [hws] at hx
    rcases List.mem_or_eq_of_mem_set hx with h | h
    · exact hs.running ho x h
    · rw [h]; exact hrun ho
  halted := by
    intro hc x hx
    rw [hst] at hc
    rw [hws] at hx
    rcases List.mem_or_eq_of_mem_set hx with h | h
    · exact hs.halted hc x h
    · rw [h]; exact hhalt hc
  tags := by
    intro p hp
    rw [hws, List.length_set]
    rcases ht p hp with h | h
    · exact hs.tags p h
    · rw [h]
      exact (List.getElem?_eq_some.mp hw).1

/-- A worker found at an index of the pool is a member of the pool. -/
theorem mem_of_getElem?_eq_some {α : Type} {l : List α} {i : Nat} {a : α}
    (h : l[i]? = some a) : a ∈ l :=
  List.mem_iff_getElem?.mpr ⟨i, h⟩

/-- A sound state stays sound by a turn of a worker. -/
theorem Streamer.onWorker_sound (s : Streamer) (i : Nat)
    (f : Worker → Shared → Worker × Shared) (hs : s.Sound)
    (hf : ∀ w sh, w.stopped = false → sh.client.nextErrors = [] → sh.client.rows = sh.sent →
      Worker.Turn i w sh (f w sh).1 (f w sh).2)
    (hrun : s.state = EngineState.Open → ∀ w sh, w.stopped = false →
      (f w sh).1.stopped = false) :
    (s.onWorker i f).Sound := by
  unfold Streamer.onWorker
  split
  · exact hs
  · rename_i w hw
    by_cases hst : w.stopped = true
    · rw [if_pos hst]
      exact hs
    · rw [if_neg hst]
      have hst' : w.stopped = false := by simpa using hst
      have ht := hf w s.shared hst' hs.noErr hs.rows
      have hmem := mem_of_getElem?_eq_some hw
      refine Streamer.Sound.update hs i w (f w s.shared).1 hw rfl rfl rfl ht.noErr ht.rows
        ht.logged ?_ ht.others ?_ ht.idle ?_ ?_ ht.tags
      · show (f w s.shared).2.sentBy i ++ _ ++ _ = _
        rw [ht.kept, ht.written]
        exact hs.kept i w hw
      · exact le_trans ht.bounded (hs.bounded w hmem)
      · exact fun ho => hrun ho w s.shared hst'
      · intro hc
        rw [hs.halted hc w hmem] at hst'
        cases hst'

/-- The state of a new engine with an empty sink that has no error queued is
sound. -/
theorem newStreamer_sound (workerCount queueSize batchSize retries : Nat)
    (client : stubBQClient) (hn : client.nextErrors = []) (hr : client.rows = []) :
    (newStreamer workerCount queueSize batchSize retries client).Sound where
  noErr := hn
  rows := hr
  logged := rfl
  kept := by
    intro i w hw
    have hmem := mem_of_getElem?_eq_some hw
    rw [List.eq_of_mem_replicate hmem]
    rfl
  bounded := by
    intro w hw
    rw [List.eq_of_mem_replicate hw]
    exact Nat.zero_le _
  idle := by
    intro w hw _
    rw [List.eq_of_mem_replicate hw]
    exact ⟨rfl, rfl⟩
  running := by
    intro _ w hw
    rw [List.eq_of_mem_replicate hw]
  halted := by
    intro h
    cases h
  tags := by
    intro p hp
    cases hp

/-- A sound state stays sound by a call of `Write`. -/
theorem Streamer.Write_sound (s : Streamer) (record : Option Record) (hs : s.Sound) :
    (s.Write record).2.Sound := by
  unfold Streamer.Write
  cases record with
  | none => exact hs
  | some r =>
    simp only []
    split
    · exact hs
    · rename_i hopen
      have hopen' : s.state = EngineState.Open := by simpa using hopen
      split
      · exact hs
      · rename_i w hw
        have hmem := mem_of_getElem?_eq_some hw
        split
        · exact hs
        · rename_i hst
          have hst' : w.stopped = false := by simpa using hst
          split
          · rename_i hq0
            have hp := Worker.receive_progress s.batchSize s.retries
              (s.next % s.workers.length) { w with written := w.written ++ [r] } s.shared r
              hs.noErr hs.rows
            have hqe : w.queue = [] := by
              have := hs.bounded w hmem
              rw [hq0] at this
              exact List.length_eq_zero.mp (Nat.le_zero.mp this)
            refine Streamer.Sound.update hs (s.next % s.workers.length) w _ hw rfl rfl rfl
              hp.noErr hp.rows hp.logged ?_ hp.others ?_ ?_ ?_ ?_ hp.tags
            · rw [hp.written, hp.queue, hp.sent]
              show _ ++ w.queue = w.written ++ [r]
              rw [hqe, ← hs.kept _ w hw, hqe]
              simp
            · rw [hp.queue]
              exact hs.bounded w hmem
            · rw [hp.stopped]
              intro h
              rw [hst'] at h
              cases h
            · intro _
              rw [hp.stopped]
              exact hst'
            · intro hc
              rw [hopen'] at hc
              cases hc
          · split
            · rename_i hlt
              refine Streamer.Sound.update hs (s.next % s.workers.length) w _ hw rfl rfl rfl
                hs.noErr hs.rows rfl ?_ (fun _ _ => rfl) ?_ ?_ ?_ ?_ (fun _ h => Or.inl h)
              · show s.shared.sentBy _ ++ w.batch ++ (w.queue ++ [r]) = w.written ++ [r]
                rw [← hs.kept _ w hw]
                simp
              · show (w.queue ++ [r]).length ≤ _
                rw [List.length_append]
                exact hlt
              · intro h
                rw [hst'] at h
                cases h
              · exact fun _ => hst'
              · intro hc
                rw [hopen'] at hc
                cases hc
            · exact hs

/-- A sound state stays sound by every event. -/
theorem Streamer.step_sound (s : Streamer) (e : Event) (hs : s.Sound) :
    (s.step e).Sound := by
  cases e with
  | write record => exact Streamer.Write_sound s record hs
  | pull i =>
    exact Streamer.onWorker_sound s i _ hs
      (fun w sh hst hn hr => Worker.pull_turn s.batchSize s.retries i w sh hst hn hr)
      (fun _ w sh hst => ((Worker.pull_fields s.batchSize s.retries i w sh).1).trans hst)
  | tick i =>
    exact Streamer.onWorker_sound s i _ hs
      (fun w sh hst hn hr => Worker.timedFlush_turn s.retries i w sh hst hn hr)
      (fun _ w sh hst => by rw [Worker.timedFlush_fields]; exact hst)
  | closeBegin =>
    show s.closeBegin.Sound
    unfold Streamer.closeBegin
    split
    · exact ⟨hs.noErr, hs.rows, hs.logged, hs.kept, hs.bounded, hs.idle,
        fun h => (by cases h), fun h => (by cases h), hs.tags⟩
    · exact hs
  | drain i =>
    show (s.drain i).Sound
    unfold Streamer.drain
    split
    · rename_i hc
      exact Streamer.onWorker_sound s i _ hs
        (fun w sh _ hn hr => (Worker.drain_turn s.batchSize s.retries i w sh hn hr).1)
        (fun ho => by rw [hc] at ho; cases ho)
    · exact hs
  | closeEnd =>
    show s.closeEnd.Sound
    unfold Streamer.closeEnd
    split
    · rename_i hc
      rw [stubBQClient.Close_noErr s.shared.client hs.noErr]
      exact ⟨hs.noErr, hs.rows, hs.logged, hs.kept, hs.bounded, hs.idle,
        fun h => (by cases h), fun _ w hw => List.all_eq_true.mp hc.2 w hw, hs.tags⟩
    · exact hs

/-- Every state that a new engine with an empty, error-free sink reaches is
sound. -/
theorem Streamer.run_sound (s : Streamer) (events : List Event) (hs : s.Sound) :
    (s.run events).Sound :=
  Streamer.run_induct Streamer.Sound Streamer.step_sound events s hs

/-! ## No record is lost or duplicated -/

/-- Sum over the first `n` indices of a value placed at index `j` only. -/
theorem sum_range_single (n j c : Nat) :
    ((List.range n).map (fun i => if j = i then c else 0)).sum = if j < n then c else 0 := by
  induction n with
  | zero => simp
  | succ n ih =>
    rw [List.range_succ, List.map_append, List.sum_append, ih]
    simp only [List.map_cons, List.map_nil, List.sum_cons, List.sum_nil, Nat.add_zero]
    by_cases h1 : j < n
    · rw [if_pos h1, if_neg (by omega), if_pos (by omega), Nat.add_zero]
    · rw [if_neg h1]
      by_cases h2 : j = n
      · rw [if_pos h2, if_pos (by omega), Nat.zero_add]
      · rw [if_neg h2, if_neg (by omega)]

/-- Occurrences of a row among tagged batches, counted tag by tag. -/
theorem count_flatten_by_tag (n : Nat) (r : Record) (l : List (Nat × List Record))
    (h : ∀ p, p ∈ l → p.1 < n) :
    ((l.map (fun p => p.2)).flatten).count r =
      ((List.range n).map (fun i =>
        (((l.filter (fun p => p.1 = i)).map (fun p => p.2)).flatten).count r)).sum := by
  induction l with
  | nil => simp
  | cons p rest ih =>
    have hp : p.1 < n := h p (List.mem_cons_self _ _)
    have hrest := ih (fun q hq => h q (List.mem_cons_of_mem _ hq))
    have hterm : ∀ i,
        ((((p :: rest).filter (fun q => q.1 = i)).map (fun q => q.2)).flatten).count r =
          (if p.1 = i then p.2.count r else 0) +
            (((rest.filter (fun q => q.1 = i)).map (fun q => q.2)).flatten).count r := by
      intro i
      by_cases hi : p.1 = i
      · simp [List.filter_cons, hi]
      · simp [List.filter_cons, hi]
    simp only [hterm]
    rw [List.sum_map_add, sum_range_single, if_pos hp, ← hrest]
    simp

/-- Occurrences of a row in the histories of the workers, when every worker
accounts for its records. -/
theorem sum_count_written (r : Record) (S : Nat → List Record) (ws : List Worker) :
    (∀ i w, ws[i]? = some w → S i ++ w.batch ++ w.queue = w.written) →
    (ws.map (fun w => w.written.count r)).sum =
      ((List.range ws.length).map (fun i => (S i).count r)).sum +
        (ws.map (fun w => w.batch.count r + w.queue.count r)).sum := by
  induction ws using List.reverseRecOn with
  | nil => intro _; simp
  | append_singleton ws w ih =>
    intro h
    have h1 := ih (fun i x hx => h i x (by
      rw [List.getElem?_append_left (List.getElem?_eq_some.mp hx).1]
      exact hx))
    have h2 := h ws.length w (by simp)
    rw [List.map_append, List.sum_append, h1, List.length_append, List.length_singleton,
      List.range_succ, List.map_append, List.sum_append, List.map_append, List.sum_append]
    simp only [List.map_cons, List.map_nil, List.sum_cons, List.sum_nil, ← h2,
      List.count_append]
    omega

/-- In a sound state every written record is in exactly one place: each row
occurs in the histories of the workers as often as in the sink, the batches
and the queues together. -/
theorem Streamer.Sound.conservation {s : Streamer} (hs : s.Sound) (r : Record) :
    (s.workers.map (fun w => w.written.count r)).sum =
      s.shared.client.rows.count r +
        (s.workers.map (fun w => w.batch.count r + w.queue.count r)).sum := by
  rw [sum_count_written r s.shared.sentBy s.workers hs.kept, hs.rows]
  congr 1
  exact (count_flatten_by_tag s.workers.length r s.shared.handed hs.tags).symm

/-! ## The shutdown -/

/-- Replacing an element of a list by one with the same image keeps the list of
images. -/
theorem map_set_same {α β : Type} (g : α → β) (l : List α) (i : Nat) (a b : α)
    (h : l[i]? = some a) (hg : g b = g a) : (l.set i b).map g = l.map g := by
  apply List.ext_getElem?
  intro j
  rw [List.getElem?_map, List.getElem?_map, List.getElem?_set]
  by_cases hij : i = j
  · subst hij
    rw [if_pos rfl, if_pos (List.getElem?_eq_some.mp h).1, h]
    simp [hg]
  · rw [if_neg hij]

/-- Draining a worker keeps the histories of all workers. -/
theorem Streamer.drain_written (s : Streamer) (i : Nat) :
    (s.drain i).workers.map (fun w => w.written) = s.workers.map (fun w => w.written) := by
  unfold Streamer.drain
  split
  · unfold Streamer.onWorker
    split
    · rfl
    · rename_i w hw
      split
      · rfl
      · exact map_set_same _ _ _ w _ hw (by rw [Worker.drain_fields])
  · rfl

/-- After worker `i` of a closing engine was drained, it is stopped, and so is
every worker that was stopped before. -/
theorem Streamer.drain_stopped (s : Streamer) (i : Nat) (h : s.state = EngineState.Closing)
    (j : Nat) (w' : Worker) (hj : (s.drain i).workers[j]? = some w') :
    (j = i → w'.stopped = true) ∧
    (∀ w, s.workers[j]? = some w → w.stopped = true → w'.stopped = true) := by
  unfold Streamer.drain at hj
  rw [if_pos h] at hj
  unfold Streamer.onWorker at hj
  split at hj
  · rename_i hnone
    refine ⟨fun hji => ?_, fun w hw hst => ?_⟩
    · subst hji
      rw [hnone] at hj
      cases hj
    · rw [hw] at hj
      cases hj
      exact hst
  · rename_i w hw
    by_cases hst : w.stopped = true
    · rw [if_pos hst] at hj
      refine ⟨fun hji => ?_, fun x hx hxs => ?_⟩
      · subst hji
        rw [hw] at hj
        cases hj
        exact hst
      · rw [hx] at hj
        cases hj
        exact hxs
    · rw [if_neg hst] at hj
      simp only [List.getElem?_set] at hj
      by_cases hij : i = j
      · subst hij
        rw [if_pos rfl, if_pos (List.getElem?_eq_some.mp hw).1] at hj
        cases hj
        rw [Worker.drain_fields]
        exact ⟨fun _ => rfl, fun _ _ _ => rfl⟩
      · rw [if_neg hij] at hj
        refine ⟨fun hji => absurd hji.symm hij, fun x hx hxs => ?_⟩
        rw [hx] at hj
        cases hj
        exact hxs

/-- After the workers of a list were drained one after the other, the engine
is still closing, the pool has its size and histories, and every worker of the
list, and every worker that was stopped before, is stopped. -/
theorem Streamer.drain_foldl (l : List Nat) :
    ∀ s : Streamer, s.state = EngineState.Closing →
    (l.foldl Streamer.drain s).state = EngineState.Closing ∧
    (l.foldl Streamer.drain s).workers.length = s.workers.length ∧
    (l.foldl Streamer.drain s).workers.map (fun w => w.written) =
      s.workers.map (fun w => w.written) ∧
    ∀ j w', (l.foldl Streamer.drain s).workers[j]? = some w' →
      (j ∈ l ∨ ∀ w, s.workers[j]? = some w → w.stopped = true) → w'.stopped = true := by
  induction l with
  | nil =>
    intro s h
    refine ⟨h, rfl, rfl, fun j w' hj hor => ?_⟩
    rcases hor with hm | hs
    · cases hm
    · exact hs w' hj
  | cons i rest ih =>
    intro s h
    obtain ⟨d1, _, _, _, d5⟩ := Streamer.drain_config s i
    obtain ⟨h1, h2, h3, h4⟩ := ih (s.drain i) (d1.trans h)
    refine ⟨h1, h2.trans d5, h3.trans (Streamer.drain_written s i), fun j w' hj hor => ?_⟩
    refine h4 j w' hj ?_
    by_cases hm : j ∈ rest
    · exact Or.inl hm
    · right
      intro x hx
      have hd := Streamer.drain_stopped s i h j x hx
      rcases hor with hc | hs
      · rcases List.mem_cons.mp hc with hji | hr
        · exact hd.1 hji
        · exact absurd hr hm
      · have hlt : j < s.workers.length := by
          rw [← d5]
          exact (List.getElem?_eq_some.mp hx).1
        exact hd.2 s.workers[j] (List.getElem?_eq_getElem hlt) (hs _ (List.getElem?_eq_getElem hlt))

/-- The state in which `Close` calls the sink's close operation: the engine is
closing and every worker is stopped. -/
theorem Streamer.drained (s : Streamer) (h : s.state = EngineState.Open) :
    ((List.range s.workers.length).foldl Streamer.drain s.closeBegin).state =
      EngineState.Closing ∧
    ((List.range s.workers.length).foldl Streamer.drain s.closeBegin).workers.map
      (fun w => w.written) = s.workers.map (fun w => w.written) ∧
    ∀ w, w ∈ ((List.range s.workers.length).foldl Streamer.drain s.closeBegin).workers →
      w.stopped = true := by
  have hb : s.closeBegin = { s with state := EngineState.Closing } := by
    unfold Streamer.closeBegin
    rw [if_pos h]
  obtain ⟨h1, h2, h3, h4⟩ := Streamer.drain_foldl (List.range s.workers.length) s.closeBegin
    (by rw [hb])
  rw [hb] at h1 h2 h3 h4 ⊢
  refine ⟨h1, h3, fun w hw => ?_⟩
  obtain ⟨j, hj⟩ := List.mem_iff_getElem?.mp hw
  refine h4 j w hj (Or.inl ?_)
  rw [List.mem_range, ← h2]
  exact (List.getElem?_eq_some.mp hj).1

/-- On an open engine `Close` always ends with the engine closed, every worker
stopped and the histories as they were; its log is the log at the end of the
draining followed by the error of the sink's close operation, if there is
one. -/
theorem Streamer.Close_closed (s : Streamer) (h : s.state = EngineState.Open) :
    s.Close.state = EngineState.Closed ∧
    (∀ w, w ∈ s.Close.workers → w.stopped = true) ∧
    s.Close.workers.map (fun w => w.written) = s.workers.map (fun w => w.written) ∧
    s.Close.shared.logged =
      ((List.range s.workers.length).foldl Streamer.drain s.closeBegin).shared.logged ++
        ((List.range s.workers.length).foldl Streamer.drain
          s.closeBegin).shared.client.Close.1.toList := by
  obtain ⟨h1, h2, h3⟩ := Streamer.drained s h
  unfold Streamer.Close
  rw [if_pos h]
  generalize (List.range s.workers.length).foldl Streamer.drain s.closeBegin = s1 at h1 h2 h3
  unfold Streamer.closeEnd
  rw [if_pos ⟨h1, List.all_eq_true.mpr h3⟩]
  exact ⟨rfl, h3, h2, by rw [Shared.report_logged]⟩

/-- The engine is not open after `Close`, whatever its state was. -/
theorem Streamer.Close_not_open (s : Streamer) : s.Close.state ≠ EngineState.Open := by
  by_cases h : s.state = EngineState.Open
  · rw [(Streamer.Close_closed s h).1]
    exact fun hc => by cases hc
  · unfold Streamer.Close
    rw [if_neg h]
    exact h

/-- The engine is not open after the first step of `Close`. -/
theorem Streamer.closeBegin_not_open (s : Streamer) :
    s.closeBegin.state ≠ EngineState.Open := by
  unfold Streamer.closeBegin
  split
  · exact fun hc => by cases hc
  · assumption

/-- On an open engine `Close` is a run: the first step, the draining of the
workers in the order of the pool, the last step. -/
theorem Streamer.Close_eq_run (s : Streamer) (h : s.state = EngineState.Open) :
    s.Close = s.run (Event.closeBegin ::
      ((List.range s.workers.length).map Event.drain ++ [Event.closeEnd])) := by
  unfold Streamer.Close Streamer.run
  rw [if_pos h, List.foldl_cons, List.foldl_append, List.foldl_map]
  rfl

/-! ## Batches stay within the batch size -/

/-- An explicit flush leaves the history of handed batches alone. -/
theorem Shared.explicitFlush_handed (retries : Nat) (sh : Shared) :
    (sh.explicitFlush retries).handed = sh.handed := by
  unfold Shared.explicitFlush
  rw [Shared.report_handed]

/-- Handing a batch that has a record and is within the batch size, or is a
single record, keeps the batches within the batch size. -/
theorem Worker.handBatch_fits (batchSize retries i : Nat) (w : Worker) (sh : Shared)
    (h1 : 1 ≤ w.batch.length) (h2 : w.batch.length ≤ batchSize ∨ w.batch.length = 1)
    (hsh : Shared.Fits batchSize sh) :
    Worker.Fits batchSize (Worker.handBatch retries i w sh).2.1 ∧
    Shared.Fits batchSize (Worker.handBatch retries i w sh).2.2 := by
  obtain ⟨g1, g2⟩ := Worker.handBatch_fields retries i w sh
  refine ⟨?_, fun p hp => ?_⟩
  · rw [g1]
    exact Or.inr rfl
  · rw [g2] at hp
    rcases List.mem_append.mp hp with h | h
    · exact hsh p h
    · rw [List.mem_singleton.mp h]
      exact ⟨h1, h2⟩

/-- Receiving a record keeps the batches within the batch size. -/
theorem Worker.receive_fits (batchSize retries i : Nat) (w : Worker) (sh : Shared)
    (r : Record) (hw : Worker.Fits batchSize w) (hsh : Shared.Fits batchSize sh) :
    Worker.Fits batchSize (Worker.receive batchSize retries i w sh r).1 ∧
    Shared.Fits batchSize (Worker.receive batchSize retries i w sh r).2 := by
  unfold Worker.receive
  have hlen : (w.batch ++ [r]).length = w.batch.length + 1 := by simp
  split
  · refine Worker.handBatch_fits batchSize retries i { w with batch := w.batch ++ [r] } sh
      ?_ ?_ hsh
    · show 1 ≤ (w.batch ++ [r]).length
      omega
    · show (w.batch ++ [r]).length ≤ batchSize ∨ (w.batch ++ [r]).length = 1
      rcases hw with h | h
      · left; omega
      · right; rw [h]; rfl
  · rename_i hlt
    refine ⟨Or.inl ?_, hsh⟩
    show (w.batch ++ [r]).length < batchSize
    omega

/-- Receiving records one after the other keeps the batches within the batch
size. -/
theorem Worker.receive_foldl_fits (batchSize retries i : Nat) (l : List Record) :
    ∀ (w : Worker) (sh : Shared), Worker.Fits batchSize w → Shared.Fits batchSize sh →
    Worker.Fits batchSize
      (l.foldl (fun p r => Worker.receive batchSize retries i p.1 p.2 r) (w, sh)).1 ∧
    Shared.Fits batchSize
      (l.foldl (fun p r => Worker.receive batchSize retries i p.1 p.2 r) (w, sh)).2 := by
  induction l with
  | nil => intro w sh hw hsh; exact ⟨hw, hsh⟩
  | cons r rest ih =>
    intro w sh hw hsh
    obtain ⟨h1, h2⟩ := Worker.receive_fits batchSize retries i w sh r hw hsh
    exact ih _ _ h1 h2

/-- The time trigger keeps the batches within the batch size. -/
theorem Worker.timedFlush_fits (batchSize retries i : Nat) (w : Worker) (sh : Shared)
    (hw : Worker.Fits batchSize w) (hsh : Shared.Fits batchSize sh) :
    Worker.Fits batchSize (Worker.timedFlush retries i w sh).1 ∧
    Shared.Fits batchSize (Worker.timedFlush retries i w sh).2 := by
  refine ⟨by rw [Worker.timedFlush_fields]; exact Or.inr rfl, ?_⟩
  unfold Worker.timedFlush
  by_cases hb : w.batch = []
  · rw [if_pos hb]
    intro p hp
    rw [Shared.explicitFlush_handed] at hp
    exact hsh p hp
  · rw [if_neg hb]
    have hpos : 1 ≤ w.batch.length := by
      cases hwb : w.batch with
      | nil => exact absurd hwb hb
      | cons a t => simp
    have hle : w.batch.length ≤ batchSize ∨ w.batch.length = 1 := by
      rcases hw with h | h
      · left; omega
      · exact absurd h hb
    have h := (Worker.handBatch_fits batchSize retries i w sh hpos hle hsh).2
    generalize Worker.handBatch retries i w sh = p at h
    obtain ⟨⟨fl, e⟩, w1, sh1⟩ := p
    have hflush : Shared.Fits batchSize (sh1.explicitFlush retries) := by
      intro p hp
      rw [Shared.explicitFlush_handed] at hp
      exact h p hp
    cases fl <;> cases e
    · exact hflush
    · exact h
    · exact h
    · exact h

/-- Pulling a record keeps the batches within the batch size. -/
theorem Worker.pull_fits (batchSize retries i : Nat) (w : Worker) (sh : Shared)
    (hw : Worker.Fits batchSize w) (hsh : Shared.Fits batchSize sh) :
    Worker.Fits batchSize (Worker.pull batchSize retries i w sh).1 ∧
    Shared.Fits batchSize (Worker.pull batchSize retries i w sh).2 := by
  unfold Worker.pull
  cases w.queue with
  | nil => exact ⟨hw, hsh⟩
  | cons r rest => exact Worker.receive_fits batchSize retries i _ sh r hw hsh

/-- Draining keeps the batches within the batch size. -/
theorem Worker.drain_fits (batchSize retries i : Nat) (w : Worker) (sh : Shared)
    (hw : Worker.Fits batchSize w) (hsh : Shared.Fits batchSize sh) :
    Worker.Fits batchSize (Worker.drain batchSize retries i w sh).1 ∧
    Shared.Fits batchSize (Worker.drain batchSize retries i w sh).2 := by
  refine ⟨by rw [Worker.drain_fields]; exact Or.inr rfl, ?_⟩
  unfold Worker.drain
  simp only []
  obtain ⟨h1, h2⟩ := Worker.receive_foldl_fits batchSize retries i w.queue
    { w with queue := [] } sh hw hsh
  exact (Worker.timedFlush_fits batchSize retries i _ _ h1 h2).2

/-- A turn of a worker keeps the batches of the engine within the batch
size. -/
theorem Streamer.onWorker_fits (s : Streamer) (i : Nat)
    (f : Worker → Shared → Worker × Shared) (hs : s.Fits)
    (hf : ∀ w sh, Worker.Fits s.batchSize w → Shared.Fits s.batchSize sh →
      Worker.Fits s.batchSize (f w sh).1 ∧ Shared.Fits s.batchSize (f w sh).2) :
    (s.onWorker i f).Fits := by
  unfold Streamer.onWorker
  split
  · exact hs
  · rename_i w hw
    split
    · exact hs
    · obtain ⟨h1, h2⟩ := hf w s.shared (hs.workers w (mem_of_getElem?_eq_some hw)) hs.handed
      refine ⟨fun x hx => ?_, h2⟩
      rcases List.mem_or_eq_of_mem_set hx with h | h
      · exact hs.workers x h
      · rw [h]; exact h1

/-- Every event keeps the batches of the engine within the batch size. -/
theorem Streamer.step_fits (s : Streamer) (e : Event) (hs : s.Fits) : (s.step e).Fits := by
  cases e with
  | write record =>
    show (s.Write record).2.Fits
    unfold Streamer.Write
    cases record with
    | none => exact hs
    | some r =>
      simp only []
      split
      · exact hs
      · split
        · exact hs
        · rename_i w hw
          have hmem := mem_of_getElem?_eq_some hw
          split
          · exact hs
          · split
            · obtain ⟨h1, h2⟩ := Worker.receive_fits s.batchSize s.retries
                (s.next % s.workers.length) { w with written := w.written ++ [r] } s.shared r
                (hs.workers w hmem) hs.handed
              refine ⟨fun x hx => ?_, h2⟩
              rcases List.mem_or_eq_of_mem_set hx with h | h
              · exact hs.workers x h
              · rw [h]; exact h1
            · split
              · refine ⟨fun x hx => ?_, hs.handed⟩
                rcases List.mem_or_eq_of_mem_set hx with h | h
                · exact hs.workers x h
                · rw [h]; exact hs.workers w hmem
              · exact hs
  | pull i =>
    exact Streamer.onWorker_fits s i _ hs
      (fun w sh => Worker.pull_fits s.batchSize s.retries i w sh)
  | tick i =>
    exact Streamer.onWorker_fits s i _ hs
      (fun w sh => Worker.timedFlush_fits s.batchSize s.retries i w sh)
  | closeBegin =>
    show s.closeBegin.Fits
    unfold Streamer.closeBegin
    split
    · exact ⟨hs.workers, hs.handed⟩
    · exact hs
  | drain i =>
    show (s.drain i).Fits
    unfold Streamer.drain
    split
    · exact Streamer.onWorker_fits s i _ hs
        (fun w sh => Worker.drain_fits s.batchSize s.retries i w sh)
    · exact hs
  | closeEnd =>
    show s.closeEnd.Fits
    unfold Streamer.closeEnd
    split
    · refine ⟨hs.workers, fun p hp => ?_⟩
      rw [Shared.report_handed] at hp
      exact hs.handed p hp
    · exact hs

/-- The batches of a new engine are within the batch size. -/
theorem newStreamer_fits (workerCount queueSize batchSize retries : Nat)
    (client : stubBQClient) :
    (newStreamer workerCount queueSize batchSize retries client).Fits where
  workers := by
    intro w hw
    rw [List.eq_of_mem_replicate hw]
    exact Or.inr rfl
  handed := by
    intro p hp
    cases hp

/-- After every run from a state whose batches are within the batch size, they
still are, and the batch size is the same. -/
theorem Streamer.run_fits (events : List Event) :
    ∀ s : Streamer, s.Fits → (s.run events).Fits ∧ (s.run events).batchSize = s.batchSize := by
  induction events with
  | nil => intro s hs; exact ⟨hs, rfl⟩
  | cons e rest ih =>
    intro s hs
    obtain ⟨h1, h2⟩ := ih (s.step e) (Streamer.step_fits s e hs)
    exact ⟨h1, h2.trans (Streamer.step_fields s e).1⟩

/-! ## Flushes of the sink -/

/-- Without sink errors a turn of a worker does not lower the flush counter of
the sink. -/
theorem Streamer.onWorker_flushes (s : Streamer) (i : Nat)
    (f : Worker → Shared → Worker × Shared) (hs : s.Sound)
    (hf : ∀ w sh, w.stopped = false → sh.client.nextErrors = [] → sh.client.rows = sh.sent →
      Worker.Turn i w sh (f w sh).1 (f w sh).2) :
    s.shared.client.flushCount ≤ (s.onWorker i f).shared.client.flushCount := by
  unfold Streamer.onWorker
  split
  · exact le_refl _
  · rename_i w hw
    by_cases hst : w.stopped = true
    · rw [if_pos hst]
    · rw [if_neg hst]
      exact (hf w s.shared (by simpa using hst) hs.noErr hs.rows).flushes

/-- Without sink errors no event lowers the flush counter of the sink. -/
theorem Streamer.step_flushes (s : Streamer) (e : Event) (hs : s.Sound) :
    s.shared.client.flushCount ≤ (s.step e).shared.client.flushCount := by
  cases e with
  | write record =>
    show _ ≤ (s.Write record).2.shared.client.flushCount
    unfold Streamer.Write
    cases record with
    | none => exact le_refl _
    | some r =>
      simp only []
      split
      · exact le_refl _
      · split
        · exact le_refl _
        · split
          · exact le_refl _
          · split
            · exact (Worker.receive_progress s.batchSize s.retries _ _ s.shared r
                hs.noErr hs.rows).flushes
            · split <;> exact le_refl _
  | pull i =>
    exact Streamer.onWorker_flushes s i _ hs
      (fun w sh hst hn hr => Worker.pull_turn s.batchSize s.retries i w sh hst hn hr)
  | tick i =>
    exact Streamer.onWorker_flushes s i _ hs
      (fun w sh hst hn hr => Worker.timedFlush_turn s.retries i w sh hst hn hr)
  | closeBegin =>
    rw [show (s.step Event.closeBegin).shared = s.shared from
      (Streamer.closeBegin_fields s).2.2.2.2]
  | drain i =>
    show _ ≤ (s.drain i).shared.client.flushCount
    unfold Streamer.drain
    split
    · exact Streamer.onWorker_flushes s i _ hs
        (fun w sh _ hn hr => (Worker.drain_turn s.batchSize s.retries i w sh hn hr).1)
    · exact le_refl _
  | closeEnd =>
    show _ ≤ s.closeEnd.shared.client.flushCount
    unfold Streamer.closeEnd
    split
    · rw [stubBQClient.Close_noErr s.shared.client hs.noErr]
      exact le_refl _
    · exact le_refl _

/-- Without sink errors no run lowers the flush counter of the sink. -/
theorem Streamer.run_flushes (events : List Event) :
    ∀ s : Streamer, s.Sound →
      s.shared.client.flushCount ≤ (s.run events).shared.client.flushCount := by
  induction events with
  | nil => intro s _; exact le_refl _
  | cons e rest ih =>
    intro s hs
    exact le_trans (Streamer.step_flushes s e hs) (ih (s.step e) (Streamer.step_sound s e hs))

/-- Without sink errors the draining of a worker that was not stopped makes the
sink count at least one more flush. -/
theorem Streamer.drain_flushes (s : Streamer) (i : Nat) (w : Worker) (hs : s.Sound)
    (hc : s.state = EngineState.Closing) (hw : s.workers[i]? = some w)
    (hst : w.stopped = false) :
    s.shared.client.flushCount + 1 ≤ (s.drain i).shared.client.flushCount := by
  unfold Streamer.drain
  rw [if_pos hc]
  unfold Streamer.onWorker
  rw [hw]
  simp only [hst, Bool.false_eq_true, if_false]
  exact (Worker.drain_turn s.batchSize s.retries i w s.shared hs.noErr hs.rows).2.2

/-- Without sink errors `Close` on an open engine with at least one worker
makes the sink count at least one more flush. -/
theorem Streamer.Close_flushes (s : Streamer) (hs : s.Sound)
    (ho : s.state = EngineState.Open) (hne : s.workers ≠ []) :
    s.shared.client.flushCount + 1 ≤ s.Close.shared.client.flushCount := by
  obtain ⟨w0, rest, hw0⟩ : ∃ w0 rest, s.workers = w0 :: rest := by
    cases h : s.workers with
    | nil => exact absurd h hne
    | cons a l => exact ⟨a, l, rfl⟩
  have hk : s.workers.length = rest.length + 1 := by rw [hw0]; rfl
  have hb : s.closeBegin = { s with state := EngineState.Closing } := by
    unfold Streamer.closeBegin
    rw [if_pos ho]
  have h1 : s.closeBegin.Sound := Streamer.step_sound s Event.closeBegin hs
  have hw : s.closeBegin.workers[0]? = some w0 := by
    rw [hb]
    show s.workers[0]? = some w0
    rw [hw0]
    simp
  have hst : w0.stopped = false :=
    hs.running ho w0 (by rw [hw0]; exact List.mem_cons_self _ _)
  have h2 := Streamer.drain_flushes s.closeBegin 0 _ h1 (by rw [hb]) hw hst
  have h3 : (s.closeBegin.drain 0).Sound := Streamer.step_sound s.closeBegin (Event.drain 0) h1
  rw [Streamer.Close_eq_run s ho, hk, List.range_succ_eq_map]
  have h4 := Streamer.run_flushes
    ((List.map Nat.succ (List.range rest.length)).map Event.drain ++ [Event.closeEnd])
    (s.closeBegin.drain 0) h3
  have h5 : s.closeBegin.shared = s.shared := by rw [hb]
  rw [h5] at h2
  exact le_trans h2 h4

/-- On an open engine with one worker that has neither queue nor batch, `Close`
flushes the sink once and closes it, and reports what fails. -/
theorem Streamer.Close_single_idle (s : Streamer) (w : Worker)
    (ho : s.state = EngineState.Open) (hws : s.workers = [w]) (hst : w.stopped = false)
    (hq : w.queue = []) (hb : w.batch = []) :
    s.Close.shared =
      ({ s.shared.explicitFlush s.retries with
          client := (s.shared.explicitFlush s.retries).client.Close.2 } : Shared).report
        (s.shared.explicitFlush s.retries).client.Close.1 := by
  simp [Streamer.Close, Streamer.closeBegin, Streamer.drain, Streamer.onWorker, Worker.drain,
    Worker.timedFlush, Streamer.closeEnd, ho, hws, hst, hq, hb, List.range_succ]

/-! ## Histories and writes -/

/-- A call of `Write` with a record either returns without error and appends
the record to the history of the worker at the round-robin position, and of no
other, or changes nothing. -/
theorem Streamer.Write_written (s : Streamer) (r : Record) :
    ((s.Write (some r)).1 = WriteResult.ok ∧
      ∃ w, s.workers[s.next % s.workers.length]? = some w ∧
        (s.Write (some r)).2.workers.map (fun x => x.written) =
          (s.workers.map (fun x => x.written)).set (s.next % s.workers.length)
            (w.written ++ [r])) ∨
    ((s.Write (some r)).1 ≠ WriteResult.ok ∧ (s.Write (some r)).2 = s) := by
  unfold Streamer.Write
  simp only []
  split
  · exact Or.inr ⟨fun h => (by cases h), rfl⟩
  · split
    · exact Or.inr ⟨fun h => (by cases h), rfl⟩
    · rename_i w hw
      split
      · exact Or.inr ⟨fun h => (by cases h), rfl⟩
      · split
        · refine Or.inl ⟨rfl, w, hw, ?_⟩
          show (s.workers.set _ _).map _ = _
          rw [List.map_set, (Worker.receive_fields _ _ _ _ _ _).2.2]
        · split
          · refine Or.inl ⟨rfl, w, hw, ?_⟩
            show (s.workers.set _ _).map _ = _
            rw [List.map_set]
          · exact Or.inr ⟨fun h => (by cases h), rfl⟩

/-- An event that is not a write keeps the histories of all workers. -/
theorem Streamer.step_written (s : Streamer) (e : Event)
    (he : ∀ record, e ≠ Event.write record) :
    (s.step e).workers.map (fun w => w.written) = s.workers.map (fun w => w.written) := by
  have hon : ∀ (i : Nat) (f : Worker → Shared → Worker × Shared),
      (∀ w sh, (f w sh).1.written = w.written) →
      (s.onWorker i f).workers.map (fun w => w.written) =
        s.workers.map (fun w => w.written) := by
    intro i f hf
    unfold Streamer.onWorker
    split
    · rfl
    · rename_i w hw
      split
      · rfl
      · exact map_set_same _ _ _ w _ hw (hf w s.shared)
  cases e with
  | write record => exact absurd rfl (he record)
  | pull i => exact hon i _ (fun w sh => (Worker.pull_fields _ _ _ w sh).2)
  | tick i => exact hon i _ (fun w sh => by rw [Worker.timedFlush_fields])
  | closeBegin => rw [show (s.step Event.closeBegin).workers = s.workers from
      (Streamer.closeBegin_fields s).2.2.2.1]
  | drain i => exact Streamer.drain_written s i
  | closeEnd => rw [show (s.step Event.closeEnd).workers = s.workers from
      (Streamer.closeEnd_fields s).2.2.2]

/-- A sum of zeros. -/
theorem sum_map_eq_zero {α : Type} (l : List α) (g : α → Nat) (h : ∀ x, x ∈ l → g x = 0) :
    (l.map g).sum = 0 := by
  induction l with
  | nil => rfl
  | cons a rest ih =>
    rw [List.map_cons, List.sum_cons, h a (List.mem_cons_self _ _),
      ih (fun x hx => h x (List.mem_cons_of_mem _ hx))]

/-- In a sound state of a closed engine every worker has sent all its records,
in the order written, and each row occurs in the sink as often as in the
histories of the workers. -/
theorem Streamer.Sound.delivered {s : Streamer} (hs : s.Sound)
    (hc : s.state = EngineState.Closed) :
    (∀ i w, s.workers[i]? = some w →
      w.queue = [] ∧ w.batch = [] ∧ s.shared.sentBy i = w.written) ∧
    ∀ r, s.shared.client.rows.count r = (s.workers.map (fun w => w.written.count r)).sum := by
  have hidle : ∀ w, w ∈ s.workers → w.queue = [] ∧ w.batch = [] :=
    fun w hw => hs.idle w hw (hs.halted hc w hw)
  refine ⟨fun i w hw => ?_, fun r => ?_⟩
  · obtain ⟨hq, hb⟩ := hidle w (mem_of_getElem?_eq_some hw)
    have hk := hs.kept i w hw
    rw [hq, hb] at hk
    exact ⟨hq, hb, by simpa using hk⟩
  · rw [hs.conservation r, sum_map_eq_zero]
    · rfl
    · intro w hw
      obtain ⟨hq, hb⟩ := hidle w hw
      rw [hq, hb]
      rfl

/-! ## Accepted writes -/

/-- The accepted writes of a run that starts with event `e`. -/
theorem Streamer.routed_cons (s : Streamer) (e : Event) (rest : List Event) (i : Nat) :
    s.routed (e :: rest) i =
      ((s.admits e).filter (fun p => p.1 = i)).map (fun p => p.2) ++
        (s.step e).routed rest i := by
  unfold Streamer.routed
  rw [show s.accepted (e :: rest) = s.admits e ++ (s.step e).accepted rest from rfl,
    List.filter_append, List.map_append]

/-- One event extends the history of worker `i` by exactly the record that the
event adds to the accepted writes for that worker, if any. -/
theorem Streamer.step_history (s : Streamer) (e : Event) (i : Nat) :
    ((s.step e).workers[i]?).map (fun w => w.written) =
      (s.workers[i]?).map (fun w =>
        w.written ++ ((s.admits e).filter (fun p => p.1 = i)).map (fun p => p.2)) := by
  have hsame : ∀ e, s.admits e = [] →
      (s.step e).workers.map (fun w => w.written) = s.workers.map (fun w => w.written) →
      ((s.step e).workers[i]?).map (fun w => w.written) =
        (s.workers[i]?).map (fun w =>
          w.written ++ ((s.admits e).filter (fun p => p.1 = i)).map (fun p => p.2)) := by
    intro e ha hw
    rw [ha, ← List.getElem?_map, hw, List.getElem?_map]
    simp
  cases e with
  | write record =>
    cases record with
    | none => exact hsame _ rfl rfl
    | some r =>
      rcases Streamer.Write_written s r with ⟨hok, w, hw, hset⟩ | ⟨hno, hsame'⟩
      · have ha : s.admits (Event.write (some r)) = [(s.next % s.workers.length, r)] := by
          show (if (s.Write (some r)).1 = WriteResult.ok then _ else _) = _
          rw [if_pos hok]
        rw [ha]
        show (((s.Write (some r)).2.workers)[i]?).map (fun w => w.written) = _
        rw [← List.getElem?_map, hset, List.getElem?_set]
        by_cases hij : s.next % s.workers.length = i
        · subst hij
          rw [if_pos rfl, List.length_map, if_pos (List.getElem?_eq_some.mp hw).1, hw]
          simp
        · rw [if_neg hij, List.getElem?_map]
          simp [hij]
      · have ha : s.admits (Event.write (some r)) = [] := by
          show (if (s.Write (some r)).1 = WriteResult.ok then _ else _) = _
          rw [if_neg hno]
        exact hsame _ ha (by
          show ((s.Write (some r)).2.workers).map _ = _
          rw [hsame'])
  | pull j => exact hsame _ rfl (Streamer.step_written s _ (fun _ h => by cases h))
  | tick j => exact hsame _ rfl (Streamer.step_written s _ (fun _ h => by cases h))
  | closeBegin => exact hsame _ rfl (Streamer.step_written s _ (fun _ h => by cases h))
  | drain j => exact hsame _ rfl (Streamer.step_written s _ (fun _ h => by cases h))
  | closeEnd => exact hsame _ rfl (Streamer.step_written s _ (fun _ h => by cases h))

/-- A run extends the history of worker `i` by exactly the records of its
accepted writes that were routed to worker `i`, in the order written. -/
theorem Streamer.run_history (events : List Event) (i : Nat) :
    ∀ s : Streamer, ((s.run events).workers[i]?).map (fun w => w.written) =
      (s.workers[i]?).map (fun w => w.written ++ s.routed events i) := by
  induction events with
  | nil =>
    intro s
    show (s.workers[i]?).map _ = _
    simp [Streamer.routed, Streamer.accepted]
  | cons e rest ih =>
    intro s
    show (((s.step e).run rest).workers[i]?).map _ = _
    rw [ih (s.step e)]
    have h := Streamer.step_history s e i
    cases hs : s.workers[i]? with
    | none =>
      rw [hs] at h
      cases hs' : (s.step e).workers[i]? with
      | none => rfl
      | some w' => rw [hs'] at h; cases h
    | some w =>
      rw [hs] at h
      cases hs' : (s.step e).workers[i]? with
      | none => rw [hs'] at h; cases h
      | some w' =>
        rw [hs'] at h
        simp only [Option.map_some', Option.some.injEq] at h ⊢
        rw [h, Streamer.routed_cons, List.append_assoc]

/-- Every accepted write of a run was routed to a worker of the pool. -/
theorem Streamer.accepted_tags (events : List Event) :
    ∀ s : Streamer, ∀ p, p ∈ s.accepted events → p.1 < s.workers.length := by
  induction events with
  | nil => intro s p hp; cases hp
  | cons e rest ih =>
    intro s p hp
    rcases List.mem_append.mp hp with h | h
    · cases e with
      | write record =>
        cases record with
        | none => cases h
        | some r =>
          have h' : p ∈ (if (s.Write (some r)).1 = WriteResult.ok then
              [(s.next % s.workers.length, r)] else []) := h
          split at h'
          · rename_i hok
            rw [List.mem_singleton.mp h']
            rcases Streamer.Write_written s r with ⟨_, w, hw, _⟩ | ⟨hno, _⟩
            · exact (List.getElem?_eq_some.mp hw).1
            · exact absurd hok hno
          · cases h'
      | pull j => cases h
      | tick j => cases h
      | closeBegin => cases h
      | drain j => cases h
      | closeEnd => cases h
    · rw [← (Streamer.step_fields s e).2.2.2]
      exact ih (s.step e) p h

/-- Occurrences of a record among tagged records, counted tag by tag. -/
theorem count_by_tag (n : Nat) (r : Record) (l : List (Nat × Record))
    (h : ∀ p, p ∈ l → p.1 < n) :
    (l.map (fun p => p.2)).count r =
      ((List.range n).map (fun i =>
        ((l.filter (fun p => p.1 = i)).map (fun p => p.2)).count r)).sum := by
  induction l with
  | nil => simp
  | cons p rest ih =>
    have hp : p.1 < n := h p (List.mem_cons_self _ _)
    have hrest := ih (fun q hq => h q (List.mem_cons_of_mem _ hq))
    have hterm : ∀ i,
        (((p :: rest).filter (fun q => q.1 = i)).map (fun q => q.2)).count r =
          (if p.1 = i then [p.2].count r else 0) +
            ((rest.filter (fun q => q.1 = i)).map (fun q => q.2)).count r := by
      intro i
      by_cases hi : p.1 = i
      · simp [List.filter_cons, hi, List.count_cons, Nat.add_comm]
      · simp [List.filter_cons, hi]
    simp only [hterm]
    rw [List.sum_map_add, sum_range_single, if_pos hp, ← hrest]
    show List.count r ([p.2] ++ rest.map (fun p => p.2)) = _
    rw [List.count_append]

/-- In every state that a new engine reaches, the history of a worker is the
list of the accepted writes routed to it. -/
theorem newStreamer_history (workerCount queueSize batchSize retries : Nat)
    (client : stubBQClient) (events : List Event) (i : Nat) (w : Worker)
    (hw : ((newStreamer workerCount queueSize batchSize retries client).run
      events).workers[i]? = some w) :
    w.written = (newStreamer workerCount queueSize batchSize retries client).routed events i := by
  have h := Streamer.run_history events i
    (newStreamer workerCount queueSize batchSize retries client)
  rw [hw] at h
  cases h0 : (newStreamer workerCount queueSize batchSize retries client).workers[i]? with
  | none => rw [h0] at h; cases h
  | some w0 =>
    rw [h0] at h
    simp only [Option.map_some', Option.some.injEq] at h
    have hw0 : w0 = {} := List.eq_of_mem_replicate (mem_of_getElem?_eq_some h0)
    rw [h, hw0]
    rfl

/-- In every state that a new engine reaches, each record occurs in the
histories of the workers as often as among the accepted writes. -/
theorem newStreamer_count_written (workerCount queueSize batchSize retries : Nat)
    (client : stubBQClient) (events : List Event) (r : Record) :
    (((newStreamer workerCount queueSize batchSize retries client).run events).workers.map
      (fun w => w.written.count r)).sum =
    (((newStreamer workerCount queueSize batchSize retries client).accepted events).map
      (fun p => p.2)).count r := by
  have hlen : ∀ (events : List Event) (s : Streamer),
      (s.run events).workers.length = s.workers.length := by
    intro events
    induction events with
    | nil => intro s; rfl
    | cons e rest ih =>
      intro s
      exact (ih (s.step e)).trans (Streamer.step_fields s e).2.2.2
  have hn := hlen events (newStreamer workerCount queueSize batchSize retries client)
  rw [count_by_tag _ r _ (Streamer.accepted_tags events
    (newStreamer workerCount queueSize batchSize retries client)), ← hn]
  congr 1
  apply List.ext_getElem?
  intro i
  rw [List.getElem?_map, List.getElem?_map]
  cases hw : ((newStreamer workerCount queueSize batchSize retries client).run
      events).workers[i]? with
  | none =>
    have : ¬ i < ((newStreamer workerCount queueSize batchSize retries client).run
        events).workers.length := by
      intro hlt
      rw [List.getElem?_eq_getElem hlt] at hw
      cases hw
    rw [List.getElem?_eq_none (by simpa using this)]
    rfl
  | some w =>
    have hlt := (List.getElem?_eq_some.mp hw).1
    rw [List.getElem?_range hlt]
    simp only [Option.map_some']
    rw [newStreamer_history workerCount queueSize batchSize retries client events i w hw]
    rfl

/-! ## What the retry policy surfaces is logged -/

/-- No error, nothing surfaced. -/
theorem surfacedFrom_nil (retries left : Nat) : surfacedFrom retries left [] = [] := by
  cases left <;> rfl

/-- Fewer errors than retries are left: nothing is surfaced. -/
theorem surfacedFrom_short (retries : Nat) (l : List SinkError) :
    ∀ left, l.length ≤ left → surfacedFrom retries left l = [] := by
  induction l with
  | nil => intro left _; cases left <;> rfl
  | cons e rest ih =>
    intro left h
    cases left with
    | zero => simp at h
    | succ j => exact ih j (by simpa using h)

/-- After a whole attempt sequence the retry budget starts again. -/
theorem surfacedFrom_chunk (retries : Nat) (more : List SinkError) :
    ∀ left (c : List SinkError), c.length = left + 1 →
      surfacedFrom retries left (c ++ more) =
        surfacedFrom retries left c ++ surfacedFrom retries retries more := by
  intro left
  induction left with
  | zero =>
    intro c h
    cases c with
    | nil => simp at h
    | cons e rest =>
      have hr : rest = [] := List.length_eq_zero.mp (by simpa using h)
      subst hr
      rw [show surfacedFrom retries 0 ([e] ++ more) = e :: surfacedFrom retries retries more
          from rfl,
        show surfacedFrom retries 0 [e] = e :: surfacedFrom retries retries [] from rfl,
        surfacedFrom_nil]
      rfl
  | succ j ih =>
    intro c h
    cases c with
    | nil => simp at h
    | cons e rest => exact ih rest (by simpa using h)

/-- Without retries every error is surfaced. -/
theorem surfaced_zero (l : List SinkError) : surfaced 0 l = l := by
  unfold surfaced
  induction l with
  | nil => rfl
  | cons e rest ih =>
    show e :: surfacedFrom 0 0 rest = e :: rest
    rw [ih]

/-- Method `Close` of the stub returns the head of the queue of errors, if
any, and keeps the rest. -/
theorem stubBQClient.Close_pops (c : stubBQClient) :
    c.Close.1.toList ++ c.Close.2.nextErrors = c.nextErrors := by
  unfold stubBQClient.Close
  cases h : c.nextErrors <;> simp [h]

/-- Method `Flush` of the stub with an error queued returns it and drops it. -/
theorem stubBQClient.Flush_err (c : stubBQClient) (e : SinkError) (rest : List SinkError)
    (h : c.nextErrors = e :: rest) : c.Flush = (some e, { c with nextErrors := rest }) := by
  unfold stubBQClient.Flush
  rw [h]

/-- The retry policy around `Flush`: the errors consumed from the queue of the
sink, and what is surfaced after `left` retries. -/
theorem flushWithRetry_consumes (retries : Nat) :
    ∀ (left : Nat) (c : stubBQClient),
    ∃ consumed, c.nextErrors = consumed ++ (flushWithRetry left c).2.nextErrors ∧
      (flushWithRetry left c).1.toList = surfacedFrom retries left consumed ∧
      (consumed.length = left + 1 ∨
        ((flushWithRetry left c).2.nextErrors = [] ∧ consumed.length ≤ left)) := by
  intro left
  induction left with
  | zero =>
    intro c
    show ∃ consumed, c.nextErrors = consumed ++ c.Flush.2.nextErrors ∧
      c.Flush.1.toList = surfacedFrom retries 0 consumed ∧
      (consumed.length = 0 + 1 ∨ (c.Flush.2.nextErrors = [] ∧ consumed.length ≤ 0))
    cases h : c.nextErrors with
    | nil =>
      rw [stubBQClient.Flush_noErr c h]
      exact ⟨[], h.symm, (surfacedFrom_nil retries 0).symm, Or.inr ⟨h, le_refl _⟩⟩
    | cons e rest =>
      rw [stubBQClient.Flush_err c e rest h]
      exact ⟨[e], rfl, by rw [show surfacedFrom retries 0 [e] =
        e :: surfacedFrom retries retries [] from rfl, surfacedFrom_nil]; rfl, Or.inl rfl⟩
  | succ j ih =>
    intro c
    unfold flushWithRetry
    cases h : c.nextErrors with
    | nil =>
      have hf : c.Flush = (none, { c with flushCount := c.flushCount + 1 }) :=
        stubBQClient.Flush_noErr c h
      rw [hf]
      exact ⟨[], h.symm, (surfacedFrom_nil retries (j + 1)).symm, Or.inr ⟨h, Nat.zero_le _⟩⟩
    | cons e rest =>
      have hf : c.Flush = (some e, { c with nextErrors := rest }) :=
        stubBQClient.Flush_err c e rest h
      rw [hf]
      obtain ⟨consumed, h1, h2, h3⟩ := ih { c with nextErrors := rest }
      refine ⟨e :: consumed, ?_, h2, ?_⟩
      · show e :: rest = e :: (consumed ++ _)
        rw [← h1]
      · rcases h3 with h3 | ⟨h3, h4⟩
        · exact Or.inl (by simp [h3])
        · exact Or.inr ⟨h3, by simpa using h4⟩

/-- Method `Put` of the stub with an error queued returns it and drops it. -/
theorem stubBQClient.Put_err (c : stubBQClient) (data : PutData) (e : SinkError)
    (rest : List SinkError) (h : c.nextErrors = e :: rest) :
    (c.Put data).1 = (false, some e) ∧ (c.Put data).2.nextErrors = rest := by
  unfold stubBQClient.Put
  rw [h]
  exact ⟨rfl, rfl⟩

/-- The retry policy around `Put` of a batch: the errors consumed from the
queue of the sink, and what is surfaced after `left` retries. -/
theorem putWithRetry_consumes (retries : Nat) (rows : List Record) :
    ∀ (left : Nat) (c : stubBQClient),
    ∃ consumed,
      c.nextErrors = consumed ++ (putWithRetry left c (PutData.slice rows)).2.nextErrors ∧
      (putWithRetry left c (PutData.slice rows)).1.2.toList =
        surfacedFrom retries left consumed ∧
      (consumed.length = left + 1 ∨
        ((putWithRetry left c (PutData.slice rows)).2.nextErrors = [] ∧
          consumed.length ≤ left)) := by
  intro left
  induction left with
  | zero =>
    intro c
    show ∃ consumed, c.nextErrors = consumed ++ (c.Put (PutData.slice rows)).2.nextErrors ∧
      (c.Put (PutData.slice rows)).1.2.toList = surfacedFrom retries 0 consumed ∧
      (consumed.length = 0 + 1 ∨
        ((c.Put (PutData.slice rows)).2.nextErrors = [] ∧ consumed.length ≤ 0))
    cases h : c.nextErrors with
    | nil =>
      obtain ⟨h1, h2, _, _⟩ := stubBQClient.Put_noErr c rows h
      exact ⟨[], by rw [h2]; rfl, by rw [h1, surfacedFrom_nil]; rfl, Or.inr ⟨h2, le_refl _⟩⟩
    | cons e rest =>
      obtain ⟨h1, h2⟩ := stubBQClient.Put_err c (PutData.slice rows) e rest h
      exact ⟨[e], by rw [h2]; rfl, by rw [h1, show surfacedFrom retries 0 [e] =
        e :: surfacedFrom retries retries [] from rfl, surfacedFrom_nil]; rfl, Or.inl rfl⟩
  | succ j ih =>
    intro c
    unfold putWithRetry
    cases h : c.nextErrors with
    | nil =>
      obtain ⟨h1, h2, _, _⟩ := stubBQClient.Put_noErr c rows h
      generalize c.Put (PutData.slice rows) = p at h1 h2
      obtain ⟨⟨fl, err⟩, c1⟩ := p
      simp only at h1 h2
      subst h1
      exact ⟨[], by rw [h2]; rfl, (surfacedFrom_nil retries (j + 1)).symm,
        Or.inr ⟨h2, Nat.zero_le _⟩⟩
    | cons e rest =>
      obtain ⟨h1, h2⟩ := stubBQClient.Put_err c (PutData.slice rows) e rest h
      generalize c.Put (PutData.slice rows) = p at h1 h2
      obtain ⟨⟨fl, err⟩, c1⟩ := p
      simp only [Prod.mk.injEq] at h1 h2
      obtain ⟨hfl, herr⟩ := h1
      subst hfl herr
      obtain ⟨consumed, g1, g2, g3⟩ := ih c1
      refine ⟨e :: consumed, ?_, g2, ?_⟩
      · show e :: rest = e :: (consumed ++ _)
        rw [← h2, ← g1]
      · rcases g3 with g3 | ⟨g3, g4⟩
        · exact Or.inl (by simp [g3])
        · exact Or.inr ⟨g3, by simpa using g4⟩

/-- From the errors consumed by one sink call under the retry policy to the
relation between the states before and after: what the call surfaces is what
`report` appends to the log. -/
theorem Shared.logs_of_consumes (retries : Nat) (sh sh' : Shared) (res : Option SinkError)
    (hl : sh'.logged = sh.logged ++ res.toList)
    (h : ∃ consumed, sh.client.nextErrors = consumed ++ sh'.client.nextErrors ∧
      res.toList = surfacedFrom retries retries consumed ∧
      (consumed.length = retries + 1 ∨
        (sh'.client.nextErrors = [] ∧ consumed.length ≤ retries))) :
    Shared.Logs retries sh sh' := by
  obtain ⟨consumed, h1, h2, h3⟩ := h
  refine ⟨consumed, h1, by rw [hl, h2]; rfl, ?_⟩
  rcases h3 with h3 | ⟨h3, _⟩
  · exact Or.inl (fun more => surfacedFrom_chunk retries more retries consumed h3)
  · exact Or.inr h3

/-- Nothing happens: nothing is consumed and nothing logged. -/
theorem Shared.logs_refl (retries : Nat) (sh : Shared) : Shared.Logs retries sh sh :=
  ⟨[], rfl, by simp [surfaced, surfacedFrom_nil], Or.inl (fun more => by
    simp [surfaced, surfacedFrom_nil])⟩

/-- The relation composes: the errors consumed are appended. -/
theorem Shared.logs_trans {retries : Nat} {sh sh1 sh2 : Shared}
    (h1 : Shared.Logs retries sh sh1) (h2 : Shared.Logs retries sh1 sh2) :
    Shared.Logs retries sh sh2 := by
  obtain ⟨c1, a1, a2, a3⟩ := h1
  obtain ⟨c2, b1, b2, b3⟩ := h2
  rcases a3 with a3 | a3
  · refine ⟨c1 ++ c2, by rw [a1, b1, List.append_assoc], ?_, ?_⟩
    · rw [b2, a2, a3 c2, List.append_assoc]
    · rcases b3 with b3 | b3
      · left
        intro more
        rw [List.append_assoc, a3 (c2 ++ more), b3 more, a3 c2, List.append_assoc]
      · exact Or.inr b3
  · have hc2 : c2 = [] := by
      rw [a3] at b1
      exact (List.append_eq_nil.mp b1.symm).1
    have hn2 : sh2.client.nextErrors = [] := by
      rw [a3] at b1
      exact (List.append_eq_nil.mp b1.symm).2
    subst hc2
    refine ⟨c1, by rw [a1, a3, hn2], ?_, Or.inr hn2⟩
    rw [b2, a2]
    simp [surfaced, surfacedFrom_nil]

/-- An explicit flush logs what the retry policy surfaces. -/
theorem Shared.explicitFlush_logs (retries : Nat) (sh : Shared) :
    Shared.Logs retries sh (sh.explicitFlush retries) := by
  apply Shared.logs_of_consumes retries sh _ (flushWithRetry retries sh.client).1
  · unfold Shared.explicitFlush
    rw [Shared.report_logged]
  · have h := flushWithRetry_consumes retries retries sh.client
    unfold Shared.explicitFlush
    simp only [Shared.report_client]
    exact h

/-- Handing a batch to the sink logs what the retry policy surfaces. -/
theorem Worker.handBatch_logs (retries i : Nat) (w : Worker) (sh : Shared) :
    Shared.Logs retries sh (Worker.handBatch retries i w sh).2.2 := by
  apply Shared.logs_of_consumes retries sh _
    (putWithRetry retries sh.client (PutData.slice w.batch)).1.2
  · unfold Worker.handBatch
    rw [Shared.report_logged]
  · have h := putWithRetry_consumes retries w.batch retries sh.client
    unfold Worker.handBatch
    simp only [Shared.report_client]
    exact h

/-- Receiving a record logs what the retry policy surfaces. -/
theorem Worker.receive_logs (batchSize retries i : Nat) (w : Worker) (sh : Shared)
    (r : Record) :
    Shared.Logs retries sh (Worker.receive batchSize retries i w sh r).2 := by
  unfold Worker.receive
  split
  · exact Worker.handBatch_logs retries i _ sh
  · exact Shared.logs_refl retries sh

/-- Receiving records one after the other logs what the retry policy
surfaces. -/
theorem Worker.receive_foldl_logs (batchSize retries i : Nat) (l : List Record) :
    ∀ (w : Worker) (sh : Shared), Shared.Logs retries sh
      (l.foldl (fun p r => Worker.receive batchSize retries i p.1 p.2 r) (w, sh)).2 := by
  induction l with
  | nil => intro w sh; exact Shared.logs_refl retries sh
  | cons r rest ih =>
    intro w sh
    exact Shared.logs_trans (Worker.receive_logs batchSize retries i w sh r) (ih _ _)

/-- The time trigger, and the final flush of a draining worker, log what the
retry policy surfaces: the error of the put of the batch and the error of the
explicit flush. -/
theorem Worker.timedFlush_logs (retries i : Nat) (w : Worker) (sh : Shared) :
    Shared.Logs retries sh (Worker.timedFlush retries i w sh).2 := by
  unfold Worker.timedFlush
  by_cases hb : w.batch = []
  · rw [if_pos hb]
    exact Shared.explicitFlush_logs retries sh
  · rw [if_neg hb]
    have h := Worker.handBatch_logs retries i w sh
    generalize Worker.handBatch retries i w sh = p at h
    obtain ⟨⟨fl, e⟩, w1, sh1⟩ := p
    cases fl <;> cases e
    · exact Shared.logs_trans h (Shared.explicitFlush_logs retries sh1)
    · exact h
    · exact h
    · exact h

/-- Draining a worker logs what the retry policy surfaces. -/
theorem Worker.drain_logs (batchSize retries i : Nat) (w : Worker) (sh : Shared) :
    Shared.Logs retries sh (Worker.drain batchSize retries i w sh).2 := by
  unfold Worker.drain
  simp only []
  exact Shared.logs_trans
    (Worker.receive_foldl_logs batchSize retries i w.queue { w with queue := [] } sh)
    (Worker.timedFlush_logs retries i _ _)

/-- The draining of a worker of the engine logs what the retry policy
surfaces. -/
theorem Streamer.drain_worker_logs (s : Streamer) (i : Nat) :
    Shared.Logs s.retries s.shared (s.drain i).shared := by
  unfold Streamer.drain
  split
  · unfold Streamer.onWorker
    split
    · exact Shared.logs_refl _ _
    · split
      · exact Shared.logs_refl _ _
      · exact Worker.drain_logs s.batchSize s.retries i _ s.shared
  · exact Shared.logs_refl _ _

/-- The draining of the workers of a list, one after the other, logs what the
retry policy surfaces. -/
theorem Streamer.drain_foldl_logs (l : List Nat) :
    ∀ s : Streamer, Shared.Logs s.retries s.shared (l.foldl Streamer.drain s).shared := by
  induction l with
  | nil => intro s; exact Shared.logs_refl _ _
  | cons i rest ih =>
    intro s
    have h2 := ih (s.drain i)
    rw [(Streamer.drain_config s i).2.2.2.1] at h2
    exact Shared.logs_trans (Streamer.drain_worker_logs s i) h2

/-- On an open engine, the shared part after `Close` is the shared part at the
end of the draining with the sink closed and the error of its `Close`
reported. -/
theorem Streamer.Close_shared (s : Streamer) (h : s.state = EngineState.Open) :
    s.Close.shared =
      ({ ((List.range s.workers.length).foldl Streamer.drain s.closeBegin).shared with
          client := ((List.range s.workers.length).foldl Streamer.drain
            s.closeBegin).shared.client.Close.2 } : Shared).report
        ((List.range s.workers.length).foldl Streamer.drain
          s.closeBegin).shared.client.Close.1 := by
  obtain ⟨h1, _, h3⟩ := Streamer.drained s h
  unfold Streamer.Close
  rw [if_pos h]
  generalize (List.range s.workers.length).foldl Streamer.drain s.closeBegin = s1 at h1 h3
  unfold Streamer.closeEnd
  rw [if_pos ⟨h1, List.all_eq_true.mpr h3⟩]

/-! ## A sink without put-signal channel

The deferred send of `Put` happens only when `putSignal` is not `nil`. While it
is `nil` no send is attempted, so that no call of the sink can wait on the
channel. -/

/-- Method `Flush` of the stub leaves the put-signal channel alone. -/
theorem stubBQClient.Flush_putSignal (c : stubBQClient) :
    c.Flush.2.putSignal = c.putSignal := by
  unfold stubBQClient.Flush
  cases c.nextErrors <;> rfl

/-- Method `Close` of the stub leaves the put-signal channel alone. -/
theorem stubBQClient.Close_putSignal (c : stubBQClient) :
    c.Close.2.putSignal = c.putSignal := by
  unfold stubBQClient.Close
  cases c.nextErrors <;> rfl

/-- Method `Put` of a stub without put-signal channel sends no signal. -/
theorem stubBQClient.Put_unsubscribed (c : stubBQClient) (data : PutData)
    (h : c.putSignal = none) : (c.Put data).2.putSignal = none := by
  unfold stubBQClient.Put
  cases hE : c.nextErrors with
  | cons e rest => simp [stubBQClient.signalPut, h]
  | nil =>
    cases data <;> by_cases hf : c.flushNextPut = true <;>
      simp [stubBQClient.signalPut, stubBQClient.Flush, h, hf, hE]

/-- The retry policy around `Put` on a stub without put-signal channel sends no
signal. -/
theorem putWithRetry_unsubscribed (data : PutData) :
    ∀ (left : Nat) (c : stubBQClient), c.putSignal = none →
      (putWithRetry left c data).2.putSignal = none := by
  intro left
  induction left with
  | zero => intro c h; exact stubBQClient.Put_unsubscribed c data h
  | succ j ih =>
    intro c h
    have hp := stubBQClient.Put_unsubscribed c data h
    unfold putWithRetry
    generalize c.Put data = p at hp
    obtain ⟨⟨fl, e⟩, c1⟩ := p
    cases e with
    | none => exact hp
    | some err => exact ih c1 hp

/-- The retry policy around `Flush` leaves the put-signal channel alone. -/
theorem flushWithRetry_unsubscribed :
    ∀ (left : Nat) (c : stubBQClient), c.putSignal = none →
      (flushWithRetry left c).2.putSignal = none := by
  intro left
  induction left with
  | zero => intro c h; exact (stubBQClient.Flush_putSignal c).trans h
  | succ j ih =>
    intro c h
    have hp := (stubBQClient.Flush_putSignal c).trans h
    unfold flushWithRetry
    generalize c.Flush = p at hp
    obtain ⟨e, c1⟩ := p
    cases e with
    | none => exact hp
    | some err => exact ih c1 hp

/-- Handing a batch to a sink without put-signal channel sends no signal. -/
theorem Worker.handBatch_unsubscribed (retries i : Nat) (w : Worker) (sh : Shared)
    (h : sh.client.putSignal = none) :
    (Worker.handBatch retries i w sh).2.2.client.putSignal = none := by
  unfold Worker.handBatch
  rw [Shared.report_client]
  exact putWithRetry_unsubscribed _ retries sh.client h

/-- An explicit flush leaves a sink without put-signal channel without one. -/
theorem Shared.explicitFlush_unsubscribed (retries : Nat) (sh : Shared)
    (h : sh.client.putSignal = none) :
    (sh.explicitFlush retries).client.putSignal = none := by
  unfold Shared.explicitFlush
  rw [Shared.report_client]
  exact flushWithRetry_unsubscribed retries sh.client h

/-- Receiving a record sends no signal to a sink without put-signal channel. -/
theorem Worker.receive_unsubscribed (batchSize retries i : Nat) (w : Worker) (sh : Shared)
    (r : Record) (h : sh.client.putSignal = none) :
    (Worker.receive batchSize retries i w sh r).2.client.putSignal = none := by
  unfold Worker.receive
  split
  · exact Worker.handBatch_unsubscribed retries i _ sh h
  · exact h

/-- Receiving records one after the other sends no signal to a sink without
put-signal channel. -/
theorem Worker.receive_foldl_unsubscribed (batchSize retries i : Nat) (l : List Record) :
    ∀ (w : Worker) (sh : Shared), sh.client.putSignal = none →
      (l.foldl (fun p r => Worker.receive batchSize retries i p.1 p.2 r)
        (w, sh)).2.client.putSignal = none := by
  induction l with
  | nil => intro w sh h; exact h
  | cons r rest ih =>
    intro w sh h
    exact ih _ _ (Worker.receive_unsubscribed batchSize retries i w sh r h)

/-- The time trigger sends no signal to a sink without put-signal channel. -/
theorem Worker.timedFlush_unsubscribed (retries i : Nat) (w : Worker) (sh : Shared)
    (h : sh.client.putSignal = none) :
    (Worker.timedFlush retries i w sh).2.client.putSignal = none := by
  unfold Worker.timedFlush
  by_cases hb : w.batch = []
  · rw [if_pos hb]
    exact Shared.explicitFlush_unsubscribed retries sh h
  · rw [if_neg hb]
    have hp := Worker.handBatch_unsubscribed retries i w sh h
    generalize Worker.handBatch retries i w sh = p at hp
    obtain ⟨⟨fl, e⟩, w1, sh1⟩ := p
    cases fl <;> cases e
    · exact Shared.explicitFlush_unsubscribed retries sh1 hp
    · exact hp
    · exact hp
    · exact hp

/-- Pulling a record sends no signal to a sink without put-signal channel. -/
theorem Worker.pull_unsubscribed (batchSize retries i : Nat) (w : Worker) (sh : Shared)
    (h : sh.client.putSignal = none) :
    (Worker.pull batchSize retries i w sh).2.client.putSignal = none := by
  unfold Worker.pull
  cases w.queue with
  | nil => exact h
  | cons r rest => exact Worker.receive_unsubscribed batchSize retries i _ sh r h

/-- Draining a worker sends no signal to a sink without put-signal channel. -/
theorem Worker.drain_unsubscribed (batchSize retries i : Nat) (w : Worker) (sh : Shared)
    (h : sh.client.putSignal = none) :
    (Worker.drain batchSize retries i w sh).2.client.putSignal = none := by
  unfold Worker.drain
  simp only []
  exact Worker.timedFlush_unsubscribed retries i _ _
    (Worker.receive_foldl_unsubscribed batchSize retries i w.queue _ sh h)

/-- A turn of a worker keeps a sink without put-signal channel without one. -/
theorem Streamer.onWorker_unsubscribed (s : Streamer) (i : Nat)
    (f : Worker → Shared → Worker × Shared)
    (hf : ∀ w sh, sh.client.putSignal = none → (f w sh).2.client.putSignal = none)
    (h : s.shared.client.putSignal = none) :
    (s.onWorker i f).shared.client.putSignal = none := by
  unfold Streamer.onWorker
  split
  · exact h
  · split
    · exact h
    · exact hf _ s.shared h

/-- No event gives a put-signal channel to a sink that has none. -/
theorem Streamer.step_unsubscribed (s : Streamer) (e : Event)
    (h : s.shared.client.putSignal = none) :
    (s.step e).shared.client.putSignal = none := by
  cases e with
  | write record =>
    show (s.Write record).2.shared.client.putSignal = none
    unfold Streamer.Write
    cases record with
    | none => exact h
    | some r =>
      simp only []
      split
      · exact h
      · split
        · exact h
        · split
          · exact h
          · split
            · exact Worker.receive_unsubscribed _ _ _ _ s.shared r h
            · split <;> exact h
  | pull i =>
    exact Streamer.onWorker_unsubscribed s i _
      (fun w sh => Worker.pull_unsubscribed s.batchSize s.retries i w sh) h
  | tick i =>
    exact Streamer.onWorker_unsubscribed s i _
      (fun w sh => Worker.timedFlush_unsubscribed s.retries i w sh) h
  | closeBegin =>
    rw [show (s.step Event.closeBegin).shared = s.shared from
      (Streamer.closeBegin_fields s).2.2.2.2]
    exact h
  | drain i =>
    show (s.drain i).shared.client.putSignal = none
    unfold Streamer.drain
    split
    · exact Streamer.onWorker_unsubscribed s i _
        (fun w sh => Worker.drain_unsubscribed s.batchSize s.retries i w sh) h
    · exact h
  | closeEnd =>
    show s.closeEnd.shared.client.putSignal = none
    unfold Streamer.closeEnd
    split
    · rw [Shared.report_client]
      exact (stubBQClient.Close_putSignal s.shared.client).trans h
    · exact h

/-- No run gives a put-signal channel to a sink that has none. -/
theorem Streamer.run_unsubscribed (s : Streamer) (events : List Event)
    (h : s.shared.client.putSignal = none) :
    (s.run events).shared.client.putSignal = none :=
  Streamer.run_induct (fun s => s.shared.client.putSignal = none)
    Streamer.step_unsubscribed events s h

/-- `Close` gives no put-signal channel to a sink that has none. -/
theorem Streamer.Close_unsubscribed (s : Streamer) (h : s.shared.client.putSignal = none) :
    s.Close.shared.client.putSignal = none := by
  by_cases ho : s.state = EngineState.Open
  · rw [Streamer.Close_eq_run s ho]
    exact Streamer.run_unsubscribed s _ h
  · unfold Streamer.Close
    rw [if_neg ho]
    exact h

/-! ## Writes that are rejected -/

/-- Claim C21. For every streamer, whatever happens after `Close` was called on
it (after `Close` returned, and already after its first step, while the workers
still drain), a `Write` of a record fails with `ErrClosed` and leaves the whole
state as it is: the record enters no queue and no batch, so that after every
further run the sink is what it would be without this `Write`. -/
theorem Write_after_Close_fails (s : Streamer) (events : List Event) (r : Record) :
    (s.Close.run events).Write (some r) =
      (WriteResult.error WriteError.ErrClosed, s.Close.run events) ∧
    (s.closeBegin.run events).Write (some r) =
      (WriteResult.error WriteError.ErrClosed, s.closeBegin.run events) ∧
    ∀ later, (((s.Close.run events).Write (some r)).2.run later).shared.client =
      ((s.Close.run events).run later).shared.client := by
  have hno : (s.Close.run events).state ≠ EngineState.Open :=
    Streamer.run_not_open s.Close events (Streamer.Close_not_open s)
  have hnb : (s.closeBegin.run events).state ≠ EngineState.Open :=
    Streamer.run_not_open s.closeBegin events (Streamer.closeBegin_not_open s)
  have hw : (s.Close.run events).Write (some r) =
      (WriteResult.error WriteError.ErrClosed, s.Close.run events) := by
    unfold Streamer.Write
    simp only []
    rw [if_pos hno]
  have hw2 : (s.closeBegin.run events).Write (some r) =
      (WriteResult.error WriteError.ErrClosed, s.closeBegin.run events) := by
    unfold Streamer.Write
    simp only []
    rw [if_pos hnb]
  exact ⟨hw, hw2, fun later => by rw [hw]⟩

/-- Claim C22. For every streamer, in whatever state, open or closed,
`Write(nil)` fails with `ErrInvalidRecord` and leaves the whole state as it is,
the sink included. -/
theorem Write_nil_fails (s : Streamer) :
    s.Write none = (WriteResult.error WriteError.ErrInvalidRecord, s) ∧
    (s.Close.Write none).1 = WriteResult.error WriteError.ErrInvalidRecord ∧
    (s.Write none).2.shared.client = s.shared.client :=
  ⟨rfl, rfl, rfl⟩

/-! ## Delivery -/

/-- Claim C23. Take any run of an engine from its construction with an empty
sink that never errs (any interleaving of writes, pulls, timer firings and
shutdown steps), the state `s` it reaches, and its accepted writes: the records
whose `Write` returned without error, in the order of the calls. Then the sink
holds exactly the batches handed to it, in the order handed, each handed by a
worker of the pool; for every worker, the rows it has sent, then its batch,
then its queue are the accepted records routed to it, in the order written, and
the rows it has sent are in the sink in that order; each record occurs among the
accepted writes as often as in the sink, the batches and the queues together;
and once the engine is closed every worker has sent all the records routed to
it and each record occurs in the sink exactly as often as it was accepted. -/
theorem sink_receives_each_record_once (workerCount queueSize batchSize retries : Nat)
    (client : stubBQClient) (hn : client.nextErrors = []) (hr : client.rows = [])
    (events : List Event) (s : Streamer)
    (hs : s = (newStreamer workerCount queueSize batchSize retries client).run events) :
    s.shared.client.rows = s.shared.sent ∧
    (∀ p, p ∈ s.shared.handed → p.1 < s.workers.length) ∧
    (∀ i w, s.workers[i]? = some w →
      s.shared.sentBy i ++ w.batch ++ w.queue =
        (newStreamer workerCount queueSize batchSize retries client).routed events i ∧
      (s.shared.sentBy i).Sublist s.shared.client.rows) ∧
    (∀ r, (((newStreamer workerCount queueSize batchSize retries client).accepted
        events).map (fun p => p.2)).count r =
      s.shared.client.rows.count r +
        (s.workers.map (fun w => w.batch.count r + w.queue.count r)).sum) ∧
    (s.state = EngineState.Closed →
      (∀ i w, s.workers[i]? = some w →
        s.shared.sentBy i =
          (newStreamer workerCount queueSize batchSize retries client).routed events i) ∧
      ∀ r, s.shared.client.rows.count r =
        (((newStreamer workerCount queueSize batchSize retries client).accepted
          events).map (fun p => p.2)).count r) := by
  have hsound : s.Sound := by
    rw [hs]
    exact Streamer.run_sound _ events
      (newStreamer_sound workerCount queueSize batchSize retries client hn hr)
  have hhist : ∀ i w, s.workers[i]? = some w → w.written =
      (newStreamer workerCount queueSize batchSize retries client).routed events i := by
    intro i w hw
    rw [hs] at hw
    exact newStreamer_history workerCount queueSize batchSize retries client events i w hw
  have hcount : ∀ r, (s.workers.map (fun w => w.written.count r)).sum =
      (((newStreamer workerCount queueSize batchSize retries client).accepted
        events).map (fun p => p.2)).count r := by
    intro r
    rw [hs]
    exact newStreamer_count_written workerCount queueSize batchSize retries client events r
  refine ⟨hsound.rows, hsound.tags, fun i w hw => ⟨?_, ?_⟩, fun r => ?_,
    fun hc => ⟨fun i w hw => ?_, fun r => ?_⟩⟩
  · rw [hsound.kept i w hw]
    exact hhist i w hw
  · rw [hsound.rows]
    exact Shared.sentBy_sublist_sent s.shared i
  · rw [← hcount r]
    exact hsound.conservation r
  · rw [((hsound.delivered hc).1 i w hw).2.2]
    exact hhist i w hw
  · rw [(hsound.delivered hc).2 r]
    exact hcount r

/-- Instance of claim C23, the flow of `TestStreamerFlowStandard`: one worker
that hands every record to the sink on its own (batch size 1), a sink with a
put-signal channel, the writes of "hello" and "world" and two pulls, without
any timer firing: both writes return without error, the sink holds exactly
these two rows, in this order, and has sent two put signals. -/
theorem sink_receives_each_record_once_witness :
    ((newStreamer 1 4 1 0 ({} : stubBQClient).SubscribeToPutSignal).run
      [Event.write (some "hello"), Event.write (some "world"), Event.pull 0,
       Event.pull 0]).shared.client =
        { rows := ["hello", "world"], putSignal := some 2 } ∧
    (newStreamer 1 4 1 0 ({} : stubBQClient).SubscribeToPutSignal).accepted
      [Event.write (some "hello"), Event.write (some "world"), Event.pull 0,
       Event.pull 0] = [(0, "hello"), (0, "world")] ∧
    ((newStreamer 1 4 1 0 ({} : stubBQClient).SubscribeToPutSignal).run
      [Event.write (some "hello"), Event.write (some "world"), Event.pull 0,
       Event.pull 0]).shared.client.rows =
    ((newStreamer 1 4 1 0 ({} : stubBQClient).SubscribeToPutSignal).run
      [Event.write (some "hello"), Event.write (some "world"), Event.pull 0,
       Event.pull 0]).shared.sent :=
  ⟨by decide, by decide,
   (sink_receives_each_record_once 1 4 1 0 ({} : stubBQClient).SubscribeToPutSignal rfl rfl
    [Event.write (some "hello"), Event.write (some "world"), Event.pull 0, Event.pull 0]
    _ rfl).1⟩

/-- Claim C24. Take any run of an engine from its construction with an empty
sink that never errs and has no put-signal channel, ending in an open state
`s`, and its accepted writes: the records whose `Write` returned without error.
Then `Close` ends with the engine closed and without any send on a channel;
every worker has neither queue nor batch left and has sent exactly the accepted
records routed to it, in the order written, so that the sink holds every record
written and accepted before `Close`, each as often as it was accepted; with at
least one worker the sink has counted at least one more flush, and with one
worker that has neither queue nor batch exactly one more. -/
theorem Close_drains_and_flushes (workerCount queueSize batchSize retries : Nat)
    (client : stubBQClient) (hn : client.nextErrors = []) (hr : client.rows = [])
    (hp : client.putSignal = none)
    (events : List Event) (s : Streamer)
    (hs : s = (newStreamer workerCount queueSize batchSize retries client).run events)
    (ho : s.state = EngineState.Open) :
    s.Close.state = EngineState.Closed ∧
    s.Close.shared.client.putSignal = none ∧
    (∀ i w, s.Close.workers[i]? = some w →
      w.queue = [] ∧ w.batch = [] ∧
      s.Close.shared.sentBy i =
        (newStreamer workerCount queueSize batchSize retries client).routed events i) ∧
    s.Close.shared.client.rows = s.Close.shared.sent ∧
    (∀ r, s.Close.shared.client.rows.count r =
      (((newStreamer workerCount queueSize batchSize retries client).accepted
        events).map (fun p => p.2)).count r) ∧
    (s.workers ≠ [] → s.shared.client.flushCount + 1 ≤ s.Close.shared.client.flushCount) ∧
    (∀ w, s.workers = [w] → w.queue = [] → w.batch = [] →
      s.Close.shared.client.flushCount = s.shared.client.flushCount + 1) := by
  have hsound : s.Sound := by
    rw [hs]
    exact Streamer.run_sound _ events
      (newStreamer_sound workerCount queueSize batchSize retries client hn hr)
  have hquiet : s.shared.client.putSignal = none := by
    rw [hs]
    exact Streamer.run_unsubscribed _ events hp
  have hcs : s.Close.Sound := by
    rw [Streamer.Close_eq_run s ho]
    exact Streamer.run_sound s _ hsound
  obtain ⟨hc, _, hwr, _⟩ := Streamer.Close_closed s ho
  obtain ⟨hd1, hd2⟩ := hcs.delivered hc
  have h1 : ∀ (r : Record) (l : List Worker), l.map (fun w => w.written.count r) =
      (l.map (fun w => w.written)).map (fun x => x.count r) := by
    intro r l
    rw [List.map_map]
    rfl
  refine ⟨hc, Streamer.Close_unsubscribed s hquiet, fun i w hw => ?_, hcs.rows, fun r => ?_,
    Streamer.Close_flushes s hsound ho, fun w hw hq hb => ?_⟩
  · obtain ⟨g1, g2, g3⟩ := hd1 i w hw
    refine ⟨g1, g2, ?_⟩
    rw [g3]
    have hwi : (s.Close.workers.map (fun w => w.written))[i]? = some w.written := by
      rw [List.getElem?_map, hw]
      rfl
    rw [hwr, List.getElem?_map] at hwi
    cases hsi : s.workers[i]? with
    | none => rw [hsi] at hwi; cases hwi
    | some w0 =>
      rw [hsi] at hwi
      simp only [Option.map_some', Option.some.injEq] at hwi
      rw [← hwi]
      rw [hs] at hsi
      exact newStreamer_history workerCount queueSize batchSize retries client events i w0 hsi
  · rw [hd2 r, h1, hwr, ← h1, hs]
    exact newStreamer_count_written workerCount queueSize batchSize retries client events r
  · have hst : w.stopped = false :=
      hsound.running ho w (by rw [hw]; exact List.mem_singleton_self w)
    rw [Streamer.Close_single_idle s w ho hw hst hq hb, Shared.report_client,
      Shared.explicitFlush_noErr s.retries s.shared hsound.noErr]
    have hcl := stubBQClient.Close_noErr
      { s.shared.client with flushCount := s.shared.client.flushCount + 1 } hsound.noErr
    show (stubBQClient.Close
      { s.shared.client with flushCount := s.shared.client.flushCount + 1 }).2.flushCount = _
    rw [hcl]

/-- Instance of claim C24, the flow of `TestStreamerFlushCount`: with one
worker and no writes the sink has counted one flush after a timer firing and
two after `Close`; and three records written to an engine with batch size 200
are all in the sink after `Close`. -/
theorem Close_drains_and_flushes_witness :
    ((newStreamer 1 4 200 0 {}).run [Event.tick 0]).shared.client.flushCount = 1 ∧
    ((newStreamer 1 4 200 0 {}).run [Event.tick 0]).Close.shared.client.flushCount = 2 ∧
    (newStreamer 1 4 200 0 {}).accepted
      [Event.write (some "a"), Event.write (some "b"), Event.pull 0,
       Event.write (some "c")] = [(0, "a"), (0, "b"), (0, "c")] ∧
    ((newStreamer 1 4 200 0 {}).run
      [Event.write (some "a"), Event.write (some "b"), Event.pull 0,
       Event.write (some "c")]).Close.shared.client.rows = ["a", "b", "c"] ∧
    ((newStreamer 1 4 200 0 {}).run [Event.tick 0]).Close.state = EngineState.Closed :=
  ⟨by decide, by decide, by decide, by decide,
   (Close_drains_and_flushes 1 4 200 0 {} rfl rfl rfl [Event.tick 0] _ rfl (by decide)).1⟩

/-! ## Batch size -/

/-- Claim C25. In every state that an engine with batch size `batchSize`
reaches from its construction, whatever the sink does, the in-progress batch of
every worker has at most `batchSize` records; and when the batch size is 1, no
worker holds a batch between two events and every batch handed to the sink
holds exactly one record. -/
theorem batch_never_exceeds_batchSize (workerCount queueSize batchSize retries : Nat)
    (client : stubBQClient) (events : List Event) :
    (∀ w, w ∈ ((newStreamer workerCount queueSize batchSize retries client).run
        events).workers → w.batch.length ≤ batchSize) ∧
    (batchSize = 1 →
      (∀ w, w ∈ ((newStreamer workerCount queueSize batchSize retries client).run
        events).workers → w.batch = []) ∧
      ∀ p, p ∈ ((newStreamer workerCount queueSize batchSize retries client).run
        events).shared.handed → p.2.length = 1) := by
  obtain ⟨hf, hb⟩ := Streamer.run_fits events _
    (newStreamer_fits workerCount queueSize batchSize retries client)
  have hb' : ((newStreamer workerCount queueSize batchSize retries client).run
      events).batchSize = batchSize := hb
  refine ⟨fun w hw => ?_, fun h1 => ⟨fun w hw => ?_, fun p hp => ?_⟩⟩
  · have := hf.workers w hw
    rw [hb'] at this
    rcases this with h | h
    · exact Nat.le_of_lt h
    · rw [h]
      exact Nat.zero_le _
  · have := hf.workers w hw
    rw [hb', h1] at this
    rcases this with h | h
    · exact List.length_eq_zero.mp (by omega)
    · exact h
  · have := hf.handed p hp
    rw [hb', h1] at this
    omega

/-! ## Errors at shutdown -/

/-- Claim C26. On every open streamer whose sink has no put-signal channel,
with any number of workers, any records pending and any errors queued in the
sink, `Close` returns (it has no error result, and no send on a channel is
attempted), the engine is closed and every worker is stopped. Every error that
a sink call returns during `Close` and that survives the retry policy is
logged: during the draining (the puts of the batches and the final flush of
every worker) the sink returns the errors `consumed` from the head of its
queue of errors, and the log grows by exactly those of them that the retry
policy surfaces; then the error of the sink's `Close`, if it returns one, is
appended. Without retries, every error that the sink returned is in the log,
in the order returned. With one worker that has neither queue nor batch, the
log is the log before `Close` followed by the error of the final flush, if it
failed, and by the error of the sink's `Close`, if it failed. -/
theorem Close_logs_sink_errors (s : Streamer) (ho : s.state = EngineState.Open)
    (hp : s.shared.client.putSignal = none) :
    s.Close.state = EngineState.Closed ∧
    (∀ w, w ∈ s.Close.workers → w.stopped = true) ∧
    s.Close.shared.client.putSignal = none ∧
    (∃ consumed,
      s.shared.client.nextErrors = consumed ++
        ((List.range s.workers.length).foldl Streamer.drain
          s.closeBegin).shared.client.nextErrors ∧
      ((List.range s.workers.length).foldl Streamer.drain s.closeBegin).shared.logged =
        s.shared.logged ++ surfaced s.retries consumed) ∧
    s.Close.shared.logged =
      ((List.range s.workers.length).foldl Streamer.drain s.closeBegin).shared.logged ++
        ((List.range s.workers.length).foldl Streamer.drain
          s.closeBegin).shared.client.Close.1.toList ∧
    (s.retries = 0 →
      s.Close.shared.logged ++ s.Close.shared.client.nextErrors =
        s.shared.logged ++ s.shared.client.nextErrors) ∧
    (∀ w, s.workers = [w] → w.stopped = false → w.queue = [] → w.batch = [] →
      s.Close.shared.logged =
        s.shared.logged ++ (flushWithRetry s.retries s.shared.client).1.toList ++
          (flushWithRetry s.retries s.shared.client).2.Close.1.toList) := by
  obtain ⟨h1, h2, _, h4⟩ := Streamer.Close_closed s ho
  have hb : s.closeBegin.retries = s.retries ∧ s.closeBegin.shared = s.shared :=
    ⟨(Streamer.closeBegin_fields s).2.2.1, (Streamer.closeBegin_fields s).2.2.2.2⟩
  have hlogs := Streamer.drain_foldl_logs (List.range s.workers.length) s.closeBegin
  rw [hb.1, hb.2] at hlogs
  obtain ⟨consumed, c1, c2, _⟩ := hlogs
  refine ⟨h1, h2, Streamer.Close_unsubscribed s hp, ⟨consumed, c1, c2⟩, h4, fun h0 => ?_,
    fun w hw hst hq hb => ?_⟩
  · rw [Streamer.Close_shared s ho, Shared.report_logged, Shared.report_client]
    show (_ ++ _) ++ (stubBQClient.Close _).2.nextErrors = _
    rw [List.append_assoc, stubBQClient.Close_pops, c2, c1, h0, surfaced_zero,
      List.append_assoc]
  · rw [Streamer.Close_single_idle s w ho hw hst hq hb, Shared.report_logged]
    unfold Shared.explicitFlush
    simp only [Shared.report_logged, Shared.report_client]

/-- Instance of claim C26, the flow of `TestStreamerCloseError`: with the error
"some client close error" queued in the sink, `Close` leaves the streamer
closed and the error in the log; with two errors queued and no retry, the
second is returned by the sink's `Close` and is logged as well; and with a
record pending, three errors queued and one retry, the put of the batch fails
twice and its last error is logged, the sink's `Close` returns the third. -/
theorem Close_logs_sink_errors_witness :
    (newStreamer 1 4 200 0
      (({} : stubBQClient).AddNextError "some client close error")).Close.state =
        EngineState.Closed ∧
    (newStreamer 1 4 200 0
      (({} : stubBQClient).AddNextError "some client close error")).Close.shared.logged =
        ["some client close error"] ∧
    (newStreamer 1 4 200 0
      ((({} : stubBQClient).AddNextError "flush failed").AddNextError
        "close failed")).Close.shared.logged = ["flush failed", "close failed"] ∧
    ((newStreamer 1 4 200 1
      (((({} : stubBQClient).AddNextError "put failed").AddNextError
        "put failed again").AddNextError "close failed")).run
      [Event.write (some "a")]).Close.shared.logged =
        ["put failed again", "close failed"] :=
  ⟨(Close_logs_sink_errors (newStreamer 1 4 200 0
      (({} : stubBQClient).AddNextError "some client close error")) rfl rfl).1,
   by decide, by decide, by decide⟩

/-! ## Sanitising twice -/

/-- Sanitising a sanitised insert-all config changes nothing, when the default
batch size is not negative. -/
theorem sanitizeInsertAllClientConfig_twice (k : Constants) (hb : 0 ≤ k.DefaultBatchSize)
    (cfg : Option InsertAllClientConfig) :
    sanitizeInsertAllClientConfig k (some (sanitizeInsertAllClientConfig k cfg)) =
      sanitizeInsertAllClientConfig k cfg := by
  rw [sanitizeInsertAllClientConfig_fields k cfg]
  generalize readCfg cfg {} = c
  rw [sanitizeInsertAllClientConfig_fields k (some _)]
  simp only [readCfg]
  have h1 : (if (if c.BatchSize < 0 then 1 else if c.BatchSize = 0 then k.DefaultBatchSize
        else c.BatchSize) < 0 then 1
      else if (if c.BatchSize < 0 then 1 else if c.BatchSize = 0 then k.DefaultBatchSize
        else c.BatchSize) = 0 then k.DefaultBatchSize
      else (if c.BatchSize < 0 then 1 else if c.BatchSize = 0 then k.DefaultBatchSize
        else c.BatchSize)) =
      (if c.BatchSize < 0 then 1 else if c.BatchSize = 0 then k.DefaultBatchSize
        else c.BatchSize) := by
    split_ifs <;> omega
  have h2 : (if (if c.MaxRetryDeadlineOffset = 0 then k.DefaultMaxRetryDeadlineOffset
        else c.MaxRetryDeadlineOffset) = 0 then k.DefaultMaxRetryDeadlineOffset
      else (if c.MaxRetryDeadlineOffset = 0 then k.DefaultMaxRetryDeadlineOffset
        else c.MaxRetryDeadlineOffset)) =
      (if c.MaxRetryDeadlineOffset = 0 then k.DefaultMaxRetryDeadlineOffset
        else c.MaxRetryDeadlineOffset) := by
    split_ifs <;> simp_all
  rw [h1, h2]

/-- Sanitising a sanitised storage config changes nothing. -/
theorem sanitizeStorageClientConfig_twice (cfg st : Option StorageClientConfig)
    (h : sanitizeStorageClientConfig cfg = (st, none)) :
    sanitizeStorageClientConfig st = (st, none) := by
  cases cfg with
  | none =>
    simp only [sanitizeStorageClientConfig, Prod.mk.injEq, and_true] at h
    subst h
    rfl
  | some c =>
    by_cases hbad : c.ProtobufDescriptor = none ∧ c.BigQuerySchema = none
    · simp [sanitizeStorageClientConfig, hbad] at h
    · simp only [sanitizeStorageClientConfig, if_neg hbad, Prod.mk.injEq, and_true] at h
      subst h
      simp only [sanitizeStorageClientConfig, if_neg hbad]

/-- Sanitising a sanitised batch config changes nothing. -/
theorem sanitizeBatchClientConfig_twice (k : Constants) (cfg bt : Option BatchClientConfig)
    (h : sanitizeBatchClientConfig k cfg = (bt, none)) :
    sanitizeBatchClientConfig k bt = (bt, none) := by
  cases cfg with
  | none =>
    simp only [sanitizeBatchClientConfig, Prod.mk.injEq, and_true] at h
    subst h
    rfl
  | some b =>
    rw [sanitizeBatchClientConfig_some] at h
    by_cases hbad : b.BigQuerySchema = none ∧
        (if b.SourceFormat ≠ "" then b.SourceFormat else k.DefaultSourceFormat)
          ≠ bigqueryJSON ∧
        (if b.SourceFormat ≠ "" then b.SourceFormat else k.DefaultSourceFormat)
          ≠ bigqueryCSV
    · rw [if_pos hbad] at h
      simp at h
    · rw [if_neg hbad] at h
      simp only [Prod.mk.injEq, and_true] at h
      subst h
      rw [sanitizeBatchClientConfig_some]
      by_cases hf : b.SourceFormat ≠ "" <;> by_cases hw : b.WriteDisposition ≠ "" <;>
        simp_all <;> exact hbad

/-- Claim C32. When the storage client of the input config has neither
descriptor nor schema and its batch client has no schema and a source format
(the given one, or the default for an empty one) that is neither JSON nor CSV,
`sanitizeStreamerConfig` returns `ErrProtobufOrSChemaRequired` and a nil
config, although the batch client is invalid too: on its own it is rejected
with `ErrAutoDetectSchemaNotSupported`, and that is the error of the same config
without storage client. -/
theorem sanitizeStreamerConfig_storage_error_first (k : Constants) (c : StreamerConfig)
    (st : StorageClientConfig) (bt : BatchClientConfig)
    (hs : c.StorageClient = some st)
    (hd : st.ProtobufDescriptor = none) (hsch : st.BigQuerySchema = none)
    (hb : c.BatchClient = some bt) (hbs : bt.BigQuerySchema = none)
    (hj : (if bt.SourceFormat ≠ "" then bt.SourceFormat else k.DefaultSourceFormat)
      ≠ bigqueryJSON)
    (hc : (if bt.SourceFormat ≠ "" then bt.SourceFormat else k.DefaultSourceFormat)
      ≠ bigqueryCSV) :
    sanitizeStreamerConfig k (some c) = (none, some Error.ErrProtobufOrSChemaRequired) ∧
    sanitizeBatchClientConfig k c.BatchClient =
      (none, some Error.ErrAutoDetectSchemaNotSupported) ∧
    sanitizeStreamerConfig k (some { c with StorageClient := none }) =
      (none, some Error.ErrAutoDetectSchemaNotSupported) := by
  have hbe : sanitizeBatchClientConfig k (some bt) =
      (none, some Error.ErrAutoDetectSchemaNotSupported) := by
    rw [sanitizeBatchClientConfig_some, if_pos ⟨hbs, hj, hc⟩]
  refine ⟨?_, by rw [hb]; exact hbe, ?_⟩
  · have hres := sanitizeStreamerConfig_result k (some c)
    simp only [readCfg] at hres
    have hse : (sanitizeStorageClientConfig c.StorageClient).2 =
        some Error.ErrProtobufOrSChemaRequired := by
      rw [hs]
      simp [sanitizeStorageClientConfig, hd, hsch]
    rcases hres with ⟨e, he, hr⟩ | ⟨hn, _⟩ | ⟨hn, _⟩
    · rw [hse] at he
      cases he
      exact hr
    · rw [hse] at hn
      cases hn
    · rw [hse] at hn
      cases hn
  · have hres := sanitizeStreamerConfig_result k (some { c with StorageClient := none })
    simp only [readCfg] at hres
    have hbe2 : (sanitizeBatchClientConfig k c.BatchClient).2 =
        some Error.ErrAutoDetectSchemaNotSupported := by
      rw [hb, hbe]
    rcases hres with ⟨e, he, _⟩ | ⟨_, e, he, hr⟩ | ⟨_, hn, _⟩
    · simp [sanitizeStorageClientConfig] at he
    · rw [hbe2] at he
      cases he
      exact hr
    · rw [hbe2] at hn
      cases hn

/-- Instance of claim C32: a zero-valued storage client together with a batch
client for Avro without schema gives the storage error. -/
theorem sanitizeStreamerConfig_storage_error_first_witness :
    sanitizeStreamerConfig sampleConstants
      (some { StorageClient := some {},
              BatchClient := some { SourceFormat := bigqueryAvro } }) =
      (none, some Error.ErrProtobufOrSChemaRequired) ∧
    sanitizeStreamerConfig sampleConstants
      (some { BatchClient := some { SourceFormat := bigqueryAvro } }) =
      (none, some Error.ErrAutoDetectSchemaNotSupported) :=
  ⟨(sanitizeStreamerConfig_storage_error_first sampleConstants
      { StorageClient := some {}, BatchClient := some { SourceFormat := bigqueryAvro } }
      {} { SourceFormat := bigqueryAvro } rfl rfl rfl rfl rfl (by decide) (by decide)).1,
   by decide⟩

/-- Claim C31 fails on the code. A negative queue size is sanitised to 0, and a
queue size of 0 is sanitised to the default: the input with queue size -1
gives a config with queue size 0, and sanitising that config succeeds with
queue size 100, half of the default batch size, so the second result is not the
first. -/
theorem sanitizeStreamerConfig_not_idempotent :
    sanitizeStreamerConfig sampleConstants (some { WorkerQueueSize := -1 }) =
      (some { expectedDefaultStreamerConfig sampleConstants with WorkerQueueSize := 0 },
        none) ∧
    sanitizeStreamerConfig sampleConstants
      (some { expectedDefaultStreamerConfig sampleConstants with WorkerQueueSize := 0 }) =
      (some { expectedDefaultStreamerConfig sampleConstants with WorkerQueueSize := 100 },
        none) ∧
    sanitizeStreamerConfig sampleConstants
      (some { expectedDefaultStreamerConfig sampleConstants with WorkerQueueSize := 0 }) ≠
      (some { expectedDefaultStreamerConfig sampleConstants with WorkerQueueSize := 0 },
        none) := by
  decide

/-- Claim C31, amended. When the default worker count and the default batch
size are not negative, `sanitizeStreamerConfig` is idempotent on every input
(the nil input included) whose queue size is not negative and on which it
succeeds with a result `s` whose queue size is not negative: sanitising `s`
succeeds and returns `s`, equal in every field. -/
theorem sanitizeStreamerConfig_idempotent (k : Constants)
    (hwc : 0 ≤ k.DefaultWorkerCount) (hbs : 0 ≤ k.DefaultBatchSize)
    (cfg : Option StreamerConfig) (s : StreamerConfig)
    (h : sanitizeStreamerConfig k cfg = (some s, none))
    (hq : 0 ≤ (readCfg cfg {}).WorkerQueueSize) (hsq : 0 ≤ s.WorkerQueueSize) :
    sanitizeStreamerConfig k (some s) = (some s, none) := by
  obtain ⟨f1, f2, f3, f4, f5, f6, f7⟩ := sanitizeStreamerConfig_ok_fields k cfg s h
  -- the two client sanitisers raised no error on the input
  have hfirst := sanitizeStreamerConfig_result k cfg
  have hse : (sanitizeStorageClientConfig (readCfg cfg {}).StorageClient).2 = none := by
    rcases hfirst with ⟨e, _, hr⟩ | ⟨_, e, _, hr⟩ | ⟨hn, _, _⟩
    · rw [hr] at h; cases h
    · rw [hr] at h; cases h
    · exact hn
  have hbe : (sanitizeBatchClientConfig k (readCfg cfg {}).BatchClient).2 = none := by
    rcases hfirst with ⟨e, _, hr⟩ | ⟨_, e, _, hr⟩ | ⟨_, hn, _⟩
    · rw [hr] at h; cases h
    · rw [hr] at h; cases h
    · exact hn
  generalize readCfg cfg {} = c at f1 f2 f3 f4 f5 f6 f7 hq hse hbe
  have hst : sanitizeStorageClientConfig s.StorageClient = (s.StorageClient, none) :=
    sanitizeStorageClientConfig_twice c.StorageClient s.StorageClient (Prod.ext f6.symm hse)
  have hbt : sanitizeBatchClientConfig k s.BatchClient = (s.BatchClient, none) :=
    sanitizeBatchClientConfig_twice k c.BatchClient s.BatchClient (Prod.ext f7.symm hbe)
  have hia : sanitizeInsertAllClientConfig k s.InsertAllClient =
      sanitizeInsertAllClientConfig k c.InsertAllClient := by
    rw [f2]
    exact sanitizeInsertAllClientConfig_twice k hbs c.InsertAllClient
  have hsn : (s.StorageClient = none) ↔ (c.StorageClient = none) := by
    rw [f6]
    cases hc : c.StorageClient with
    | none => simp [sanitizeStorageClientConfig]
    | some x =>
      rw [hc] at hse
      by_cases hbad : x.ProtobufDescriptor = none ∧ x.BigQuerySchema = none
      · simp [sanitizeStorageClientConfig, hbad] at hse
      · simp [sanitizeStorageClientConfig, hbad]
  -- the second run
  have hres := sanitizeStreamerConfig_result k (some s)
  simp only [readCfg] at hres
  rcases hres with ⟨e, he, _⟩ | ⟨_, e, he, _⟩ | ⟨_, _, out, hout⟩
  · rw [hst] at he; cases he
  · rw [hbt] at he; cases he
  · obtain ⟨g1, g2, g3, g4, g5, g6, g7⟩ := sanitizeStreamerConfig_ok_fields k (some s) out hout
    simp only [readCfg] at g1 g2 g3 g4 g5 g6 g7
    have hos : out = s := by
      apply StreamerConfig.eq_of_fields
      · rw [g1]
        have : 0 ≤ s.WorkerCount := by
          rw [f1]
          split_ifs <;> omega
        by_cases h0 : s.WorkerCount = 0
        · rw [if_neg (by omega), if_pos h0]
          rw [f1] at h0 ⊢
          split_ifs at h0 ⊢ <;> omega
        · rw [if_neg (by omega), if_neg h0]
      · rw [g3, if_neg (by omega)]
        by_cases h0 : s.WorkerQueueSize = 0
        · rw [if_pos h0, hia]
          by_cases hc0 : c.WorkerQueueSize = 0
          · have hv : s.WorkerQueueSize =
                (if c.StorageClient = none then
                  goDiv (goAdd (sanitizeInsertAllClientConfig k c.InsertAllClient).BatchSize 1) 2
                else k.DefaultWorkerQueueSize) := by
              rw [f3, if_neg (by omega), if_pos hc0]
            rw [hv]
            by_cases hcs : c.StorageClient = none
            · rw [if_pos hcs, if_pos (hsn.mpr hcs)]
            · rw [if_neg hcs, if_neg (fun hx => hcs (hsn.mp hx))]
          · rw [f3, if_neg (by omega), if_neg hc0] at h0
            exact absurd h0 hc0
        · rw [if_neg h0]
      · rw [g4]
        by_cases h0 : s.MaxBatchDelay = 0
        · rw [if_pos h0]
          rw [f4] at h0 ⊢
          split_ifs at h0 ⊢
          · rfl
          · exact absurd h0 ‹_›
        · rw [if_neg h0]
      · rw [g5]
        have : s.Logger ≠ none := by
          rw [f5]
          split_ifs with hl
          · simp
          · exact hl
        rw [if_neg this]
      · rw [g2, hia, f2]
      · rw [g6, hst]
      · rw [g7, hbt]
    rw [hout, hos]

/-- Instances of the amended claim C31: the sanitised nil input and the
sanitised config with 3 workers, a queue of 7 rows, a storage client with a
schema and a batch client for CSV are returned unchanged by a second run. -/
theorem sanitizeStreamerConfig_idempotent_witness :
    sanitizeStreamerConfig sampleConstants none =
      (some (expectedDefaultStreamerConfig sampleConstants), none) ∧
    sanitizeStreamerConfig sampleConstants
      (some (expectedDefaultStreamerConfig sampleConstants)) =
      (some (expectedDefaultStreamerConfig sampleConstants), none) ∧
    sanitizeStreamerConfig sampleConstants
      (some { expectedDefaultStreamerConfig sampleConstants with
                WorkerCount := 3, WorkerQueueSize := 7,
                StorageClient := some { BigQuerySchema := some ⟨1⟩ },
                BatchClient := some { SourceFormat := bigqueryCSV,
                                      WriteDisposition := bigqueryWriteAppend } }) =
      (some { expectedDefaultStreamerConfig sampleConstants with
                WorkerCount := 3, WorkerQueueSize := 7,
                StorageClient := some { BigQuerySchema := some ⟨1⟩ },
                BatchClient := some { SourceFormat := bigqueryCSV,
                                      WriteDisposition := bigqueryWriteAppend } }, none) :=
  ⟨by decide,
   sanitizeStreamerConfig_idempotent sampleConstants (by decide) (by decide) none
    (expectedDefaultStreamerConfig sampleConstants) (by decide) (by decide) (by decide),
   sanitizeStreamerConfig_idempotent sampleConstants (by decide) (by decide)
    (some { WorkerCount := 3, WorkerQueueSize := 7,
            StorageClient := some { BigQuerySchema := some ⟨1⟩ },
            BatchClient := some { SourceFormat := bigqueryCSV } })
    { expectedDefaultStreamerConfig sampleConstants with
        WorkerCount := 3, WorkerQueueSize := 7,
        StorageClient := some { BigQuerySchema := some ⟨1⟩ },
        BatchClient := some { SourceFormat := bigqueryCSV,
                              WriteDisposition := bigqueryWriteAppend } }
    (by decide) (by decide) (by decide)⟩

end Bqwriter
